import Mathlib

/-!
# Stereo framepoint generation and frame registry

A shallow embedding of `stereo_framepoint_generator.cpp` and `frame.cpp`.

Conventions of the embedding:

* `real` and the `float` pixel coordinates of `cv::Point2f` are exact rationals `ℚ`.
* `std::vector` is `List`; an index is a `Nat` (the `uint32_t` cursors never exceed the
  length of the sequence they walk, so no wrap-around occurs for sequences shorter than `2^32`).
* Every element access is checked: reading past the end of a sequence is the outcome
  `Failure.outOfRange`, dereferencing a null or dangling pointer is `Failure.invalidPointer`.
* A C++ `throw` and a failed `assert` are outcomes of their own.
* Pointers are addresses (`Nat`) into an explicit `Memory`; the null pointer is `none`.
-/

namespace proslam

/-! ## Outcomes -/

/-- Ways in which an operation can end without a result. -/
inductive Failure where
  /-- The exception `ExceptionTriangulation` was thrown. -/
  | exceptionTriangulation
  /-- An `assert(...)` did not hold. -/
  | assertionFailed
  /-- An element of a sequence was read at an index that is not below its length. -/
  | outOfRange
  /-- A null pointer, or a pointer to an object that is not allocated, was dereferenced. -/
  | invalidPointer
  /-- The exception `std::runtime_error` was thrown by `FramePtrMap::put`. -/
  | doubleInsertion
  /-- The exception `std::runtime_error` was thrown by `FramePtrMap::replace`. -/
  | cannotReplaceInexistingFrame
deriving DecidableEq, Repr

/-! ## Image features -/

/-- The type `cv::Point2f`: `x` is the column, `y` is the row. -/
structure Point2f where
  x : ℚ
  y : ℚ
deriving DecidableEq

/-- The type `cv::KeyPoint`; only its position `pt` is read by the code. -/
structure KeyPoint where
  pt : Point2f
deriving DecidableEq

/-- One descriptor row of a `cv::Mat`, as a bit vector. -/
abbrev Descriptor := List Bool

/-- The type `IntensityFeature`: a keypoint with its descriptor. -/
structure IntensityFeature where
  keypoint : KeyPoint
  descriptor : Descriptor
deriving DecidableEq

/-- The type `PointCoordinates` (a 3D vector). -/
structure PointCoordinates where
  x : ℚ
  y : ℚ
  z : ℚ
deriving DecidableEq

/-- The enumeration `Frame::Status`. -/
inductive Status where
  | Localizing
  | Tracking
deriving DecidableEq, Repr

/-! ## The stereo framepoint generator -/

/-- The type `StereoFramePointGeneratorParameters`. -/
structure StereoFramePointGeneratorParameters where
  number_of_cameras : Nat
  minimum_disparity_pixels : ℚ
  maximum_matching_distance_triangulation : ℚ

/-- Modelled from the spec: `Frame::createFramepoint` and `Frame::createdPoints`, which the
matcher calls but which are not part of the two source files. For each accepted pair the matcher
"creates an owned FramePoint on the Frame"; a created point is represented by the arguments of the
call that created it, together with the two cursor values `index_L` and `index_best_R` at which
the call was made, and `createdPoints()` is the list of the created points in creation order. -/
structure StereoMatch where
  index_L : Nat
  index_best_R : Nat
  keypoint_left : KeyPoint
  descriptor_left : Descriptor
  keypoint_right : KeyPoint
  descriptor_right : Descriptor
  point_in_camera_left : PointCoordinates
deriving DecidableEq

/-- The members of `StereoFramePointGenerator` (with those of its base class that the two
functions read). `descriptor_norm` and `descriptor_size_bits` stand for the build-time
constants `SRRG_PROSLAM_DESCRIPTOR_NORM` (as used by `cv::norm`) and
`SRRG_PROSLAM_DESCRIPTOR_SIZE_BITS`, whose definitions are not part of the two source files. -/
structure StereoFramePointGenerator where
  parameters : StereoFramePointGeneratorParameters
  descriptor_norm : Descriptor → Descriptor → ℚ
  descriptor_size_bits : ℚ
  focal_length_pixels : ℚ
  principal_point_offset_u_pixels : ℚ
  principal_point_offset_v_pixels : ℚ
  baseline_pixelsmeters : ℚ
  baseline_meters : ℚ
  maximum_depth_far_meters : ℚ
  maximum_depth_near_meters : ℚ
  keypoints_with_descriptors_left : List IntensityFeature
  keypoints_with_descriptors_right : List IntensityFeature
  framepoints_in_image : Nat → Nat → Option StereoMatch
  number_of_available_points : Nat
  triangulation_success_ratios : List ℚ
  mean_triangulation_success_ratio : ℚ
  number_of_triangulations : Nat

/-- The function `StereoFramePointGenerator::configure`. `projection_matrix_right_0_3` is
`_camera_right->projectionMatrix()(0,3)`; `base_configure` is `BaseFramePointGenerator::configure`,
which is not part of the two source files. `camera_right_present` is the asserted pointer. -/
def StereoFramePointGenerator.configure (g : StereoFramePointGenerator)
    (camera_right_present : Bool) (projection_matrix_right_0_3 : ℚ)
    (base_configure : StereoFramePointGenerator → StereoFramePointGenerator) :
    Except Failure StereoFramePointGenerator :=
  if camera_right_present then
    let g1 := base_configure { g with parameters := { g.parameters with number_of_cameras := 2 } }
    let g2 := { g1 with triangulation_success_ratios := [] }
    let g3 := { g2 with baseline_pixelsmeters := projection_matrix_right_0_3 }
    let g4 := { g3 with baseline_meters := -g3.baseline_pixelsmeters / g3.focal_length_pixels }
    let g5 := { g4 with
      maximum_depth_far_meters := -g4.baseline_pixelsmeters / g4.parameters.minimum_disparity_pixels }
    let g6 := { g5 with maximum_depth_near_meters := g5.maximum_depth_far_meters / 10 }
    .ok { g6 with keypoints_with_descriptors_left := [], keypoints_with_descriptors_right := [] }
  else
    .error .assertionFailed

/-- The function `StereoFramePointGenerator::getCoordinatesInCameraLeft`. -/
def StereoFramePointGenerator.getCoordinatesInCameraLeft (g : StereoFramePointGenerator)
    (image_coordinates_left image_coordinates_right : Point2f) :
    Except Failure PointCoordinates :=
  if image_coordinates_left.x - image_coordinates_right.x
      < g.parameters.minimum_disparity_pixels then
    .error .exceptionTriangulation
  else if ¬ (image_coordinates_right.x < image_coordinates_left.x) then
    .error .assertionFailed
  else if ¬ (image_coordinates_right.y = image_coordinates_left.y) then
    .error .assertionFailed
  else
    let depth_meters :=
      g.baseline_pixelsmeters / (image_coordinates_right.x - image_coordinates_left.x)
    if ¬ (depth_meters ≥ 0) then
      .error .assertionFailed
    else
      let depth_meters_per_pixel := depth_meters / g.focal_length_pixels
      .ok { x := depth_meters_per_pixel
                  * (image_coordinates_left.x - g.principal_point_offset_u_pixels)
            y := depth_meters_per_pixel
                  * (image_coordinates_left.y - g.principal_point_offset_v_pixels)
            z := depth_meters }

/-- The first inner loop of `findStereoKeypoints` (lines 141-143): while the left row is above
the right row, advance `index_L`, leaving the loop when it reaches the end. -/
def skipLeft (L R : List IntensityFeature) (index_L index_R : Nat) : Except Failure Nat :=
  if hL : index_L < L.length then
    if hR : index_R < R.length then
      if L[index_L].keypoint.pt.y < R[index_R].keypoint.pt.y then
        if index_L + 1 = L.length then .ok (index_L + 1)
        else skipLeft L R (index_L + 1) index_R
      else .ok index_L
    else .error .outOfRange
  else .error .outOfRange
termination_by L.length - index_L

/-- The second inner loop of `findStereoKeypoints` (lines 147-149): while the left row is below
the right row, advance `index_R`, leaving the loop when it reaches the end. -/
def skipRight (L R : List IntensityFeature) (index_L index_R : Nat) : Except Failure Nat :=
  if hL : index_L < L.length then
    if hR : index_R < R.length then
      if L[index_L].keypoint.pt.y > R[index_R].keypoint.pt.y then
        if index_R + 1 = R.length then .ok (index_R + 1)
        else skipRight L R index_L (index_R + 1)
      else .ok index_R
    else .error .outOfRange
  else .error .outOfRange
termination_by R.length - index_R

/-- The scan of the epipolar line (lines 158-170); returns `(distance_best, index_best_R)`. -/
def scanEpipolarLine (g : StereoFramePointGenerator) (L R : List IntensityFeature)
    (index_L index_search_R : Nat) (distance_best : ℚ) (index_best_R : Nat) :
    Except Failure (ℚ × Nat) :=
  if hL : index_L < L.length then
    if hR : index_search_R < R.length then
      if L[index_L].keypoint.pt.y = R[index_search_R].keypoint.pt.y then
        if L[index_L].keypoint.pt.x - R[index_search_R].keypoint.pt.x
            < g.parameters.minimum_disparity_pixels then
          .ok (distance_best, index_best_R)
        else
          let distance_hamming :=
            g.descriptor_norm L[index_L].descriptor R[index_search_R].descriptor
          let best : ℚ × Nat :=
            if distance_hamming < distance_best then (distance_hamming, index_search_R)
            else (distance_best, index_best_R)
          if index_search_R + 1 = R.length then .ok best
          else scanEpipolarLine g L R index_L (index_search_R + 1) best.1 best.2
      else .ok (distance_best, index_best_R)
    else .error .outOfRange
  else .error .outOfRange
termination_by R.length - index_search_R

/-- The loop `skipLeft` never moves the left cursor backwards (the `for` loop of the matcher
terminates because of this). -/
theorem skipLeft_ge (L R : List IntensityFeature) (index_L index_R i : Nat)
    (h : skipLeft L R index_L index_R = .ok i) : index_L ≤ i := by
  induction index_L, index_R using skipLeft.induct L R with
  | case1 x y hL hR hlt hend =>
    rw [skipLeft] at h
    simp only [hL, hR, hlt, hend, dite_true, if_true] at h
    cases h; omega
  | case2 x y hL hR hlt hend ih =>
    rw [skipLeft] at h
    simp only [hL, hR, hlt, hend, dite_true, if_true, if_false] at h
    have := ih h; omega
  | case3 x y hL hR hlt =>
    rw [skipLeft] at h
    simp only [hL, hR, hlt, dite_true, if_false] at h
    cases h; omega
  | case4 x y hL hR =>
    rw [skipLeft] at h
    simp only [hL, hR, dite_true, dite_false] at h
    cases h
  | case5 x y hL =>
    rw [skipLeft] at h
    simp only [hL, dite_false] at h
    cases h

/-- What the sweep of `findStereoKeypoints` leaves behind: the `createFramepoint` calls it made,
in order, and the failure that ended it early, if any. -/
structure SweepResult where
  created : List StereoMatch
  failure : Option Failure

/-- The `for` loop of `findStereoKeypoints` (lines 135-192), entered at its condition with the
cursors `index_L` and `index_R`. -/
def sweep (g : StereoFramePointGenerator) (maximum_matching_distance_triangulation : ℚ)
    (L R : List IntensityFeature) (index_L index_R : Nat) : SweepResult :=
  if hL : index_L < L.length then
    if index_R = R.length then ⟨[], none⟩
    else
      match h1 : skipLeft L R index_L index_R with
      | .error e => ⟨[], some e⟩
      | .ok index_L1 =>
        if index_L1 = L.length then ⟨[], none⟩
        else
          match skipRight L R index_L1 index_R with
          | .error e => ⟨[], some e⟩
          | .ok index_R1 =>
            if index_R1 = R.length then ⟨[], none⟩
            else
              match scanEpipolarLine g L R index_L1 index_R1
                  maximum_matching_distance_triangulation 0 with
              | .error e => ⟨[], some e⟩
              | .ok (distance_best, index_best_R) =>
                if distance_best < maximum_matching_distance_triangulation then
                  if hl : index_L1 < L.length then
                    if hr : index_best_R < R.length then
                      match g.getCoordinatesInCameraLeft L[index_L1].keypoint.pt
                          R[index_best_R].keypoint.pt with
                      | .error e => ⟨[], some e⟩
                      | .ok point_in_camera_left =>
                        let rest := sweep g maximum_matching_distance_triangulation L R
                          (index_L1 + 1) (index_best_R + 1)
                        ⟨{ index_L := index_L1
                           index_best_R := index_best_R
                           keypoint_left := L[index_L1].keypoint
                           descriptor_left := L[index_L1].descriptor
                           keypoint_right := R[index_best_R].keypoint
                           descriptor_right := R[index_best_R].descriptor
                           point_in_camera_left := point_in_camera_left } :: rest.created,
                         rest.failure⟩
                    else ⟨[], some .outOfRange⟩
                  else ⟨[], some .outOfRange⟩
                else
                  sweep g maximum_matching_distance_triangulation L R (index_L1 + 1) index_R1
  else ⟨[], none⟩
termination_by L.length - index_L
decreasing_by
  all_goals
    have := skipLeft_ge L R index_L index_R index_L1 h1
    omega

/-- The comparison handed to `std::sort` (lines 115-116): by row, then by column. -/
def rowColumnLess (a b : IntensityFeature) : Prop :=
  a.keypoint.pt.y < b.keypoint.pt.y
    ∨ (a.keypoint.pt.y = b.keypoint.pt.y ∧ a.keypoint.pt.x < b.keypoint.pt.x)

/-- The comparison is decidable. -/
instance rowColumnLess.decidable : DecidableRel rowColumnLess := fun a b => by
  unfold rowColumnLess; exact inferInstance

/-- The call `std::sort(begin, end, rowColumnLess)`, as a stable insertion sort: `a` may stand
before `b` when `b` is not less than `a`. -/
def sortByRowColumn (features : List IntensityFeature) : List IntensityFeature :=
  features.insertionSort (fun a b => ¬ rowColumnLess b a)

/-- The conversion of a `float` to `uint32_t` (lines 181-182): the integral part. -/
def toUInt32 (value : ℚ) : Nat :=
  (Int.toNat ⌊value⌋) % 2 ^ 32

/-- The assignment `_framepoints_in_image[r][c] = point` (line 183). -/
def writeFramepoint (table : Nat → Nat → Option StereoMatch) (point : StereoMatch) :
    Nat → Nat → Option StereoMatch :=
  fun r c =>
    if r = toUInt32 point.keypoint_left.pt.y ∧ c = toUInt32 point.keypoint_left.pt.x then
      some point
    else table r c

/-- The matching threshold chosen on lines 126-129. -/
def StereoFramePointGenerator.matchingDistance (g : StereoFramePointGenerator)
    (frame_status : Status) : ℚ :=
  if frame_status = Status.Localizing then
    min g.parameters.maximum_matching_distance_triangulation (0.1 * g.descriptor_size_bits)
  else g.parameters.maximum_matching_distance_triangulation

/-- The state after `findStereoKeypoints`: the generator, the frame's `createdPoints()`, the
points created by this call (the tail of `created_points`), and the failure that ended the
call early, if any. -/
structure FindStereoKeypointsResult where
  generator : StereoFramePointGenerator
  created_points : List StereoMatch
  created : List StereoMatch
  failure : Option Failure

/-- The first statements of `findStereoKeypoints` (lines 114-122): both working sequences are
sorted and the number of available points is reset. -/
def StereoFramePointGenerator.sortFeatures (g : StereoFramePointGenerator) :
    StereoFramePointGenerator :=
  { g with
    keypoints_with_descriptors_left := sortByRowColumn g.keypoints_with_descriptors_left
    keypoints_with_descriptors_right := sortByRowColumn g.keypoints_with_descriptors_right
    number_of_available_points := 0 }

/-- The function `StereoFramePointGenerator::findStereoKeypoints`. Of the frame it reads
`status()` and `createdPoints()`, and it appends to the latter through `createFramepoint`.
A failure of the sweep (an exception or a failed assertion) leaves the function before the
statistics are updated. The success ratio is a quotient of rationals; for an empty left sequence
the C++ quotient is not a number, which `ℚ` does not represent (it gives 0). -/
def StereoFramePointGenerator.findStereoKeypoints (g : StereoFramePointGenerator)
    (frame_status : Status) (frame_created_points : List StereoMatch) :
    FindStereoKeypointsResult :=
  let g1 := g.sortFeatures
  let swept := sweep g1 (g1.matchingDistance frame_status)
    g1.keypoints_with_descriptors_left g1.keypoints_with_descriptors_right 0 0
  let g2 := { g1 with
    framepoints_in_image := swept.created.foldl writeFramepoint g1.framepoints_in_image }
  let created_points := frame_created_points ++ swept.created
  match swept.failure with
  | some e =>
    { generator := g2, created_points := created_points, created := swept.created,
      failure := some e }
  | none =>
    let g3 := { g2 with number_of_available_points := created_points.length }
    let triangulation_succcess_ratio : ℚ :=
      (g3.number_of_available_points : ℚ) / (g3.keypoints_with_descriptors_left.length : ℚ)
    { generator := { g3 with
        triangulation_success_ratios :=
          g3.triangulation_success_ratios ++ [triangulation_succcess_ratio]
        mean_triangulation_success_ratio :=
          ((g3.number_of_triangulations : ℚ) * g3.mean_triangulation_success_ratio
            + triangulation_succcess_ratio) / ((g3.number_of_triangulations : ℚ) + 1)
        number_of_triangulations := g3.number_of_triangulations + 1 }
      created_points := created_points
      created := swept.created
      failure := none }

/-- The update of the rolling statistics at the end of `findStereoKeypoints` (lines 205-207) for
the success ratio of the invocation. -/
def StereoFramePointGenerator.updateAverage (g : StereoFramePointGenerator)
    (triangulation_succcess_ratio : ℚ) : StereoFramePointGenerator :=
  { g with
    triangulation_success_ratios :=
      g.triangulation_success_ratios ++ [triangulation_succcess_ratio]
    mean_triangulation_success_ratio :=
      ((g.number_of_triangulations : ℚ) * g.mean_triangulation_success_ratio
        + triangulation_succcess_ratio) / ((g.number_of_triangulations : ℚ) + 1)
    number_of_triangulations := g.number_of_triangulations + 1 }

/-- The function `StereoFramePointGenerator::standardDeviationTriangulationSuccessRatio` up to
its call of `std::sqrt`: the value of which the function returns the square root, that is, the
sum over the history of the squared differences to `_mean_triangulation_success_ratio`, divided
by the size of the history. For an empty history the C++ quotient is not a number, which `ℚ` does
not represent (it gives 0). -/
def StereoFramePointGenerator.squaredStandardDeviationTriangulationSuccessRatio
    (g : StereoFramePointGenerator) : ℚ :=
  g.triangulation_success_ratios.foldl
      (fun standard_deviation_triangulation_success_ratio triangulation_success_ratio =>
        standard_deviation_triangulation_success_ratio
          + (g.mean_triangulation_success_ratio - triangulation_success_ratio)
            * (g.mean_triangulation_success_ratio - triangulation_success_ratio)) 0
    / (g.triangulation_success_ratios.length : ℚ)

/-! ## Frames, framepoints and the frame registry -/

/-- An address in memory; a pointer is an `Option Address`, the null pointer being `none`. -/
abbrev Address := Nat

/-- The type `TransformMatrix3D`: a linear part and a translation. -/
structure TransformMatrix3D where
  linear : Matrix (Fin 3) (Fin 3) ℚ
  translation : Fin 3 → ℚ

/-- The vector of a `PointCoordinates`. -/
def PointCoordinates.toVector (p : PointCoordinates) : Fin 3 → ℚ :=
  ![p.x, p.y, p.z]

/-- The product `transform * point`. -/
def TransformMatrix3D.apply (t : TransformMatrix3D) (p : PointCoordinates) : PointCoordinates :=
  { x := (t.linear.mulVec p.toVector + t.translation) 0
    y := (t.linear.mulVec p.toVector + t.translation) 1
    z := (t.linear.mulVec p.toVector + t.translation) 2 }

/-- The product `first * second` of two transforms. -/
def TransformMatrix3D.mul (first second : TransformMatrix3D) : TransformMatrix3D :=
  { linear := first.linear * second.linear
    translation := first.linear.mulVec second.translation + first.translation }

/-- Modelled from the spec: `TransformMatrix3D::inverse()`, whose type definition is not part of
the two source files. The pose is a rigid transform, so the inverse has the transposed linear part
`Rᵀ` and the translation `-Rᵀ t`. -/
def TransformMatrix3D.inverse (t : TransformMatrix3D) : TransformMatrix3D :=
  { linear := t.linear.transpose
    translation := -(t.linear.transpose.mulVec t.translation) }

/-- A camera, as far as `Frame::create` reads it. -/
structure Camera where
  camera_to_robot : TransformMatrix3D

/-- A local map, as far as `Frame::setLocalMap` reads it. -/
structure LocalMap where
  world_to_robot : TransformMatrix3D

/-- An intensity image (`cv::Mat`); the released image is the empty one. -/
abbrev IntensityImage := List (List Nat)

/-- The members of `FramePoint`, as the spec lists them. -/
structure FramePoint where
  keypoint_left : KeyPoint
  descriptor_left : Descriptor
  keypoint_right : KeyPoint
  descriptor_right : Descriptor
  frame : Option Address
  camera_coordinates_left : PointCoordinates
  robot_coordinates : PointCoordinates
  origin : Option Address
  previous : Option Address
  next : Option Address
  landmark : Option Address
  track_length : Nat
  depth_meters : ℚ
  is_near : Bool

/-- The members of `Frame` that `frame.cpp` reads or writes. -/
structure Frame where
  identifier : Int
  maximum_depth_close : ℚ
  local_map : Option Address
  previous : Option Address
  next : Option Address
  status : Status
  points : List Address
  robot_to_world : TransformMatrix3D
  world_to_robot : TransformMatrix3D
  robot_to_world_ground_truth : TransformMatrix3D
  camera_left : Option Address
  camera_right : Option Address
  intensity_image_left : IntensityImage
  intensity_image_right : IntensityImage
  frame_to_local_map : TransformMatrix3D
  local_map_to_frame : TransformMatrix3D

/-- The objects that are allocated, by address, and the log of the `delete frame_point`
statements executed so far. -/
structure Memory where
  frames : Address → Option Frame
  points : Address → Option FramePoint
  cameras : Address → Option Camera
  local_maps : Address → Option LocalMap
  deleted_points : List Address

/-- Dereference a `Frame*`. -/
def Memory.readFrame (m : Memory) (pointer : Option Address) : Except Failure Frame :=
  match pointer with
  | none => .error .invalidPointer
  | some a =>
    match m.frames a with
    | none => .error .invalidPointer
    | some frame => .ok frame

/-- Dereference a `FramePoint*`. -/
def Memory.readPoint (m : Memory) (pointer : Option Address) : Except Failure FramePoint :=
  match pointer with
  | none => .error .invalidPointer
  | some a =>
    match m.points a with
    | none => .error .invalidPointer
    | some point => .ok point

/-- Dereference a `Camera*`. -/
def Memory.readCamera (m : Memory) (pointer : Option Address) : Except Failure Camera :=
  match pointer with
  | none => .error .invalidPointer
  | some a =>
    match m.cameras a with
    | none => .error .invalidPointer
    | some camera => .ok camera

/-- Write through a `Frame*`: apply a setter to the frame it points to. -/
def Memory.modifyFrame (m : Memory) (pointer : Option Address) (setter : Frame → Frame) :
    Except Failure Memory :=
  match m.readFrame pointer, pointer with
  | .ok frame, some a => .ok { m with frames := Function.update m.frames a (some (setter frame)) }
  | _, _ => .error .invalidPointer

/-- Write through a `FramePoint*`: apply a setter to the point it points to. -/
def Memory.modifyPoint (m : Memory) (pointer : Option Address)
    (setter : FramePoint → FramePoint) : Except Failure Memory :=
  match m.readPoint pointer, pointer with
  | .ok point, some a => .ok { m with points := Function.update m.points a (some (setter point)) }
  | _, _ => .error .invalidPointer

/-- Modelled from the spec: the constructor `FramePoint::FramePoint(keypoint_left,
descriptor_left, keypoint_right, descriptor_right, frame)`, which is not part of the two source
files. The point records its image coordinates, descriptors and owning frame; it has no track
links and no landmark yet, track length 0, and is not classified as near. The spec gives no
initial values for the coordinates and the depth; they are zero here and are overwritten by
`Frame::create` before the point is returned. -/
def FramePoint.construct (keypoint_left : KeyPoint) (descriptor_left : Descriptor)
    (keypoint_right : KeyPoint) (descriptor_right : Descriptor) (frame : Address) : FramePoint :=
  { keypoint_left := keypoint_left
    descriptor_left := descriptor_left
    keypoint_right := keypoint_right
    descriptor_right := descriptor_right
    frame := some frame
    camera_coordinates_left := ⟨0, 0, 0⟩
    robot_coordinates := ⟨0, 0, 0⟩
    origin := none
    previous := none
    next := none
    landmark := none
    track_length := 0
    depth_meters := 0
    is_near := false }

/-- Modelled from the spec: `FramePoint::setPrevious(previous)`, which is not part of the two
source files. It links the point into the track of `previous` (the two become adjacent
observations), inheriting its origin and incrementing its track length. -/
def Memory.setPrevious (m : Memory) (this previous_ : Address) : Except Failure Memory := do
  let previous_point ← m.readPoint (some previous_)
  let m ← m.modifyPoint (some previous_) (fun p => { p with next := some this })
  m.modifyPoint (some this) (fun p =>
    { p with
      previous := some previous_
      track_length := previous_point.track_length + 1
      origin := previous_point.origin })

/-- The function `Frame::create`, called on the frame at `this`. `frame_point` is the address
that `new FramePoint` returns. The result is the memory afterwards and the returned pointer. -/
def Frame.create (m : Memory) (this : Address) (keypoint_left_ : KeyPoint)
    (descriptor_left_ : Descriptor) (keypoint_right_ : KeyPoint) (descriptor_right_ : Descriptor)
    (camera_coordinates_left_ : PointCoordinates) (previous_point_ : Option Address)
    (frame_point : Address) : Except Failure (Memory × Address) := do
  let self ← m.readFrame (some this)
  let m := { m with
    points := Function.update m.points frame_point
      (some (FramePoint.construct keypoint_left_ descriptor_left_ keypoint_right_
        descriptor_right_ this)) }
  let m ← m.modifyPoint (some frame_point)
    (fun p => { p with camera_coordinates_left := camera_coordinates_left_ })
  let camera_left ← m.readCamera self.camera_left
  let m ← m.modifyPoint (some frame_point)
    (fun p => { p with
      robot_coordinates := camera_left.camera_to_robot.apply camera_coordinates_left_ })
  let m ←
    match previous_point_ with
    | none => m.modifyPoint (some frame_point) (fun p => { p with origin := some frame_point })
    | some previous_point => m.setPrevious frame_point previous_point
  let m ← m.modifyPoint (some frame_point)
    (fun p => { p with depth_meters := camera_coordinates_left_.z })
  let point ← m.readPoint (some frame_point)
  let m ←
    if point.depth_meters < self.maximum_depth_close then
      m.modifyPoint (some frame_point) (fun p => { p with is_near := true })
    else pure m
  return (m, frame_point)

/-- The loop `for (frame_point : points) delete frame_point;` of `Frame::~Frame` and
`Frame::releasePoints`. -/
def Memory.deletePoints (m : Memory) (points : List Address) : Memory :=
  points.foldl
    (fun m frame_point =>
      { m with
        points := Function.update m.points frame_point none
        deleted_points := m.deleted_points ++ [frame_point] })
    m

/-- The destructor `Frame::~Frame`, run on the frame at `this`. -/
def Frame.destroy (m : Memory) (this : Address) : Except Failure Memory := do
  let self ← m.readFrame (some this)
  let m := m.deletePoints self.points
  m.modifyFrame (some this) (fun f => { f with points := [] })

/-- The statement `delete frame`: the destructor, then the release of the frame's storage. -/
def Memory.deleteFrame (m : Memory) (frame : Address) : Except Failure Memory := do
  let m ← Frame.destroy m frame
  return { m with frames := Function.update m.frames frame none }

/-- The loop `for (frame_point : _points) frame_point->setFrame(this);` (lines 32-34). -/
def Memory.setFrameOfPoints (m : Memory) (points : List Address) (this : Address) :
    Except Failure Memory :=
  match points with
  | [] => .ok m
  | frame_point :: rest => do
    let m ← m.modifyPoint (some frame_point) (fun p => { p with frame := some this })
    m.setFrameOfPoints rest this

/-- The constructor `Frame::Frame(Frame* frame_)`, building the frame at the address `this`.
`members` holds the values of the members before the constructor runs; those that the
constructor does not assign keep them. -/
def Frame.constructFrom (m : Memory) (this : Address) (members : Frame)
    (frame_ : Option Address) : Except Failure Memory := do
  let source ← m.readFrame frame_
  let self : Frame := { members with
    identifier := source.identifier
    maximum_depth_close := source.maximum_depth_close
    local_map := source.local_map }
  let self := { self with previous := source.previous }
  let self := { self with next := source.next }
  let self := { self with status := source.status }
  let self := { self with points := [] }
  let self := { self with points := self.points ++ source.points }
  let m := { m with frames := Function.update m.frames this (some self) }
  let m ← m.setFrameOfPoints self.points this
  let m ← m.modifyFrame frame_ (fun f => { f with points := [] })
  let source ← m.readFrame frame_
  m.modifyFrame (some this) (fun f => { f with
    robot_to_world := source.robot_to_world
    world_to_robot := source.world_to_robot
    robot_to_world_ground_truth := source.robot_to_world_ground_truth
    camera_left := source.camera_left
    camera_right := source.camera_right
    intensity_image_left := source.intensity_image_left
    intensity_image_right := source.intensity_image_right })

/-- The container `FramePtrMap`: the entry stored under each identifier, if any. -/
structure FramePtrMap where
  entries : Int → Option (Option Address)

/-- The state that the registry operations act on. -/
structure Registry where
  map : FramePtrMap
  memory : Memory

/-- The outcome of a registry operation: the state it leaves, and the failure that ended it. -/
structure RegistryOutcome where
  state : Registry
  failure : Option Failure

/-- The function `FramePtrMap::get`. -/
def FramePtrMap.get (self : FramePtrMap) (index : Int) : Option Address :=
  match self.entries index with
  | none => none
  | some frame => frame

/-- The function `FramePtrMap::put`. -/
def FramePtrMap.put (r : Registry) (frame : Option Address) : RegistryOutcome :=
  match r.memory.readFrame frame with
  | .error e => ⟨r, some e⟩
  | .ok f =>
    match r.map.entries f.identifier with
    | some _ => ⟨r, some .doubleInsertion⟩
    | none =>
      ⟨{ r with map := ⟨Function.update r.map.entries f.identifier (some frame)⟩ }, none⟩

/-- The statements of `FramePtrMap::replace` between the lookup and the store (lines 157-164),
for the stored pointer `frame_to_be_replaced`. -/
def FramePtrMap.relink (m : Memory) (frame frame_to_be_replaced : Option Address) :
    Except Failure Memory := do
  let old ← m.readFrame frame_to_be_replaced
  let m ← m.modifyFrame old.previous (fun f => { f with next := frame })
  let old ← m.readFrame frame_to_be_replaced
  let m ← m.modifyFrame frame (fun f => { f with previous := old.previous })
  let old ← m.readFrame frame_to_be_replaced
  let m ←
    if old.next ≠ none then do
      let old ← m.readFrame frame_to_be_replaced
      m.modifyFrame frame (fun f => { f with next := old.next })
    else pure m
  match frame_to_be_replaced with
  | none => pure m
  | some a => m.deleteFrame a

/-- The function `FramePtrMap::replace`. -/
def FramePtrMap.replace (r : Registry) (frame : Option Address) : RegistryOutcome :=
  match r.memory.readFrame frame with
  | .error e => ⟨r, some e⟩
  | .ok f =>
    match r.map.entries f.identifier with
    | some frame_to_be_replaced =>
      match FramePtrMap.relink r.memory frame frame_to_be_replaced with
      | .error e => ⟨r, some e⟩
      | .ok memory =>
        ⟨{ map := ⟨Function.update r.map.entries f.identifier (some frame)⟩, memory := memory },
          none⟩
    | none => ⟨r, some .cannotReplaceInexistingFrame⟩

/-! ## The feature buffers -/

/-- What `initialize` reads of the frame: the keypoints and the descriptor rows of both
images. -/
structure FrameFeatures where
  keypoints_left : List KeyPoint
  descriptors_left : List Descriptor
  keypoints_right : List KeyPoint
  descriptors_right : List Descriptor

/-- A value-initialised `IntensityFeature`, as `std::vector::resize` appends it. -/
def IntensityFeature.valueInitialized : IntensityFeature :=
  { keypoint := { pt := { x := 0, y := 0 } }, descriptor := [] }

/-- The call `working.resize(count)` of `std::vector`: the first `count` elements are kept and
value-initialised elements are appended up to the length `count`. -/
def resize (working : List IntensityFeature) (count : Nat) : List IntensityFeature :=
  working.take count ++ List.replicate (count - working.length) IntensityFeature.valueInitialized

/-- The assignment `working[u].keypoint = keypoints[u]`. -/
def assignKeypoint (working : List IntensityFeature) (keypoints : List KeyPoint) (u : Nat) :
    Except Failure (List IntensityFeature) :=
  if hw : u < working.length then
    if hk : u < keypoints.length then
      .ok (working.set u { working[u] with keypoint := keypoints[u] })
    else .error .outOfRange
  else .error .outOfRange

/-- The assignment `working[u].descriptor = descriptors.row(u)`. -/
def assignDescriptor (working : List IntensityFeature) (descriptors : List Descriptor)
    (u : Nat) : Except Failure (List IntensityFeature) :=
  if hw : u < working.length then
    if hd : u < descriptors.length then
      .ok (working.set u { working[u] with descriptor := descriptors[u] })
    else .error .outOfRange
  else .error .outOfRange

/-- The loop `for (Index u = first; u < first + count; ++u) body`, whose body changes neither
`u` nor the bound: `count` is the number of rounds left and `u` the current index. -/
def forLoop {σ : Type} (body : Nat → σ → Except Failure σ) :
    Nat → Nat → σ → Except Failure σ
  | 0, _, state => .ok state
  | count + 1, u, state =>
    match body u state with
    | .error e => .error e
    | .ok next => forLoop body count (u + 1) next

/-- The body of the loops on lines 78-83 and 95-100: position `u` of both working sequences is
assigned from both images. -/
def assignBoth (frame : FrameFeatures) (u : Nat)
    (working : List IntensityFeature × List IntensityFeature) :
    Except Failure (List IntensityFeature × List IntensityFeature) := do
  let left ← assignKeypoint working.1 frame.keypoints_left u
  let left ← assignDescriptor left frame.descriptors_left u
  let right ← assignKeypoint working.2 frame.keypoints_right u
  let right ← assignDescriptor right frame.descriptors_right u
  pure (left, right)

/-- The body of the loops on lines 86-89 and 103-106: position `u` of one working sequence is
assigned from its image. -/
def assignOne (keypoints : List KeyPoint) (descriptors : List Descriptor) (u : Nat)
    (working : List IntensityFeature) : Except Failure (List IntensityFeature) := do
  let working ← assignKeypoint working keypoints u
  assignDescriptor working descriptors u

/-- The function `StereoFramePointGenerator::initialize`. -/
def StereoFramePointGenerator.initialize (g : StereoFramePointGenerator)
    (frame : FrameFeatures) : Except Failure StereoFramePointGenerator := do
  let left := resize g.keypoints_with_descriptors_left frame.keypoints_left.length
  let right := resize g.keypoints_with_descriptors_right frame.keypoints_right.length
  if frame.keypoints_left.length ≤ frame.keypoints_right.length then
    let (left, right) ← forLoop (assignBoth frame) frame.keypoints_left.length 0 (left, right)
    let right ← forLoop (assignOne frame.keypoints_right frame.descriptors_right)
      (frame.keypoints_right.length - frame.keypoints_left.length)
      frame.keypoints_left.length right
    pure { g with
      keypoints_with_descriptors_left := left
      keypoints_with_descriptors_right := right }
  else
    let (left, right) ← forLoop (assignBoth frame) frame.keypoints_right.length 0 (left, right)
    let left ← forLoop (assignOne frame.keypoints_left frame.descriptors_left)
      (frame.keypoints_left.length - frame.keypoints_right.length)
      frame.keypoints_right.length left
    pure { g with
      keypoints_with_descriptors_left := left
      keypoints_with_descriptors_right := right }

/-- Copying one image's features in order into a working sequence of its own: feature `i` is
keypoint `i` with descriptor row `i`. -/
def copyFeatures (keypoints : List KeyPoint) (descriptors : List Descriptor) :
    List IntensityFeature :=
  List.zipWith (fun keypoint descriptor => { keypoint := keypoint, descriptor := descriptor })
    keypoints descriptors

/-- Feature `i` of an image: keypoint `i` with descriptor row `i`, if the image has both. -/
def inputFeature (keypoints : List KeyPoint) (descriptors : List Descriptor) (i : Nat) :
    Option IntensityFeature :=
  match keypoints[i]?, descriptors[i]? with
  | some keypoint, some descriptor => some { keypoint := keypoint, descriptor := descriptor }
  | _, _ => none

/-! ## Counting points, poses and the local map -/

/-- The enumeration `ThreeValued`. -/
inductive ThreeValued where
  | False
  | True
  | Unknown
deriving DecidableEq, Repr

/-- The loop of `Frame::countPoints` (lines 65-78) over the remaining points, with the running
`count`. -/
def countPointsLoop (m : Memory) (min_age_ : Nat) (has_landmark_ : ThreeValued) :
    List Address → Nat → Except Failure Nat
  | [], count => .ok count
  | frame_point :: rest, count =>
    match m.readPoint (some frame_point) with
    | .error e => .error e
    | .ok point =>
      if point.track_length < min_age_ then
        countPointsLoop m min_age_ has_landmark_ rest count
      else if has_landmark_ ≠ ThreeValued.Unknown then
        if has_landmark_ = ThreeValued.True ∧ point.landmark = none then
          countPointsLoop m min_age_ has_landmark_ rest count
        else if has_landmark_ = ThreeValued.False ∧ point.landmark ≠ none then
          countPointsLoop m min_age_ has_landmark_ rest count
        else countPointsLoop m min_age_ has_landmark_ rest (count + 1)
      else countPointsLoop m min_age_ has_landmark_ rest (count + 1)

/-- The function `Frame::countPoints`, called on the frame at `this`. -/
def Frame.countPoints (m : Memory) (this : Address) (min_age_ : Nat)
    (has_landmark_ : ThreeValued) : Except Failure Nat :=
  match m.readFrame (some this) with
  | .error e => .error e
  | .ok self => countPointsLoop m min_age_ has_landmark_ self.points 0

/-- The landmark presence of a point matches the three-valued filter: any (`Unknown`), must have
a landmark (`True`), must not have a landmark (`False`). -/
def matchesLandmarkFilter (filter : ThreeValued) (point : FramePoint) : Bool :=
  match filter with
  | ThreeValued.Unknown => true
  | ThreeValued.True => point.landmark.isSome
  | ThreeValued.False => point.landmark.isNone

/-- The owned point at `frame_point` is one that `countPoints(minimum, filter)` is to count: its
track length is at least the minimum and its landmark presence matches the filter. -/
def isCounted (m : Memory) (minimum : Nat) (filter : ThreeValued) (frame_point : Address) :
    Bool :=
  match m.points frame_point with
  | some point => decide (minimum ≤ point.track_length) && matchesLandmarkFilter filter point
  | none => false

/-- The function `Frame::setRobotToWorld`, called on the frame at `this`. -/
def Frame.setRobotToWorld (m : Memory) (this : Address) (robot_to_world_ : TransformMatrix3D) :
    Except Failure Memory := do
  let m ← m.modifyFrame (some this) (fun f => { f with robot_to_world := robot_to_world_ })
  m.modifyFrame (some this) (fun f => { f with world_to_robot := f.robot_to_world.inverse })

/-- The constructor `Frame::Frame(context, previous, next, robot_to_world, maximum_depth_close)`,
building the frame at the address `this`. `members` holds the values of the members before the
constructor runs, `instances` is the static counter `Frame::_instances`; the result is the memory
and the counter afterwards. -/
def Frame.construct (m : Memory) (this : Address) (members : Frame) (instances : Nat)
    (previous_ next_ : Option Address) (robot_to_world_ : TransformMatrix3D)
    (maximum_depth_close_ : ℚ) : Except Failure (Memory × Nat) := do
  let self : Frame := { members with
    identifier := (instances : Int)
    maximum_depth_close := maximum_depth_close_ }
  let instances := instances + 1
  let self := { self with previous := previous_ }
  let self := { self with next := next_ }
  let m := { m with frames := Function.update m.frames this (some self) }
  let m ← Frame.setRobotToWorld m this robot_to_world_
  let m ← m.modifyFrame (some this) (fun f => { f with points := [] })
  pure (m, instances)

/-- Dereference a `LocalMap*`. -/
def Memory.readLocalMap (m : Memory) (pointer : Option Address) : Except Failure LocalMap :=
  match pointer with
  | none => .error .invalidPointer
  | some a =>
    match m.local_maps a with
    | none => .error .invalidPointer
    | some local_map => .ok local_map

/-- The function `Frame::setLocalMap`, called on the frame at `this`. -/
def Frame.setLocalMap (m : Memory) (this : Address) (local_map_ : Option Address) :
    Except Failure Memory := do
  let m ← m.modifyFrame (some this) (fun f => { f with local_map := local_map_ })
  let local_map ← m.readLocalMap local_map_
  let m ← m.modifyFrame (some this)
    (fun f => { f with frame_to_local_map := local_map.world_to_robot.mul f.robot_to_world })
  m.modifyFrame (some this)
    (fun f => { f with local_map_to_frame := f.frame_to_local_map.inverse })

/-! ## Predicates used in the statements -/

/-- A right index `b` is an admissible partner of the left feature at `index_L`, found at or after
the position `lo`: same row, and a column disparity that is not below the minimum. -/
def Admissible (g : StereoFramePointGenerator) (L R : List IntensityFeature)
    (index_L lo b : Nat) : Prop :=
  ∃ (hl : index_L < L.length) (hr : b < R.length),
    L[index_L].keypoint.pt.y = R[b].keypoint.pt.y
    ∧ ¬ (L[index_L].keypoint.pt.x - R[b].keypoint.pt.x < g.parameters.minimum_disparity_pixels)
    ∧ lo ≤ b

/-- A created point, as the matcher makes it: the features at its two indices, lying on one row
with a column disparity that is not below the minimum. -/
def Accepted (g : StereoFramePointGenerator) (L R : List IntensityFeature)
    (m : StereoMatch) : Prop :=
  ∃ (hl : m.index_L < L.length) (hr : m.index_best_R < R.length),
    m.keypoint_left = L[m.index_L].keypoint
    ∧ m.descriptor_left = L[m.index_L].descriptor
    ∧ m.keypoint_right = R[m.index_best_R].keypoint
    ∧ m.descriptor_right = R[m.index_best_R].descriptor
    ∧ g.getCoordinatesInCameraLeft m.keypoint_left.pt m.keypoint_right.pt
        = .ok m.point_in_camera_left
    ∧ m.keypoint_left.pt.y = m.keypoint_right.pt.y
    ∧ ¬ (m.keypoint_left.pt.x - m.keypoint_right.pt.x < g.parameters.minimum_disparity_pixels)

/-- The invariant of a sweep entered at the cursors `index_L`, `index_R`: every point it creates
is accepted and lies at or after both cursors, later points have strictly larger indices on both
sides, and the sweep does not end in the triangulation exception. -/
def SweepInvariant (g : StereoFramePointGenerator) (L R : List IntensityFeature)
    (index_L index_R : Nat) (r : SweepResult) : Prop :=
  (∀ m ∈ r.created, index_L ≤ m.index_L ∧ index_R ≤ m.index_best_R ∧ Accepted g L R m)
  ∧ r.created.Pairwise (fun a b => a.index_L < b.index_L ∧ a.index_best_R < b.index_best_R)
  ∧ r.failure ≠ some .exceptionTriangulation

/-- The right index `j` is scanned when the scan for the left feature at `index_L` starts at
`cursor`: every right entry from the cursor up to `j` shares the left feature's row and has a
column disparity that is not below the minimum (the scan stops at the first entry that does
not). -/
def Scanned (g : StereoFramePointGenerator) (L R : List IntensityFeature)
    (index_L cursor j : Nat) : Prop :=
  cursor ≤ j ∧ ∀ k, cursor ≤ k → k ≤ j → Admissible g L R index_L cursor k

/-- What a sweep entered with the right cursor `index_R` leaves behind, as far as its accesses
and scans go: it does not end by reading out of range, and every point it creates was selected by
a scan that started at a cursor at or after `index_R` and found a distance below the threshold. -/
def SweepTrace (g : StereoFramePointGenerator) (threshold : ℚ) (L R : List IntensityFeature)
    (index_R : Nat) (r : SweepResult) : Prop :=
  r.failure ≠ some .outOfRange
  ∧ ∀ m ∈ r.created, ∃ cursor d, index_R ≤ cursor
      ∧ scanEpipolarLine g L R m.index_L cursor threshold 0 = .ok (d, m.index_best_R)
      ∧ d < threshold

/-- The rolling statistics are consistent: the number of recorded triangulations is the length of
the success-ratio history, and that number times the running mean is the sum of the history (so
the running mean of a non-empty history is its arithmetic mean). -/
def StereoFramePointGenerator.StatisticsConsistent (g : StereoFramePointGenerator) : Prop :=
  g.number_of_triangulations = g.triangulation_success_ratios.length
  ∧ (g.number_of_triangulations : ℚ) * g.mean_triangulation_success_ratio
      = g.triangulation_success_ratios.sum

/-- The population variance of a list of ratios: the average of the squared differences between
the ratios and their arithmetic mean. The population standard deviation is its square root. -/
def populationVariance (ratios : List ℚ) : ℚ :=
  (ratios.map (fun r => (ratios.sum / (ratios.length : ℚ) - r) ^ 2)).sum
    / (ratios.length : ℚ)

/-- The point that `Frame::create` builds when no previous point is given. -/
def createdPoint (self : Frame) (camera_left : Camera) (keypoint_left : KeyPoint)
    (descriptor_left : Descriptor) (keypoint_right : KeyPoint) (descriptor_right : Descriptor)
    (c : PointCoordinates) (this frame_point : Address) : FramePoint :=
  { FramePoint.construct keypoint_left descriptor_left keypoint_right descriptor_right this with
    camera_coordinates_left := c
    robot_coordinates := camera_left.camera_to_robot.apply c
    origin := some frame_point
    depth_meters := c.z
    is_near := decide (c.z < self.maximum_depth_close) }

/-- The point that `Frame::create` builds when the previous point `previous` (stored at
`previous_point`) is given. -/
def createdTrackPoint (self : Frame) (camera_left : Camera) (keypoint_left : KeyPoint)
    (descriptor_left : Descriptor) (keypoint_right : KeyPoint) (descriptor_right : Descriptor)
    (c : PointCoordinates) (this previous_point : Address) (previous : FramePoint) : FramePoint :=
  { FramePoint.construct keypoint_left descriptor_left keypoint_right descriptor_right this with
    camera_coordinates_left := c
    robot_coordinates := camera_left.camera_to_robot.apply c
    previous := some previous_point
    track_length := previous.track_length + 1
    origin := previous.origin
    depth_meters := c.z
    is_near := decide (c.z < self.maximum_depth_close) }

/-! ## Concrete inputs for worked examples -/

/-- The identity transform. -/
def TransformMatrix3D.identity : TransformMatrix3D :=
  { linear := 1, translation := 0 }

/-- A transform is rigid: its linear part is orthogonal. -/
def TransformMatrix3D.IsRigid (t : TransformMatrix3D) : Prop :=
  t.linear.transpose * t.linear = 1

/-- The cached inverse is in sync with the pose: the product of the world-to-robot and the
robot-to-world transform is the identity, in both orders. -/
def Frame.PoseInSync (f : Frame) : Prop :=
  f.world_to_robot.mul f.robot_to_world = TransformMatrix3D.identity
  ∧ f.robot_to_world.mul f.world_to_robot = TransformMatrix3D.identity

/-- The Hamming distance of two descriptors (`cv::NORM_HAMMING`), one instance of the norm. -/
def hammingDistance (a b : Descriptor) : ℚ :=
  ((List.zipWith (fun p q => p != q) a b).count true : Nat)

/-- A feature at the given row and column, with an all-zero descriptor of eight bits. -/
def featureAt (row column : ℚ) : IntensityFeature :=
  { keypoint := { pt := { x := column, y := row } }
    descriptor := List.replicate 8 false }

/-- A configured generator for worked examples: minimum disparity `5`, matching distance `25`,
focal length `500`, principal point `(0, 0)`, the given `_baseline_pixelsmeters`, and the given
working sequences. -/
def exampleGenerator (baseline_pixelsmeters : ℚ) (left right : List IntensityFeature) :
    StereoFramePointGenerator where
  parameters :=
    { number_of_cameras := 2
      minimum_disparity_pixels := 5
      maximum_matching_distance_triangulation := 25 }
  descriptor_norm := hammingDistance
  descriptor_size_bits := 256
  focal_length_pixels := 500
  principal_point_offset_u_pixels := 0
  principal_point_offset_v_pixels := 0
  baseline_pixelsmeters := baseline_pixelsmeters
  baseline_meters := -baseline_pixelsmeters / 500
  maximum_depth_far_meters := -baseline_pixelsmeters / 5
  maximum_depth_near_meters := -baseline_pixelsmeters / 5 / 10
  keypoints_with_descriptors_left := left
  keypoints_with_descriptors_right := right
  framepoints_in_image := fun _ _ => none
  number_of_available_points := 0
  triangulation_success_ratios := []
  mean_triangulation_success_ratio := 0
  number_of_triangulations := 0

/-- A frame for worked examples: the given identifier, chain links and points, status
`Localizing`, identity pose, the left camera at address 0, no images and no local map. -/
def exampleFrame (identifier : Int) (previous next : Option Address) (points : List Address) :
    Frame where
  identifier := identifier
  maximum_depth_close := 5
  local_map := none
  previous := previous
  next := next
  status := Status.Localizing
  points := points
  robot_to_world := TransformMatrix3D.identity
  world_to_robot := TransformMatrix3D.identity
  robot_to_world_ground_truth := TransformMatrix3D.identity
  camera_left := some 0
  camera_right := some 1
  intensity_image_left := []
  intensity_image_right := []
  frame_to_local_map := TransformMatrix3D.identity
  local_map_to_frame := TransformMatrix3D.identity

/-- A framepoint for worked examples: owned by the frame at address 1, with track length 2, on a
track that started at the point at address 9. -/
def examplePoint : FramePoint :=
  { FramePoint.construct (featureAt 10 50).keypoint [] (featureAt 10 40).keypoint [] 1 with
    origin := some 9
    track_length := 2 }

/-- A memory for worked examples, holding the chain `A -> B -> C` at the addresses 1, 2, 3 with the
identifiers 10, 11, 12, and at address 4 a new frame `N` that carries the identifier of `B`;
two cameras at the addresses 0 and 1; no framepoints. -/
def chainMemory : Memory where
  frames := fun a =>
    if a = 1 then some (exampleFrame 10 none (some 2) [])
    else if a = 2 then some (exampleFrame 11 (some 1) (some 3) [])
    else if a = 3 then some (exampleFrame 12 (some 2) none [])
    else if a = 4 then some (exampleFrame 11 none none [])
    else none
  points := fun _ => none
  cameras := fun a => if a ≤ 1 then some ⟨TransformMatrix3D.identity⟩ else none
  local_maps := fun _ => none
  deleted_points := []

/-- The registry that holds the chain `A -> B -> C` of `chainMemory`. -/
def chainRegistry : Registry where
  map := ⟨fun k =>
    if k = 10 then some (some 1) else if k = 11 then some (some 2)
    else if k = 12 then some (some 3) else none⟩
  memory := chainMemory

/-- A memory holding a single frame `B` without predecessor at address 2 (identifier 11) and a
new frame `N` with the same identifier at address 4. -/
def firstFrameMemory : Memory where
  frames := fun a =>
    if a = 2 then some (exampleFrame 11 none none [])
    else if a = 4 then some (exampleFrame 11 none none [])
    else none
  points := fun _ => none
  cameras := fun a => if a ≤ 1 then some ⟨TransformMatrix3D.identity⟩ else none
  local_maps := fun _ => none
  deleted_points := []

/-- The registry that holds the single frame `B` of `firstFrameMemory`. -/
def firstFrameRegistry : Registry where
  map := ⟨fun k => if k = 11 then some (some 2) else none⟩
  memory := firstFrameMemory

/-- A memory for worked examples: one frame at address 1 that owns the framepoint at
address 5 (`examplePoint`); two cameras at the addresses 0 and 1. -/
def pointMemory : Memory where
  frames := fun a => if a = 1 then some (exampleFrame 10 none none [5]) else none
  points := fun a => if a = 5 then some examplePoint else none
  cameras := fun a => if a ≤ 1 then some ⟨TransformMatrix3D.identity⟩ else none
  local_maps := fun _ => none
  deleted_points := []

/-- Detector output for worked examples: two left features and one right feature, each with a
descriptor row. -/
def exampleFrameFeatures : FrameFeatures where
  keypoints_left := [(featureAt 10 50).keypoint, (featureAt 12 30).keypoint]
  descriptors_left := [(featureAt 10 50).descriptor, (featureAt 12 30).descriptor]
  keypoints_right := [(featureAt 10 40).keypoint]
  descriptors_right := [(featureAt 10 40).descriptor]

/-- A translation by one unit along the first axis, the pose of the local map of the worked
examples. -/
def unitShift : TransformMatrix3D :=
  { linear := 1, translation := ![1, 0, 0] }

/-- A memory for worked examples: a local map at address 0 whose world-to-robot transform is
`unitShift`, and at address 1 a frame bound to it, with the cached transforms that `setLocalMap`
computes for this binding. -/
def boundMemory : Memory where
  frames := fun a =>
    if a = 1 then
      some { exampleFrame 10 none none [] with
        local_map := some 0
        frame_to_local_map := unitShift.mul TransformMatrix3D.identity
        local_map_to_frame := (unitShift.mul TransformMatrix3D.identity).inverse }
    else none
  points := fun _ => none
  cameras := fun a => if a ≤ 1 then some ⟨TransformMatrix3D.identity⟩ else none
  local_maps := fun a => if a = 0 then some ⟨unitShift⟩ else none
  deleted_points := []

/-- The generator of the worked examples after one invocation of `findStereoKeypoints` on the left
feature (row 10, column 50) and the right feature (row 10, column 40). -/
def generatorAfterOneFrame : StereoFramePointGenerator :=
  ((exampleGenerator (-100) [featureAt 10 50] [featureAt 10 40]).findStereoKeypoints
    Status.Tracking []).generator

/-- Detector output for worked examples: one left feature (row 10, column 50) and no right
feature. -/
def leftOnlyFrameFeatures : FrameFeatures where
  keypoints_left := [(featureAt 10 50).keypoint]
  descriptors_left := [(featureAt 10 50).descriptor]
  keypoints_right := []
  descriptors_right := []

/-- The generator `generatorAfterOneFrame` configured a second time (with a base-class
configuration that changes nothing), initialised from `leftOnlyFrameFeatures` and run on it. -/
def reconfiguredRun : Except Failure FindStereoKeypointsResult := do
  let configured ← generatorAfterOneFrame.configure true (-100) id
  let initialized ← configured.initialize leftOnlyFrameFeatures
  pure (initialized.findStereoKeypoints Status.Tracking [])

/-! ## Properties of the matcher -/

/-- The loop `skipRight` never moves the right cursor backwards. -/
theorem skipRight_ge (L R : List IntensityFeature) (index_L index_R i : Nat)
    (h : skipRight L R index_L index_R = .ok i) : index_R ≤ i := by
  induction index_R using skipRight.induct L R index_L with
  | case1 y hL hR hlt hend =>
    rw [skipRight] at h
    simp only [hL, hR, hlt, hend, dite_true, if_true] at h
    cases h; omega
  | case2 y hL hR hlt hend ih =>
    rw [skipRight] at h
    simp only [hL, hR, hlt, hend, dite_true, if_true, if_false] at h
    have := ih h; omega
  | case3 y hL hR hlt =>
    rw [skipRight] at h
    simp only [hL, hR, hlt, dite_true, if_false] at h
    cases h; omega
  | case4 y hL hR =>
    rw [skipRight] at h
    simp only [hL, hR, dite_true, dite_false] at h
    cases h
  | case5 y hL =>
    rw [skipRight] at h
    simp only [hL, dite_false] at h
    cases h

/-- The loop `skipLeft` can only fail by reading out of range. -/
theorem skipLeft_error (L R : List IntensityFeature) (index_L index_R : Nat) (e : Failure)
    (h : skipLeft L R index_L index_R = .error e) : e = .outOfRange := by
  induction index_L, index_R using skipLeft.induct L R with
  | case1 x y hL hR hlt hend =>
    rw [skipLeft] at h
    simp only [hL, hR, hlt, hend, dite_true, if_true] at h
    cases h
  | case2 x y hL hR hlt hend ih =>
    rw [skipLeft] at h
    simp only [hL, hR, hlt, hend, dite_true, if_true, if_false] at h
    exact ih h
  | case3 x y hL hR hlt =>
    rw [skipLeft] at h
    simp only [hL, hR, hlt, dite_true, if_false] at h
    cases h
  | case4 x y hL hR =>
    rw [skipLeft] at h
    simp only [hL, hR, dite_true, dite_false] at h
    cases h; rfl
  | case5 x y hL =>
    rw [skipLeft] at h
    simp only [hL, dite_false] at h
    cases h; rfl

/-- The loop `skipRight` can only fail by reading out of range. -/
theorem skipRight_error (L R : List IntensityFeature) (index_L index_R : Nat) (e : Failure)
    (h : skipRight L R index_L index_R = .error e) : e = .outOfRange := by
  induction index_R using skipRight.induct L R index_L with
  | case1 y hL hR hlt hend =>
    rw [skipRight] at h
    simp only [hL, hR, hlt, hend, dite_true, if_true] at h
    cases h
  | case2 y hL hR hlt hend ih =>
    rw [skipRight] at h
    simp only [hL, hR, hlt, hend, dite_true, if_true, if_false] at h
    exact ih h
  | case3 y hL hR hlt =>
    rw [skipRight] at h
    simp only [hL, hR, hlt, dite_true, if_false] at h
    cases h
  | case4 y hL hR =>
    rw [skipRight] at h
    simp only [hL, hR, dite_true, dite_false] at h
    cases h; rfl
  | case5 y hL =>
    rw [skipRight] at h
    simp only [hL, dite_false] at h
    cases h; rfl

/-- The scan can only fail by reading out of range. -/
theorem scanEpipolarLine_error (g : StereoFramePointGenerator) (L R : List IntensityFeature)
    (index_L index_search_R : Nat) (distance_best : ℚ) (index_best_R : Nat) (e : Failure)
    (h : scanEpipolarLine g L R index_L index_search_R distance_best index_best_R = .error e) :
    e = .outOfRange := by
  induction index_search_R, distance_best, index_best_R
    using scanEpipolarLine.induct g L R index_L with
  | case1 s db bi hL hR hrow hdisp =>
    rw [scanEpipolarLine] at h
    simp only [hL, hR, hrow, hdisp, dite_true, if_true] at h
    cases h
  | case2 s db bi hL hR hrow hdisp hend =>
    rw [scanEpipolarLine] at h
    simp only [hL, hR, hrow, hdisp, hend, dite_true, if_true, if_false] at h
    cases h
  | case3 s db bi hL hR hrow hdisp dh best hend ih =>
    rw [scanEpipolarLine] at h
    simp only [hL, hR, hrow, hdisp, hend, dite_true, if_true, if_false] at h
    exact ih h
  | case4 s db bi hL hR hrow =>
    rw [scanEpipolarLine] at h
    simp only [hL, hR, hrow, dite_true, if_false] at h
    cases h
  | case5 s db bi hL hR =>
    rw [scanEpipolarLine] at h
    simp only [hL, hR, dite_true, dite_false] at h
    cases h; rfl
  | case6 s db bi hL =>
    rw [scanEpipolarLine] at h
    simp only [hL, dite_false] at h
    cases h; rfl

/-- The scan keeps this invariant: a best distance below the threshold was set at an admissible
right index. -/
theorem scanEpipolarLine_admissible (g : StereoFramePointGenerator) (L R : List IntensityFeature)
    (index_L lo : Nat) (threshold : ℚ) (index_search_R : Nat) (distance_best : ℚ)
    (index_best_R : Nat) (d : ℚ) (b : Nat) (hlo : lo ≤ index_search_R)
    (hinv : distance_best < threshold → Admissible g L R index_L lo index_best_R)
    (h : scanEpipolarLine g L R index_L index_search_R distance_best index_best_R = .ok (d, b)) :
    d < threshold → Admissible g L R index_L lo b := by
  induction index_search_R, distance_best, index_best_R
    using scanEpipolarLine.induct g L R index_L with
  | case1 s db bi hL hR hrow hdisp =>
    rw [scanEpipolarLine] at h
    simp only [hL, hR, hrow, hdisp, dite_true, if_true] at h
    cases h; exact hinv
  | case2 s db bi hL hR hrow hdisp hend =>
    rw [scanEpipolarLine] at h
    simp only [hL, hR, hrow, hdisp, hend, dite_true, if_true, if_false] at h
    split at h
    · cases h
      intro _
      exact ⟨hL, hR, hrow, hdisp, hlo⟩
    · cases h; exact hinv
  | case3 s db bi hL hR hrow hdisp dh best hend ih =>
    rw [scanEpipolarLine] at h
    simp only [hL, hR, hrow, hdisp, hend, dite_true, if_true, if_false] at h
    apply ih (by omega) _ h
    intro hbest
    by_cases hc : dh < db
    · have : best = (dh, s) := by simp only [best, hc, dite_true]
      rw [this]
      exact ⟨hL, hR, hrow, hdisp, hlo⟩
    · have : best = (db, bi) := by simp only [best, hc, dite_false]
      rw [this] at hbest ⊢
      exact hinv hbest
  | case4 s db bi hL hR hrow =>
    rw [scanEpipolarLine] at h
    simp only [hL, hR, hrow, dite_true, if_false] at h
    cases h; exact hinv
  | case5 s db bi hL hR =>
    rw [scanEpipolarLine] at h
    simp only [hL, hR, dite_true, dite_false] at h
    cases h
  | case6 s db bi hL =>
    rw [scanEpipolarLine] at h
    simp only [hL, dite_false] at h
    cases h

/-- The triangulation throws exactly on a disparity below the minimum. -/
theorem getCoordinatesInCameraLeft_throws_iff (g : StereoFramePointGenerator)
    (l r : Point2f) :
    g.getCoordinatesInCameraLeft l r = .error .exceptionTriangulation
      ↔ l.x - r.x < g.parameters.minimum_disparity_pixels := by
  unfold StereoFramePointGenerator.getCoordinatesInCameraLeft
  constructor
  · intro h
    by_contra hn
    simp only [hn, if_false] at h
    split at h
    · cases h
    · split at h
      · cases h
      · split at h <;> cases h
  · intro h
    simp only [h, if_true]

/-- The triangulation, case by case: below the minimum disparity it throws; otherwise, on one row
with the right column left of the left column, it returns the triangulated point when the depth
`_baseline_pixelsmeters / (right.x - left.x)` is non-negative and fails its depth assertion when
the depth is negative. -/
theorem getCoordinatesInCameraLeft_cases (g : StereoFramePointGenerator) (l r : Point2f) :
    (l.x - r.x < g.parameters.minimum_disparity_pixels →
      g.getCoordinatesInCameraLeft l r = .error .exceptionTriangulation)
    ∧ (¬ (l.x - r.x < g.parameters.minimum_disparity_pixels) → r.x < l.x → r.y = l.y →
        0 ≤ g.baseline_pixelsmeters / (r.x - l.x) →
        g.getCoordinatesInCameraLeft l r = .ok
          { x := g.baseline_pixelsmeters / (r.x - l.x) / g.focal_length_pixels
                  * (l.x - g.principal_point_offset_u_pixels)
            y := g.baseline_pixelsmeters / (r.x - l.x) / g.focal_length_pixels
                  * (l.y - g.principal_point_offset_v_pixels)
            z := g.baseline_pixelsmeters / (r.x - l.x) })
    ∧ (¬ (l.x - r.x < g.parameters.minimum_disparity_pixels) → r.x < l.x → r.y = l.y →
        g.baseline_pixelsmeters / (r.x - l.x) < 0 →
        g.getCoordinatesInCameraLeft l r = .error .assertionFailed) := by
  unfold StereoFramePointGenerator.getCoordinatesInCameraLeft
  refine ⟨?_, ?_, ?_⟩
  · intro h
    simp only [h, if_true]
  · intro h1 h2 h3 h4
    simp only [h1, h2, h3, h4, not_true, ge_iff_le, if_false]
  · intro h1 h2 h3 h4
    have h5 : ¬ (g.baseline_pixelsmeters / (r.x - l.x) ≥ 0) := not_le.2 h4
    simp only [h1, h2, h3, h5, not_true, not_false_eq_true, if_false, if_true]

/-- A sweep that creates no point satisfies the invariant unless it ends in the triangulation
exception. -/
theorem SweepInvariant.empty (g : StereoFramePointGenerator) (L R : List IntensityFeature)
    (index_L index_R : Nat) (failure : Option Failure)
    (h : failure ≠ some .exceptionTriangulation) :
    SweepInvariant g L R index_L index_R ⟨[], failure⟩ :=
  ⟨fun _ hm => absurd hm (List.not_mem_nil _), List.Pairwise.nil, h⟩

/-- The invariant from later cursors gives the invariant from earlier cursors. -/
theorem SweepInvariant.weaken (g : StereoFramePointGenerator) (L R : List IntensityFeature)
    (i j i1 j1 : Nat) (r : SweepResult) (hi : i ≤ i1) (hj : j ≤ j1)
    (h : SweepInvariant g L R i1 j1 r) : SweepInvariant g L R i j r :=
  ⟨fun m hm => ⟨le_trans hi (h.1 m hm).1, le_trans hj (h.1 m hm).2.1, (h.1 m hm).2.2⟩,
    h.2.1, h.2.2⟩

/-- An accepted point, followed by a sweep that starts one past its two indices, satisfies the
invariant. -/
theorem SweepInvariant.cons (g : StereoFramePointGenerator) (L R : List IntensityFeature)
    (i j : Nat) (m : StereoMatch) (rest : SweepResult) (hi : i ≤ m.index_L)
    (hj : j ≤ m.index_best_R) (hm : Accepted g L R m)
    (h : SweepInvariant g L R (m.index_L + 1) (m.index_best_R + 1) rest) :
    SweepInvariant g L R i j ⟨m :: rest.created, rest.failure⟩ := by
  refine ⟨?_, ?_, h.2.2⟩
  · intro m1 hm1
    rcases List.mem_cons.1 hm1 with rfl | hin
    · exact ⟨hi, hj, hm⟩
    · have := h.1 m1 hin
      exact ⟨by omega, by omega, this.2.2⟩
  · refine List.Pairwise.cons ?_ h.2.1
    intro m1 hin
    have := h.1 m1 hin
    exact ⟨by omega, by omega⟩

/-- The sweep satisfies its invariant from every pair of cursors. -/
theorem sweep_invariant (g : StereoFramePointGenerator) (threshold : ℚ)
    (L R : List IntensityFeature) (n : Nat) :
    ∀ index_L index_R : Nat, L.length - index_L ≤ n →
      SweepInvariant g L R index_L index_R (sweep g threshold L R index_L index_R) := by
  induction n with
  | zero =>
    intro index_L index_R hn
    rw [sweep]
    have : ¬ index_L < L.length := by omega
    simp only [this, dite_false]
    exact SweepInvariant.empty g L R _ _ none (by simp)
  | succ n ih =>
    intro index_L index_R hn
    rw [sweep]
    split
    · rename_i hL
      split
      · exact SweepInvariant.empty g L R _ _ none (by simp)
      · split
        · rename_i e he
          have := skipLeft_error L R _ _ e he
          exact SweepInvariant.empty g L R _ _ _ (by simp [this])
        · rename_i index_L1 h1
          have hge := skipLeft_ge L R _ _ _ h1
          split
          · exact SweepInvariant.empty g L R _ _ none (by simp)
          · split
            · rename_i e he
              have := skipRight_error L R _ _ e he
              exact SweepInvariant.empty g L R _ _ _ (by simp [this])
            · rename_i index_R1 h2
              have hge2 := skipRight_ge L R _ _ _ h2
              split
              · exact SweepInvariant.empty g L R _ _ none (by simp)
              · split
                · rename_i e he
                  have := scanEpipolarLine_error g L R _ _ _ _ e he
                  exact SweepInvariant.empty g L R _ _ _ (by simp [this])
                · rename_i distance_best index_best_R h3
                  have hadm := scanEpipolarLine_admissible g L R index_L1 index_R1 threshold
                    index_R1 threshold 0 distance_best index_best_R (le_refl _)
                    (fun hlt => absurd hlt (lt_irrefl _)) h3
                  split
                  · rename_i hbest
                    obtain ⟨hl, hr, hrow, hdisp, hlo⟩ := hadm hbest
                    simp only [hl, hr, dite_true]
                    split
                    · rename_i e he
                      refine SweepInvariant.empty g L R _ _ _ ?_
                      intro hc
                      cases hc
                      exact hdisp ((getCoordinatesInCameraLeft_throws_iff g _ _).1 he)
                    · rename_i point hp
                      refine SweepInvariant.cons g L R index_L index_R _ _ hge
                        (le_trans hge2 hlo) ?_ (ih _ _ (by simp only; omega))
                      exact ⟨hl, hr, rfl, rfl, rfl, rfl, hp, hrow, hdisp⟩
                  · exact SweepInvariant.weaken g L R _ _ _ _ _ (by omega) hge2
                      (ih _ _ (by omega))
    · exact SweepInvariant.empty g L R _ _ none (by simp)

/-- One round of the `for` loop, written out: the unfolding of `sweep`. -/
theorem sweep_eq (g : StereoFramePointGenerator) (threshold : ℚ)
    (L R : List IntensityFeature) (index_L index_R : Nat) :
    sweep g threshold L R index_L index_R =
      if index_L < L.length then
        if index_R = R.length then ⟨[], none⟩
        else
          match skipLeft L R index_L index_R with
          | .error e => ⟨[], some e⟩
          | .ok index_L1 =>
            if index_L1 = L.length then ⟨[], none⟩
            else
              match skipRight L R index_L1 index_R with
              | .error e => ⟨[], some e⟩
              | .ok index_R1 =>
                if index_R1 = R.length then ⟨[], none⟩
                else
                  match scanEpipolarLine g L R index_L1 index_R1 threshold 0 with
                  | .error e => ⟨[], some e⟩
                  | .ok (distance_best, index_best_R) =>
                    if distance_best < threshold then
                      if hl : index_L1 < L.length then
                        if hr : index_best_R < R.length then
                          match g.getCoordinatesInCameraLeft L[index_L1].keypoint.pt
                              R[index_best_R].keypoint.pt with
                          | .error e => ⟨[], some e⟩
                          | .ok point_in_camera_left =>
                            ⟨{ index_L := index_L1
                               index_best_R := index_best_R
                               keypoint_left := L[index_L1].keypoint
                               descriptor_left := L[index_L1].descriptor
                               keypoint_right := R[index_best_R].keypoint
                               descriptor_right := R[index_best_R].descriptor
                               point_in_camera_left := point_in_camera_left }
                              :: (sweep g threshold L R (index_L1 + 1) (index_best_R + 1)).created,
                             (sweep g threshold L R (index_L1 + 1) (index_best_R + 1)).failure⟩
                        else ⟨[], some .outOfRange⟩
                      else ⟨[], some .outOfRange⟩
                    else sweep g threshold L R (index_L1 + 1) index_R1
      else ⟨[], none⟩ := by
  rw [sweep]
  split
  · rename_i hL
    simp only [hL, if_true]
    split
    · rfl
    · split
      · rename_i e he
        simp only [he]
      · rename_i i hi
        simp only [hi]
  · rename_i hL
    simp only [hL, if_false]

/-- The sweep run by `findStereoKeypoints`, on the sorted sequences. -/
theorem findStereoKeypoints_eq_sweep (g : StereoFramePointGenerator) (frame_status : Status)
    (frame_created_points : List StereoMatch) :
    (g.findStereoKeypoints frame_status frame_created_points).created
        = (sweep g.sortFeatures (g.sortFeatures.matchingDistance frame_status)
            g.sortFeatures.keypoints_with_descriptors_left
            g.sortFeatures.keypoints_with_descriptors_right 0 0).created
    ∧ (g.findStereoKeypoints frame_status frame_created_points).failure
        = (sweep g.sortFeatures (g.sortFeatures.matchingDistance frame_status)
            g.sortFeatures.keypoints_with_descriptors_left
            g.sortFeatures.keypoints_with_descriptors_right 0 0).failure
    ∧ (g.findStereoKeypoints frame_status frame_created_points).created_points
        = frame_created_points
          ++ (g.findStereoKeypoints frame_status frame_created_points).created
    ∧ (g.findStereoKeypoints frame_status frame_created_points).generator.keypoints_with_descriptors_left
        = sortByRowColumn g.keypoints_with_descriptors_left
    ∧ (g.findStereoKeypoints frame_status frame_created_points).generator.keypoints_with_descriptors_right
        = sortByRowColumn g.keypoints_with_descriptors_right := by
  unfold StereoFramePointGenerator.findStereoKeypoints
  simp only
  split
  · rename_i e he
    exact ⟨rfl, he.symm, rfl, rfl, rfl⟩
  · rename_i he
    exact ⟨rfl, he.symm, rfl, rfl, rfl⟩

/-- The matcher on one left feature (row 10, column 50) and one right feature (row 10, column 40)
with equal descriptors, minimum disparity 5 and matching distance 25: the scan selects the right
feature, and the invocation ends as the triangulation of the pair does. -/
theorem findStereoKeypoints_single_pair (baseline_pixelsmeters : ℚ) :
    sweep (exampleGenerator baseline_pixelsmeters [featureAt 10 50] [featureAt 10 40]).sortFeatures
        ((exampleGenerator baseline_pixelsmeters [featureAt 10 50]
          [featureAt 10 40]).sortFeatures.matchingDistance Status.Tracking)
        [featureAt 10 50] [featureAt 10 40] 0 0
      = match (exampleGenerator baseline_pixelsmeters [] []).getCoordinatesInCameraLeft
            ⟨50, 10⟩ ⟨40, 10⟩ with
        | .error e => ⟨[], some e⟩
        | .ok point =>
          ⟨[{ index_L := 0, index_best_R := 0
              keypoint_left := (featureAt 10 50).keypoint
              descriptor_left := (featureAt 10 50).descriptor
              keypoint_right := (featureAt 10 40).keypoint
              descriptor_right := (featureAt 10 40).descriptor
              point_in_camera_left := point }], none⟩ := by
  have h1 : skipLeft [featureAt 10 50] [featureAt 10 40] 0 0 = .ok 0 := by
    rw [skipLeft]; simp [featureAt]
  have h2 : skipRight [featureAt 10 50] [featureAt 10 40] 0 0 = .ok 0 := by
    rw [skipRight]; simp [featureAt]
  have h3 : scanEpipolarLine
      (exampleGenerator baseline_pixelsmeters [featureAt 10 50] [featureAt 10 40]).sortFeatures
      [featureAt 10 50] [featureAt 10 40] 0 0 25 0 = .ok (0, 0) := by
    have hc : List.count true (List.replicate 8 false) = 0 := by decide
    rw [scanEpipolarLine]
    norm_num [featureAt, StereoFramePointGenerator.sortFeatures, exampleGenerator,
      hammingDistance, hc]
  have h4 : (exampleGenerator baseline_pixelsmeters [featureAt 10 50]
      [featureAt 10 40]).sortFeatures.matchingDistance Status.Tracking = 25 := by
    simp [StereoFramePointGenerator.matchingDistance, StereoFramePointGenerator.sortFeatures,
      exampleGenerator]
  have h5 : ∀ i j : Nat, sweep
      (exampleGenerator baseline_pixelsmeters [featureAt 10 50] [featureAt 10 40]).sortFeatures
      25 [featureAt 10 50] [featureAt 10 40] (i + 1) j = ⟨[], none⟩ := by
    intro i j
    rw [sweep_eq]
    simp
  have h6 : (exampleGenerator baseline_pixelsmeters [featureAt 10 50]
        [featureAt 10 40]).sortFeatures.getCoordinatesInCameraLeft
        (featureAt 10 50).keypoint.pt (featureAt 10 40).keypoint.pt
      = (exampleGenerator baseline_pixelsmeters [] []).getCoordinatesInCameraLeft
          ⟨50, 10⟩ ⟨40, 10⟩ := rfl
  rw [h4, sweep_eq]
  simp only [List.length_singleton, Nat.lt_one_iff, if_true, h1, h2, h3,
    Nat.zero_ne_one, if_false, zero_add, dite_true, List.getElem_cons_zero, h5, h6]
  norm_num

/-- C1: for every pair of working sequences and every positive minimum disparity, every point
created by `findStereoKeypoints` pairs the left feature at `index_L` with the right feature at
`index_best_R` of the sorted sequences, the two lie on the same row, the column disparity
`left - right` is at least `minimum_disparity_pixels`, the right column is strictly left of the
left column, the matcher's call of `getCoordinatesInCameraLeft` on the pair returned the point's
coordinates, and the invocation does not end in the triangulation exception. -/
theorem findStereoKeypoints_created_disparity (g : StereoFramePointGenerator)
    (frame_status : Status) (frame_created_points : List StereoMatch)
    (hmin : 0 < g.parameters.minimum_disparity_pixels) :
    (∀ m ∈ (g.findStereoKeypoints frame_status frame_created_points).created,
        (∃ (hl : m.index_L < (sortByRowColumn g.keypoints_with_descriptors_left).length)
            (hr : m.index_best_R < (sortByRowColumn g.keypoints_with_descriptors_right).length),
            m.keypoint_left = (sortByRowColumn g.keypoints_with_descriptors_left)[m.index_L].keypoint
            ∧ m.keypoint_right
                = (sortByRowColumn g.keypoints_with_descriptors_right)[m.index_best_R].keypoint)
        ∧ m.keypoint_left.pt.y = m.keypoint_right.pt.y
        ∧ m.keypoint_left.pt.x - m.keypoint_right.pt.x ≥ g.parameters.minimum_disparity_pixels
        ∧ m.keypoint_right.pt.x < m.keypoint_left.pt.x
        ∧ g.getCoordinatesInCameraLeft m.keypoint_left.pt m.keypoint_right.pt
            = .ok m.point_in_camera_left)
    ∧ (g.findStereoKeypoints frame_status frame_created_points).failure
        ≠ some .exceptionTriangulation := by
  obtain ⟨hc, hf, -, -, -⟩ := findStereoKeypoints_eq_sweep g frame_status frame_created_points
  have hinv := sweep_invariant g.sortFeatures (g.sortFeatures.matchingDistance frame_status)
    g.sortFeatures.keypoints_with_descriptors_left
    g.sortFeatures.keypoints_with_descriptors_right _ 0 0 (le_refl _)
  rw [hc, hf]
  refine ⟨?_, hinv.2.2⟩
  intro m hm
  obtain ⟨-, -, hl, hr, hkl, -, hkr, -, hp, hrow, hdisp⟩ := hinv.1 m hm
  have hd : g.parameters.minimum_disparity_pixels
      ≤ m.keypoint_left.pt.x - m.keypoint_right.pt.x := not_lt.1 hdisp
  refine ⟨⟨hl, hr, hkl, hkr⟩, hrow, hd, ?_, hp⟩
  linarith

/-- C1, at a concrete input: the theorem applies to the left feature (row 10, column 50) and the
right feature (row 10, column 47) with minimum disparity 5, and there no point is created. -/
theorem findStereoKeypoints_created_disparity_witness :
    (0 : ℚ) < (exampleGenerator (-100) [featureAt 10 50]
        [featureAt 10 47]).parameters.minimum_disparity_pixels
    ∧ ((∀ m ∈ ((exampleGenerator (-100) [featureAt 10 50] [featureAt 10 47]).findStereoKeypoints
            Status.Tracking []).created,
          m.keypoint_left.pt.y = m.keypoint_right.pt.y
          ∧ m.keypoint_right.pt.x < m.keypoint_left.pt.x)
        ∧ ((exampleGenerator (-100) [featureAt 10 50] [featureAt 10 47]).findStereoKeypoints
            Status.Tracking []).failure ≠ some .exceptionTriangulation)
    ∧ ((exampleGenerator (-100) [featureAt 10 50] [featureAt 10 47]).findStereoKeypoints
        Status.Tracking []).created = [] := by
  have hmin : (0 : ℚ) < (exampleGenerator (-100) [featureAt 10 50]
      [featureAt 10 47]).parameters.minimum_disparity_pixels := by
    norm_num [exampleGenerator]
  have h := findStereoKeypoints_created_disparity
    (exampleGenerator (-100) [featureAt 10 50] [featureAt 10 47]) Status.Tracking [] hmin
  refine ⟨hmin, ⟨fun m hm => ⟨(h.1 m hm).2.1, (h.1 m hm).2.2.2.1⟩, h.2⟩, ?_⟩
  rw [(findStereoKeypoints_eq_sweep _ _ _).1]
  have hL : (exampleGenerator (-100) [featureAt 10 50]
      [featureAt 10 47]).sortFeatures.keypoints_with_descriptors_left = [featureAt 10 50] := rfl
  have hR : (exampleGenerator (-100) [featureAt 10 50]
      [featureAt 10 47]).sortFeatures.keypoints_with_descriptors_right = [featureAt 10 47] := rfl
  rw [hL, hR]
  have h1 : skipLeft [featureAt 10 50] [featureAt 10 47] 0 0 = .ok 0 := by
    rw [skipLeft]; simp [featureAt]
  have h2 : skipRight [featureAt 10 50] [featureAt 10 47] 0 0 = .ok 0 := by
    rw [skipRight]; simp [featureAt]
  have h3 : ∀ d : ℚ, scanEpipolarLine (exampleGenerator (-100) [featureAt 10 50]
      [featureAt 10 47]).sortFeatures [featureAt 10 50] [featureAt 10 47] 0 0 d 0
        = .ok (d, 0) := by
    intro d
    rw [scanEpipolarLine]
    norm_num [featureAt, StereoFramePointGenerator.sortFeatures, exampleGenerator]
  rw [sweep_eq]
  simp only [List.length_singleton, Nat.lt_one_iff, if_true, h1, h2, h3,
    Nat.zero_ne_one, if_false, lt_irrefl, zero_add]
  rw [sweep_eq]
  simp

/-- C2: within one invocation of `findStereoKeypoints`, for every input, the created matches taken
in creation order have strictly increasing left indices (creation order is left-feature order) and
each later match has a right index at least one past that of every earlier match; in particular no
right index is used by two created matches. -/
theorem findStereoKeypoints_right_indices_increase (g : StereoFramePointGenerator)
    (frame_status : Status) (frame_created_points : List StereoMatch) :
    (g.findStereoKeypoints frame_status frame_created_points).created.Pairwise
        (fun earlier later =>
          earlier.index_L < later.index_L ∧ earlier.index_best_R + 1 ≤ later.index_best_R)
    ∧ ((g.findStereoKeypoints frame_status frame_created_points).created.map
        StereoMatch.index_best_R).Nodup := by
  obtain ⟨hc, -, -, -, -⟩ := findStereoKeypoints_eq_sweep g frame_status frame_created_points
  have hinv := sweep_invariant g.sortFeatures (g.sortFeatures.matchingDistance frame_status)
    g.sortFeatures.keypoints_with_descriptors_left
    g.sortFeatures.keypoints_with_descriptors_right _ 0 0 (le_refl _)
  rw [hc]
  refine ⟨hinv.2.1, ?_⟩
  rw [List.Nodup, List.pairwise_map]
  exact hinv.2.1.imp (fun h => Nat.ne_of_lt h.2)

/-! ## Properties of the memory operations -/

/-- Reading through a pointer to an allocated frame gives the frame. -/
theorem readFrame_some (m : Memory) (a : Address) (f : Frame) (h : m.frames a = some f) :
    m.readFrame (some a) = .ok f := by
  simp only [Memory.readFrame, h]

/-- Writing through a pointer to an allocated frame updates the frame at its address. -/
theorem modifyFrame_some (m : Memory) (a : Address) (f : Frame) (setter : Frame → Frame)
    (h : m.frames a = some f) :
    m.modifyFrame (some a) setter
      = .ok { m with frames := Function.update m.frames a (some (setter f)) } := by
  simp only [Memory.modifyFrame, readFrame_some m a f h]

/-- Reading through a pointer to an allocated framepoint gives the point. -/
theorem readPoint_some (m : Memory) (a : Address) (p : FramePoint) (h : m.points a = some p) :
    m.readPoint (some a) = .ok p := by
  simp only [Memory.readPoint, h]

/-- Writing through a pointer to an allocated framepoint updates the point at its address. -/
theorem modifyPoint_some (m : Memory) (a : Address) (p : FramePoint)
    (setter : FramePoint → FramePoint) (h : m.points a = some p) :
    m.modifyPoint (some a) setter
      = .ok { m with points := Function.update m.points a (some (setter p)) } := by
  simp only [Memory.modifyPoint, readPoint_some m a p h]

/-- A read through a `Frame*` can only fail on an invalid pointer. -/
theorem readFrame_error (m : Memory) (pointer : Option Address) (e : Failure)
    (h : m.readFrame pointer = .error e) : e = .invalidPointer := by
  unfold Memory.readFrame at h
  split at h
  · cases h; rfl
  · split at h
    · cases h; rfl
    · cases h

/-- A write through a `Frame*` can only fail on an invalid pointer. -/
theorem modifyFrame_error (m : Memory) (pointer : Option Address) (setter : Frame → Frame)
    (e : Failure) (h : m.modifyFrame pointer setter = .error e) : e = .invalidPointer := by
  unfold Memory.modifyFrame at h
  split at h
  · cases h
  · cases h; rfl

/-- The `delete frame_point` loop leaves the frames alone, appends the deleted addresses to the
log in order, and leaves exactly the points outside the list allocated as before. -/
theorem deletePoints_spec (points : List Address) (m : Memory) :
    (m.deletePoints points).frames = m.frames
    ∧ (m.deletePoints points).cameras = m.cameras
    ∧ (m.deletePoints points).local_maps = m.local_maps
    ∧ (m.deletePoints points).deleted_points = m.deleted_points ++ points
    ∧ (∀ a, a ∈ points → (m.deletePoints points).points a = none)
    ∧ (∀ a, a ∉ points → (m.deletePoints points).points a = m.points a) := by
  induction points generalizing m with
  | nil =>
    simp [Memory.deletePoints]
  | cons p rest ih =>
    have h := ih { m with
      points := Function.update m.points p none
      deleted_points := m.deleted_points ++ [p] }
    have hstep : m.deletePoints (p :: rest)
        = Memory.deletePoints { m with
            points := Function.update m.points p none
            deleted_points := m.deleted_points ++ [p] } rest := by
      simp only [Memory.deletePoints, List.foldl_cons]
    rw [hstep]
    obtain ⟨h1, h2, h3, h4, h5, h6⟩ := h
    refine ⟨h1, h2, h3, ?_, ?_, ?_⟩
    · rw [h4]; simp
    · intro a ha
      by_cases hr : a ∈ rest
      · exact h5 a hr
      · rw [h6 a hr]
        rcases List.mem_cons.1 ha with rfl | hin
        · simp
        · exact absurd hin hr
    · intro a ha
      have hne : a ≠ p := fun h => ha (h ▸ List.mem_cons_self _ _)
      have hr : a ∉ rest := fun h => ha (List.mem_cons_of_mem _ h)
      rw [h6 a hr]
      simp [Function.update, hne]

/-- The destructor of an allocated frame: its points are deleted and its point set is emptied. -/
theorem destroy_some (m : Memory) (a : Address) (f : Frame) (h : m.frames a = some f) :
    Frame.destroy m a
      = .ok { m.deletePoints f.points with
          frames := Function.update (m.deletePoints f.points).frames a
            (some { f with points := [] }) } := by
  have hfr : (m.deletePoints f.points).frames a = some f := by
    rw [(deletePoints_spec f.points m).1]; exact h
  simp only [Frame.destroy, readFrame_some m a f h, bind, Except.bind,
    modifyFrame_some _ a f _ hfr]

/-- The statement `delete frame` on an allocated frame. -/
theorem deleteFrame_some (m : Memory) (a : Address) (f : Frame) (h : m.frames a = some f) :
    m.deleteFrame a
      = .ok { m.deletePoints f.points with frames := Function.update m.frames a none } := by
  simp only [Memory.deleteFrame, destroy_some m a f h, bind, Except.bind, pure, Except.pure,
    (deletePoints_spec f.points m).1, Function.update_idem]

/-- The statement `delete frame` can only fail on an invalid pointer. -/
theorem deleteFrame_error (m : Memory) (a : Address) (e : Failure)
    (h : m.deleteFrame a = .error e) : e = .invalidPointer := by
  cases hf : m.frames a with
  | some f => rw [deleteFrame_some m a f hf] at h; cases h
  | none =>
    have : m.readFrame (some a) = .error .invalidPointer := by
      simp only [Memory.readFrame, hf]
    simp only [Memory.deleteFrame, Frame.destroy, this, bind, Except.bind] at h
    cases h; rfl

/-- The destructor of an allocated frame deletes exactly the points of its point set, in order,
empties the set, and leaves every other point and every other frame as it was. -/
theorem destroy_spec (m : Memory) (this : Address) (self : Frame)
    (h : m.frames this = some self) :
    ∃ m', Frame.destroy m this = .ok m'
      ∧ m'.deleted_points = m.deleted_points ++ self.points
      ∧ (∀ a, a ∈ self.points → m'.points a = none)
      ∧ (∀ a, a ∉ self.points → m'.points a = m.points a)
      ∧ m'.frames this = some { self with points := [] }
      ∧ (∀ x, x ≠ this → m'.frames x = m.frames x) := by
  obtain ⟨h1, -, -, h4, h5, h6⟩ := deletePoints_spec self.points m
  refine ⟨_, destroy_some m this self h, h4, h5, h6, Function.update_same _ _ _, ?_⟩
  intro x hx
  show Function.update (m.deletePoints self.points).frames this _ x = m.frames x
  rw [Function.update_noteq hx, h1]

/-- The loop that re-parents the points: when every listed point is allocated it completes, sets
the owning frame of each listed point to `this`, and changes nothing else. -/
theorem setFrameOfPoints_spec (points : List Address) (this : Address) (m : Memory)
    (hlive : ∀ a ∈ points, m.points a ≠ none) :
    ∃ m', m.setFrameOfPoints points this = .ok m'
      ∧ m'.frames = m.frames
      ∧ m'.deleted_points = m.deleted_points
      ∧ (∀ a, a ∈ points →
          ∃ p, m.points a = some p ∧ m'.points a = some { p with frame := some this })
      ∧ (∀ a, a ∉ points → m'.points a = m.points a) := by
  induction points generalizing m with
  | nil =>
    exact ⟨m, rfl, rfl, rfl, fun a ha => absurd ha (List.not_mem_nil a), fun _ _ => rfl⟩
  | cons head rest ih =>
    cases hhead : m.points head with
    | none => exact absurd hhead (hlive head (List.mem_cons_self _ _))
    | some p =>
      have hstep := modifyPoint_some m head p (fun p => { p with frame := some this }) hhead
      have hlive1 : ∀ a ∈ rest,
          Function.update m.points head (some { p with frame := some this }) a ≠ none := by
        intro a ha
        by_cases hah : a = head
        · subst hah; simp
        · rw [Function.update_noteq hah]
          exact hlive a (List.mem_cons_of_mem _ ha)
      obtain ⟨m', hrun, hframes, hlog, hin, hout⟩ := ih
        { m with points := Function.update m.points head (some { p with frame := some this }) }
        hlive1
      refine ⟨m', ?_, hframes, hlog, ?_, ?_⟩
      · simp only [Memory.setFrameOfPoints, bind, Except.bind, hstep]
        exact hrun
      · intro a ha
        by_cases har : a ∈ rest
        · obtain ⟨p1, hp1, hp1'⟩ := hin a har
          by_cases hah : a = head
          · subst hah
            refine ⟨p, hhead, ?_⟩
            rw [hp1']
            simp only [Function.update_same, Option.some.injEq] at hp1
            rw [← hp1]
          · refine ⟨p1, ?_, hp1'⟩
            simpa [Function.update_noteq hah] using hp1
        · have hah : a = head := by
            rcases List.mem_cons.1 ha with h | h
            · exact h
            · exact absurd h har
          subst hah
          refine ⟨p, hhead, ?_⟩
          rw [hout a har]
          simp
      · intro a ha
        have hah : a ≠ head := fun h => ha (h ▸ List.mem_cons_self _ _)
        have har : a ∉ rest := fun h => ha (List.mem_cons_of_mem _ h)
        rw [hout a har]
        simp [Function.update_noteq hah]

/-! ## Properties of the frame registry: `replace` -/

/-- The relinking statements of `replace` can only fail on an invalid pointer. -/
theorem relink_error (m : Memory) (frame frame_to_be_replaced : Option Address) (e : Failure)
    (h : FramePtrMap.relink m frame frame_to_be_replaced = .error e) : e = .invalidPointer := by
  unfold FramePtrMap.relink at h
  simp only [bind, Except.bind, pure, Except.pure] at h
  repeat' split at h
  all_goals first
    | contradiction
    | (cases h; done)
    | (cases h; exact readFrame_error _ _ _ (by assumption))
    | (cases h; exact modifyFrame_error _ _ _ _ (by assumption))
    | exact deleteFrame_error _ _ _ h

/-- What `replace` does to a stored frame `B` (at `b`) that has a predecessor `A` (at `a`), when
given the new frame `N` (at `n`) with the identifier of `B`; the three addresses are distinct.
The predecessor's `next` and the new frame's links are set, `B` is deleted, the new frame is
stored under the identifier, and every other frame is left as it was. -/
theorem replace_with_predecessor (r : Registry) (a b n : Address) (A B N : Frame)
    (hab : a ≠ b) (han : a ≠ n) (hbn : b ≠ n)
    (hA : r.memory.frames a = some A) (hB : r.memory.frames b = some B)
    (hN : r.memory.frames n = some N)
    (hentry : r.map.entries N.identifier = some (some b))
    (hprev : B.previous = some a) :
    (FramePtrMap.replace r (some n)).failure = none
    ∧ (FramePtrMap.replace r (some n)).state.map.get N.identifier = some n
    ∧ (∀ k, k ≠ N.identifier →
        (FramePtrMap.replace r (some n)).state.map.entries k = r.map.entries k)
    ∧ (FramePtrMap.replace r (some n)).state.memory.frames a = some { A with next := some n }
    ∧ (FramePtrMap.replace r (some n)).state.memory.frames n
        = some { N with
            previous := some a
            next := if B.next ≠ none then B.next else N.next }
    ∧ (FramePtrMap.replace r (some n)).state.memory.frames b = none
    ∧ (∀ x, x ≠ a → x ≠ b → x ≠ n →
        (FramePtrMap.replace r (some n)).state.memory.frames x = r.memory.frames x) := by
  have h1 := modifyFrame_some r.memory a A (fun f => { f with next := some n }) hA
  have hrel : ∃ memory, FramePtrMap.relink r.memory (some n) (some b) = .ok memory
      ∧ memory.frames a = some { A with next := some n }
      ∧ memory.frames n = some { N with
            previous := some a
            next := if B.next ≠ none then B.next else N.next }
      ∧ memory.frames b = none
      ∧ (∀ x, x ≠ a → x ≠ b → x ≠ n → memory.frames x = r.memory.frames x) := by
    unfold FramePtrMap.relink
    simp only [bind, Except.bind, readFrame_some _ b B hB, hprev, h1]
    have hB1 : (Function.update r.memory.frames a (some { A with next := some n })) b
        = some B := by
      rw [Function.update_noteq (Ne.symm hab)]; exact hB
    have hN1 : (Function.update r.memory.frames a (some { A with next := some n })) n
        = some N := by
      rw [Function.update_noteq (Ne.symm han)]; exact hN
    simp only [Memory.readFrame, hB1, Memory.modifyFrame, hN1, hprev]
    have hB2 : Function.update
        (Function.update r.memory.frames a (some { A with next := some n })) n
        (some { N with previous := some a }) b = some B := by
      rw [Function.update_noteq hbn]; exact hB1
    simp only [hB2, Function.update_same, pure, Except.pure]
    by_cases hnext : B.next = none
    · simp only [hnext, ne_eq, not_true, if_false, not_false_eq_true]
      rw [deleteFrame_some _ b B hB2]
      refine ⟨_, rfl, ?_, ?_, ?_, ?_⟩
      · simp [Function.update, hab, han]
      · simp [Function.update, hbn, Ne.symm hbn]
      · simp [Function.update]
      · intro x hxa hxb hxn
        simp [Function.update, hxa, hxb, hxn]
    · simp only [hnext, ne_eq, not_false_eq_true, if_true]
      have hB3 : Function.update (Function.update
          (Function.update r.memory.frames a (some { A with next := some n })) n
          (some { N with previous := some a })) n
          (some { N with previous := some a, next := B.next }) b = some B := by
        rw [Function.update_noteq hbn]; exact hB2
      rw [deleteFrame_some _ b B hB3]
      refine ⟨_, rfl, ?_, ?_, ?_, ?_⟩
      · simp [Function.update, hab, han]
      · simp [Function.update, hbn, Ne.symm hbn]
      · simp [Function.update]
      · intro x hxa hxb hxn
        simp [Function.update, hxa, hxb, hxn]
  obtain ⟨memory, hmem, ha, hn, hb, hx⟩ := hrel
  unfold FramePtrMap.replace
  simp only [readFrame_some _ n N hN, hentry, hmem]
  refine ⟨trivial, ?_, ?_, ha, hn, hb, hx⟩
  · simp [FramePtrMap.get]
  · intro k hk
    simp [Function.update, hk]

/-- The not-found outcome of `replace`: for an allocated frame, `replace` fails with the
not-found error exactly when the registry has no entry under the frame's identifier, and then
leaves the registry as it was. -/
theorem replace_not_found (r : Registry) (n : Address) (N : Frame)
    (hN : r.memory.frames n = some N) :
    ((FramePtrMap.replace r (some n)).failure = some .cannotReplaceInexistingFrame
      ↔ r.map.entries N.identifier = none)
    ∧ (r.map.entries N.identifier = none → (FramePtrMap.replace r (some n)).state = r) := by
  unfold FramePtrMap.replace
  simp only [readFrame_some _ n N hN]
  cases he : r.map.entries N.identifier with
  | none => simp
  | some b =>
    simp only
    cases hrel : FramePtrMap.relink r.memory (some n) b with
    | ok memory => simp
    | error e =>
      simp only [Option.some.injEq, reduceCtorEq, iff_false, false_implies, and_true]
      intro hc
      subst hc
      have := relink_error _ _ _ _ hrel
      cases this

/-- C3 on the code: in the registry holding the chain `A -> B -> C` (addresses 1, 2, 3),
`replace(N)` with `N` (address 4) carrying the identifier 11 of `B` completes; afterwards
`get(11)` returns `N`, `A.next == N`, `N.previous == A`, `N.next == C` and `B` is deleted, but
`C.previous` is still the address of the deleted `B`, not `N`. -/
theorem replace_chain_successor_keeps_old_previous :
    (FramePtrMap.replace chainRegistry (some 4)).failure = none
    ∧ (FramePtrMap.replace chainRegistry (some 4)).state.map.get 11 = some 4
    ∧ (FramePtrMap.replace chainRegistry (some 4)).state.memory.frames 1
        = some (exampleFrame 10 none (some 4) [])
    ∧ (FramePtrMap.replace chainRegistry (some 4)).state.memory.frames 4
        = some (exampleFrame 11 (some 1) (some 3) [])
    ∧ (FramePtrMap.replace chainRegistry (some 4)).state.memory.frames 2 = none
    ∧ (FramePtrMap.replace chainRegistry (some 4)).state.memory.frames 3
        = some (exampleFrame 12 (some 2) none [])
    ∧ (exampleFrame 12 (some 2) none []).previous ≠ some 4 := by
  have hA : chainRegistry.memory.frames 1 = some (exampleFrame 10 none (some 2) []) := by
    simp [chainRegistry, chainMemory]
  have hB : chainRegistry.memory.frames 2 = some (exampleFrame 11 (some 1) (some 3) []) := by
    simp [chainRegistry, chainMemory]
  have hC : chainRegistry.memory.frames 3 = some (exampleFrame 12 (some 2) none []) := by
    simp [chainRegistry, chainMemory]
  have hN : chainRegistry.memory.frames 4 = some (exampleFrame 11 none none []) := by
    simp [chainRegistry, chainMemory]
  have hentry : chainRegistry.map.entries (exampleFrame 11 none none []).identifier
      = some (some 2) := by
    simp [chainRegistry, exampleFrame]
  obtain ⟨h1, h2, -, h4, h5, h6, h7⟩ := replace_with_predecessor chainRegistry 1 2 4 _ _ _
    (by decide) (by decide) (by decide) hA hB hN hentry rfl
  refine ⟨h1, h2, ?_, ?_, h6, ?_, ?_⟩
  · rw [h4]; rfl
  · rw [h5]; simp [exampleFrame]
  · rw [h7 3 (by decide) (by decide) (by decide)]; exact hC
  · simp [exampleFrame]

/-! ## Properties of triangulation -/

/-- The sign convention fixed by `configure` (lines 21-22): `_baseline_pixelsmeters` is the
projection entry itself and the metric baseline is its negative over the focal length, whatever
the base class configured. -/
theorem configure_baseline (g : StereoFramePointGenerator) (projection_matrix_right_0_3 : ℚ)
    (base_configure : StereoFramePointGenerator → StereoFramePointGenerator) :
    ∃ g', g.configure true projection_matrix_right_0_3 base_configure = .ok g'
      ∧ g'.baseline_pixelsmeters = projection_matrix_right_0_3
      ∧ g'.baseline_meters = -projection_matrix_right_0_3 / g'.focal_length_pixels
      ∧ g'.triangulation_success_ratios = [] :=
  ⟨_, rfl, rfl, rfl, rfl⟩

/-- C5 (as amended): `getCoordinatesInCameraLeft` fails with the triangulation exception exactly
when `left.x - right.x < minimum_disparity_pixels`; otherwise, on one row with
`right.x < left.x` and a non-negative depth `d = _baseline_pixelsmeters / (right.x - left.x)`, it
returns the point `(d/f * (left.x - principal_point_u), d/f * (left.y - principal_point_v), d)`,
and with a negative `d` it fails its depth assertion instead. -/
theorem getCoordinatesInCameraLeft_result (g : StereoFramePointGenerator) (l r : Point2f) :
    (g.getCoordinatesInCameraLeft l r = .error .exceptionTriangulation
      ↔ l.x - r.x < g.parameters.minimum_disparity_pixels)
    ∧ (¬ (l.x - r.x < g.parameters.minimum_disparity_pixels) → r.y = l.y → r.x < l.x →
        0 ≤ g.baseline_pixelsmeters / (r.x - l.x) →
        g.getCoordinatesInCameraLeft l r = .ok
          { x := g.baseline_pixelsmeters / (r.x - l.x) / g.focal_length_pixels
                  * (l.x - g.principal_point_offset_u_pixels)
            y := g.baseline_pixelsmeters / (r.x - l.x) / g.focal_length_pixels
                  * (l.y - g.principal_point_offset_v_pixels)
            z := g.baseline_pixelsmeters / (r.x - l.x) })
    ∧ (¬ (l.x - r.x < g.parameters.minimum_disparity_pixels) → r.y = l.y → r.x < l.x →
        g.baseline_pixelsmeters / (r.x - l.x) < 0 →
        g.getCoordinatesInCameraLeft l r = .error .assertionFailed) :=
  ⟨getCoordinatesInCameraLeft_throws_iff g l r,
    fun h1 h2 h3 h4 => (getCoordinatesInCameraLeft_cases g l r).2.1 h1 h3 h2 h4,
    fun h1 h2 h3 h4 => (getCoordinatesInCameraLeft_cases g l r).2.2 h1 h3 h2 h4⟩

/-- C5 (as amended), at a concrete input: `_baseline_pixelsmeters = -100`, focal length 500,
principal point `(0, 0)`, left (row 10, column 50), right (row 10, column 40), minimum
disparity 5; the returned point is `(1, 1/5, 10)`. -/
theorem getCoordinatesInCameraLeft_result_witness :
    (¬ ((50 : ℚ) - 40 < (exampleGenerator (-100) [] []).parameters.minimum_disparity_pixels)
      ∧ (40 : ℚ) < 50
      ∧ 0 ≤ (exampleGenerator (-100) [] []).baseline_pixelsmeters / ((40 : ℚ) - 50))
    ∧ (exampleGenerator (-100) [] []).getCoordinatesInCameraLeft ⟨50, 10⟩ ⟨40, 10⟩
        = .ok { x := (-100 : ℚ) / (40 - 50) / 500 * (50 - 0)
                y := (-100 : ℚ) / (40 - 50) / 500 * (10 - 0)
                z := (-100 : ℚ) / (40 - 50) } := by
  have h1 : ¬ ((50 : ℚ) - 40
      < (exampleGenerator (-100) [] []).parameters.minimum_disparity_pixels) := by
    norm_num [exampleGenerator]
  have h2 : (40 : ℚ) < 50 := by norm_num
  have h3 : 0 ≤ (exampleGenerator (-100) [] []).baseline_pixelsmeters / ((40 : ℚ) - 50) := by
    norm_num [exampleGenerator]
  exact ⟨⟨h1, h2, h3⟩,
    (getCoordinatesInCameraLeft_result (exampleGenerator (-100) [] []) ⟨50, 10⟩ ⟨40, 10⟩).2.1
      h1 rfl h2 h3⟩

/-- C5 fails as stated: with `_baseline_pixelsmeters = 100`, focal length 500, left (row 10,
column 50), right (row 10, column 40) and minimum disparity 5, the disparity is not below the
minimum, the two pixels share a row and the right column is left of the left column, yet the call
does not return the point of the formula: its depth assertion fails. -/
theorem getCoordinatesInCameraLeft_result_counterexample :
    ¬ ((50 : ℚ) - 40 < (exampleGenerator 100 [] []).parameters.minimum_disparity_pixels)
    ∧ (40 : ℚ) < 50
    ∧ (exampleGenerator 100 [] []).getCoordinatesInCameraLeft ⟨50, 10⟩ ⟨40, 10⟩
        ≠ .ok { x := (100 : ℚ) / (40 - 50) / 500 * (50 - 0)
                y := (100 : ℚ) / (40 - 50) / 500 * (10 - 0)
                z := (100 : ℚ) / (40 - 50) }
    ∧ (exampleGenerator 100 [] []).getCoordinatesInCameraLeft ⟨50, 10⟩ ⟨40, 10⟩
        = .error .assertionFailed := by
  have h : (exampleGenerator 100 [] []).getCoordinatesInCameraLeft ⟨50, 10⟩ ⟨40, 10⟩
      = .error .assertionFailed := by
    norm_num [StereoFramePointGenerator.getCoordinatesInCameraLeft, exampleGenerator]
  refine ⟨by norm_num [exampleGenerator], by norm_num, ?_, h⟩
  rw [h]
  intro hc
  cases hc

/-! ## Properties of frames and framepoints -/

/-- The function `Frame::create` without a previous point, on an allocated frame with an allocated
left camera: the new point is stored at the address given by `new`, nothing else changes. -/
theorem create_without_previous (m : Memory) (this : Address) (kl : KeyPoint) (dl : Descriptor)
    (kr : KeyPoint) (dr : Descriptor) (c : PointCoordinates) (frame_point : Address)
    (self : Frame) (cam : Address) (camera : Camera)
    (hself : m.frames this = some self) (hcam : self.camera_left = some cam)
    (hcamera : m.cameras cam = some camera) :
    Frame.create m this kl dl kr dr c none frame_point
      = .ok ({ m with
          points := Function.update m.points frame_point
            (some (createdPoint self camera kl dl kr dr c this frame_point)) }, frame_point) := by
  have hread : ∀ (pts : Address → Option FramePoint),
      Memory.readCamera { m with points := pts } (some cam) = .ok camera := by
    intro pts
    simp only [Memory.readCamera, hcamera]
  unfold Frame.create
  simp only [bind, Except.bind, readFrame_some m this self hself, hcam, pure, Except.pure]
  simp only [Memory.modifyPoint, Memory.readPoint, Function.update_same, hread,
    Function.update_idem]
  by_cases hnear : c.z < self.maximum_depth_close
  · simp [hnear, createdPoint, FramePoint.construct]
  · simp [hnear, createdPoint, FramePoint.construct]

/-- The function `Frame::create` with a previous point, on an allocated frame with an allocated
left camera and an allocated previous point other than the new address: the new point is stored
at the address given by `new`, the previous point gets the new point as its `next`, nothing else
changes. -/
theorem create_with_previous (m : Memory) (this : Address) (kl : KeyPoint) (dl : Descriptor)
    (kr : KeyPoint) (dr : Descriptor) (c : PointCoordinates) (frame_point : Address)
    (self : Frame) (cam : Address) (camera : Camera) (q : Address) (pq : FramePoint)
    (hself : m.frames this = some self) (hcam : self.camera_left = some cam)
    (hcamera : m.cameras cam = some camera)
    (hq : m.points q = some pq) (hne : q ≠ frame_point) :
    Frame.create m this kl dl kr dr c (some q) frame_point
      = .ok ({ m with
          points := Function.update
            (Function.update m.points q (some { pq with next := some frame_point }))
            frame_point (some (createdTrackPoint self camera kl dl kr dr c this q pq)) },
          frame_point) := by
  have hread : ∀ (pts : Address → Option FramePoint),
      Memory.readCamera { m with points := pts } (some cam) = .ok camera := by
    intro pts
    simp only [Memory.readCamera, hcamera]
  have hswap : ∀ (f : Address → Option FramePoint) (x y : Option FramePoint),
      Function.update (Function.update f frame_point x) q y
        = Function.update (Function.update f q y) frame_point x :=
    fun f x y => Function.update_comm (Ne.symm hne) x y f
  unfold Frame.create
  simp only [bind, Except.bind, readFrame_some m this self hself, hcam, pure, Except.pure]
  simp only [Memory.modifyPoint, Memory.readPoint, Function.update_same, hread,
    Function.update_idem, Memory.setPrevious, bind, Except.bind,
    Function.update_noteq hne, hq, hswap]
  by_cases hnear : c.z < self.maximum_depth_close
  · simp [hnear, createdTrackPoint, FramePoint.construct, Function.update_idem]
  · simp [hnear, createdTrackPoint, FramePoint.construct, Function.update_idem]

/-- C6: for every (allocated) frame with its left camera and every argument list, `Frame::create`
called without a previous point returns a point whose origin is the point itself and whose track
length is 0; called with a previous point `q` it returns a point whose previous is `q`, whose
origin is the origin of `q` and whose track length is that of `q` plus one. -/
theorem create_origin_and_track_length (m : Memory) (this : Address) (kl : KeyPoint)
    (dl : Descriptor) (kr : KeyPoint) (dr : Descriptor) (c : PointCoordinates)
    (frame_point : Address) (self : Frame) (cam : Address) (camera : Camera)
    (hself : m.frames this = some self) (hcam : self.camera_left = some cam)
    (hcamera : m.cameras cam = some camera) (hfresh : m.points frame_point = none) :
    (∃ m' p, Frame.create m this kl dl kr dr c none frame_point = .ok (m', frame_point)
        ∧ m'.points frame_point = some p
        ∧ p.origin = some frame_point ∧ p.track_length = 0 ∧ p.previous = none)
    ∧ (∀ q pq, m.points q = some pq →
        ∃ m' p, Frame.create m this kl dl kr dr c (some q) frame_point = .ok (m', frame_point)
          ∧ m'.points frame_point = some p
          ∧ p.previous = some q ∧ p.origin = pq.origin
          ∧ p.track_length = pq.track_length + 1) := by
  refine ⟨⟨_, _, create_without_previous m this kl dl kr dr c frame_point self cam camera
      hself hcam hcamera, Function.update_same _ _ _, rfl, rfl, rfl⟩, ?_⟩
  intro q pq hq
  have hne : q ≠ frame_point := by
    intro h
    rw [h, hfresh] at hq
    cases hq
  exact ⟨_, _, create_with_previous m this kl dl kr dr c frame_point self cam camera q pq
    hself hcam hcamera hq hne, Function.update_same _ _ _, rfl, rfl, rfl⟩

/-- C6, at a concrete input: the frame at address 1 of `pointMemory`, the new address 7; without
previous point the new point is its own origin with track length 0, and with the previous point
at address 5 (track length 2, origin 9) it has origin 9 and track length 3. -/
theorem create_origin_and_track_length_witness :
    (pointMemory.frames 1 = some (exampleFrame 10 none none [5])
      ∧ (exampleFrame 10 none none [5]).camera_left = some 0
      ∧ pointMemory.cameras 0 = some ⟨TransformMatrix3D.identity⟩
      ∧ pointMemory.points 7 = none)
    ∧ (∃ m' p, Frame.create pointMemory 1 (featureAt 10 50).keypoint [] (featureAt 10 40).keypoint
          [] ⟨1, 1 / 5, 10⟩ none 7 = .ok (m', 7)
        ∧ m'.points 7 = some p ∧ p.origin = some 7 ∧ p.track_length = 0 ∧ p.previous = none)
    ∧ (∃ m' p, Frame.create pointMemory 1 (featureAt 10 50).keypoint [] (featureAt 10 40).keypoint
          [] ⟨1, 1 / 5, 10⟩ (some 5) 7 = .ok (m', 7)
        ∧ m'.points 7 = some p ∧ p.previous = some 5 ∧ p.origin = some 9
        ∧ p.track_length = 2 + 1) := by
  have h1 : pointMemory.frames 1 = some (exampleFrame 10 none none [5]) := by
    simp [pointMemory]
  have h2 : (exampleFrame 10 none none [5]).camera_left = some 0 := rfl
  have h3 : pointMemory.cameras 0 = some ⟨TransformMatrix3D.identity⟩ := by
    simp [pointMemory]
  have h4 : pointMemory.points 7 = none := by
    simp [pointMemory]
  have h := create_origin_and_track_length pointMemory 1 (featureAt 10 50).keypoint []
    (featureAt 10 40).keypoint [] ⟨1, 1 / 5, 10⟩ 7 _ 0 _ h1 h2 h3 h4
  refine ⟨⟨h1, h2, h3, h4⟩, h.1, ?_⟩
  exact h.2 5 examplePoint (by simp [pointMemory])

/-- C7 (as amended): after `frame.create(...)` returns a point `p`, the owning-frame
back-reference of `p` is that frame, but the frame itself is unchanged: its owned point set is the
one it had before, `p` is not a member of it, and destroying the frame afterwards deletes exactly
the points of that set and leaves `p` allocated. (The frame's points are allocated, the address of
`p` is fresh, and a previous point, if given, is allocated.) -/
theorem create_leaves_point_set (m : Memory) (this : Address) (kl : KeyPoint)
    (dl : Descriptor) (kr : KeyPoint) (dr : Descriptor) (c : PointCoordinates)
    (previous_point : Option Address) (frame_point : Address) (self : Frame) (cam : Address)
    (camera : Camera)
    (hself : m.frames this = some self) (hcam : self.camera_left = some cam)
    (hcamera : m.cameras cam = some camera) (hfresh : m.points frame_point = none)
    (hprevious : ∀ q, previous_point = some q → m.points q ≠ none)
    (hown : ∀ a ∈ self.points, m.points a ≠ none) :
    ∃ m' p, Frame.create m this kl dl kr dr c previous_point frame_point = .ok (m', frame_point)
      ∧ m'.points frame_point = some p
      ∧ p.frame = some this
      ∧ m'.frames this = some self
      ∧ frame_point ∉ self.points
      ∧ ∃ m'', Frame.destroy m' this = .ok m''
          ∧ m''.deleted_points = m'.deleted_points ++ self.points
          ∧ m''.points frame_point = some p := by
  have hnot : frame_point ∉ self.points := fun hin => hown frame_point hin hfresh
  have hdestroy : ∀ (m' : Memory) (p : FramePoint), m'.frames this = some self →
      m'.points frame_point = some p →
      ∃ m'', Frame.destroy m' this = .ok m''
          ∧ m''.deleted_points = m'.deleted_points ++ self.points
          ∧ m''.points frame_point = some p := by
    intro m' p hf hp
    obtain ⟨m'', hd, hlog, -, hkeep, -, -⟩ := destroy_spec m' this self hf
    exact ⟨m'', hd, hlog, by rw [hkeep frame_point hnot]; exact hp⟩
  cases previous_point with
  | none =>
    refine ⟨_, _, create_without_previous m this kl dl kr dr c frame_point self cam camera
      hself hcam hcamera, Function.update_same _ _ _, rfl, hself, hnot, ?_⟩
    exact hdestroy _ _ hself (Function.update_same _ _ _)
  | some q =>
    cases hq : m.points q with
    | none => exact absurd hq (hprevious q rfl)
    | some pq =>
      have hne : q ≠ frame_point := by
        intro h
        rw [h, hfresh] at hq
        cases hq
      refine ⟨_, _, create_with_previous m this kl dl kr dr c frame_point self cam camera q pq
        hself hcam hcamera hq hne, Function.update_same _ _ _, rfl, hself, hnot, ?_⟩
      exact hdestroy _ _ hself (Function.update_same _ _ _)

/-- C7 (as amended), at a concrete input: the frame at address 1 of `pointMemory` owns the point
at address 5; after `create` returns the new point at address 7, destroying the frame deletes
the point 5 only. -/
theorem create_leaves_point_set_witness :
    (pointMemory.frames 1 = some (exampleFrame 10 none none [5])
      ∧ (exampleFrame 10 none none [5]).camera_left = some 0
      ∧ pointMemory.cameras 0 = some ⟨TransformMatrix3D.identity⟩
      ∧ pointMemory.points 7 = none
      ∧ (∀ a ∈ (exampleFrame 10 none none [5]).points, pointMemory.points a ≠ none))
    ∧ ∃ m' p, Frame.create pointMemory 1 (featureAt 10 50).keypoint [] (featureAt 10 40).keypoint
          [] ⟨1, 1 / 5, 10⟩ none 7 = .ok (m', 7)
        ∧ m'.points 7 = some p
        ∧ p.frame = some 1
        ∧ m'.frames 1 = some (exampleFrame 10 none none [5])
        ∧ 7 ∉ (exampleFrame 10 none none [5]).points
        ∧ ∃ m'', Frame.destroy m' 1 = .ok m''
            ∧ m''.deleted_points = m'.deleted_points ++ (exampleFrame 10 none none [5]).points
            ∧ m''.points 7 = some p := by
  have h1 : pointMemory.frames 1 = some (exampleFrame 10 none none [5]) := by
    simp [pointMemory]
  have h2 : (exampleFrame 10 none none [5]).camera_left = some 0 := rfl
  have h3 : pointMemory.cameras 0 = some ⟨TransformMatrix3D.identity⟩ := by
    simp [pointMemory]
  have h4 : pointMemory.points 7 = none := by
    simp [pointMemory]
  have h5 : ∀ a ∈ (exampleFrame 10 none none [5]).points, pointMemory.points a ≠ none := by
    intro a ha
    have : a = 5 := by simpa [exampleFrame] using ha
    subst this
    simp [pointMemory]
  exact ⟨⟨h1, h2, h3, h4, h5⟩,
    create_leaves_point_set pointMemory 1 (featureAt 10 50).keypoint []
      (featureAt 10 40).keypoint [] ⟨1, 1 / 5, 10⟩ none 7 _ 0 _ h1 h2 h3 h4
      (fun q hq => by cases hq) h5⟩

/-- C7 fails as stated: on the frame at address 1 of `pointMemory`, which owns the one point at
address 5, `create` returns the new point at address 7; afterwards the frame's point set is still
`[5]`: the new point is not a member, the size has not grown from 1 to 2, and destroying the
frame deletes the point 5 and leaves the new point allocated. -/
theorem create_leaves_point_set_counterexample :
    ∃ m', Frame.create pointMemory 1 (featureAt 10 50).keypoint [] (featureAt 10 40).keypoint
          [] ⟨1, 1 / 5, 10⟩ none 7 = .ok (m', 7)
      ∧ (m'.frames 1).map Frame.points = some [5]
      ∧ ¬ ((m'.frames 1).map (fun f => decide (7 ∈ f.points)) = some true)
      ∧ ¬ ((m'.frames 1).map (fun f => f.points.length) = some (1 + 1))
      ∧ ∃ m'', Frame.destroy m' 1 = .ok m''
          ∧ m''.deleted_points = [5]
          ∧ m''.points 7 ≠ none := by
  have h1 : pointMemory.frames 1 = some (exampleFrame 10 none none [5]) := by
    simp [pointMemory]
  have h3 : pointMemory.cameras 0 = some ⟨TransformMatrix3D.identity⟩ := by
    simp [pointMemory]
  have hcreate := create_without_previous pointMemory 1 (featureAt 10 50).keypoint []
    (featureAt 10 40).keypoint [] ⟨1, 1 / 5, 10⟩ 7 _ 0 _ h1 rfl h3
  have hnot : 7 ∉ (exampleFrame 10 none none [5]).points := by simp [exampleFrame]
  obtain ⟨m'', hd, hlog, -, hkeep, -, -⟩ := destroy_spec
    { pointMemory with
      points := Function.update pointMemory.points 7
        (some (createdPoint (exampleFrame 10 none none [5]) ⟨TransformMatrix3D.identity⟩
          (featureAt 10 50).keypoint [] (featureAt 10 40).keypoint [] ⟨1, 1 / 5, 10⟩ 1 7)) }
    1 _ h1
  refine ⟨_, hcreate, ?_, ?_, ?_, m'', hd, ?_, ?_⟩
  · simp [pointMemory, exampleFrame]
  · simp [pointMemory, exampleFrame]
  · simp [pointMemory, exampleFrame]
  · rw [hlog]
    simp [pointMemory, exampleFrame]
  · rw [hkeep 7 hnot]
    simp

/-! ## Properties of the frame registry: `put`, `get` and the failure of `replace` -/

/-- C8: for every registry and every (allocated) frame, `put` fails with the double-insertion error
exactly when an entry already exists under the frame's identifier, and then leaves the registry
as it was; otherwise it succeeds, `get` of the identifier then returns the frame, and every other
entry and the memory are unchanged. `get` of an identifier without entry returns the null
pointer (it is a total function without failure outcome). -/
theorem put_get_contract (r : Registry) (frame : Address) (f : Frame)
    (hf : r.memory.frames frame = some f) :
    ((FramePtrMap.put r (some frame)).failure = some .doubleInsertion
      ↔ r.map.entries f.identifier ≠ none)
    ∧ (r.map.entries f.identifier ≠ none →
        (FramePtrMap.put r (some frame)).state = r
        ∧ (FramePtrMap.put r (some frame)).state.map.get f.identifier
            = r.map.get f.identifier)
    ∧ (r.map.entries f.identifier = none →
        (FramePtrMap.put r (some frame)).failure = none
        ∧ (FramePtrMap.put r (some frame)).state.map.get f.identifier = some frame
        ∧ (∀ k, k ≠ f.identifier →
            (FramePtrMap.put r (some frame)).state.map.entries k = r.map.entries k)
        ∧ (FramePtrMap.put r (some frame)).state.memory = r.memory)
    ∧ (∀ k, r.map.entries k = none → r.map.get k = none) := by
  have hread : r.memory.readFrame (some frame) = .ok f := by
    simp only [Memory.readFrame, hf]
  refine ⟨?_, ?_, ?_, ?_⟩
  · unfold FramePtrMap.put
    rw [hread]
    cases he : r.map.entries f.identifier with
    | none => simp [he]
    | some e => simp [he]
  · intro hex
    unfold FramePtrMap.put
    rw [hread]
    cases he : r.map.entries f.identifier with
    | none => exact absurd he hex
    | some e => simp [he]
  · intro hno
    unfold FramePtrMap.put
    rw [hread]
    simp only [hno]
    refine ⟨trivial, ?_, ?_, trivial⟩
    · simp [FramePtrMap.get]
    · intro k hk
      simp [Function.update, hk]
  · intro k hk
    simp [FramePtrMap.get, hk]

/-- C8, at a concrete input: the theorem applies to the chain registry and its frame `B`
(address 2, identifier 11), where the second `put` fails and `get 11` still returns `B`. -/
theorem put_get_contract_witness :
    chainRegistry.memory.frames 2 = some (exampleFrame 11 (some 1) (some 3) [])
    ∧ (FramePtrMap.put chainRegistry (some 2)).failure = some .doubleInsertion
    ∧ (FramePtrMap.put chainRegistry (some 2)).state.map.get 11 = some 2 := by
  have hf : chainRegistry.memory.frames 2 = some (exampleFrame 11 (some 1) (some 3) []) := by
    simp [chainRegistry, chainMemory]
  have hex : chainRegistry.map.entries (exampleFrame 11 (some 1) (some 3) []).identifier
      ≠ none := by
    simp [chainRegistry, exampleFrame]
  have h := put_get_contract chainRegistry 2 _ hf
  refine ⟨hf, h.1.2 hex, ?_⟩
  have h2 := (h.2.1 hex).2
  simp only [exampleFrame] at h2
  rw [h2]
  simp [FramePtrMap.get, chainRegistry]

/-- C9 on the code: in the registry whose only frame `B` (address 2, identifier 11) has no
predecessor, `replace(N)` with `N` (address 4) carrying the identifier 11 does not complete:
the statement `frame_to_be_replaced->previous()->setNext(frame)` dereferences the null
pointer. -/
theorem replace_without_predecessor_fails :
    firstFrameRegistry.map.entries 11 = some (some 2)
    ∧ firstFrameRegistry.memory.frames 2 = some (exampleFrame 11 none none [])
    ∧ (exampleFrame 11 none none []).previous = none
    ∧ (FramePtrMap.replace firstFrameRegistry (some 4)).failure = some .invalidPointer := by
  refine ⟨by simp [firstFrameRegistry], by simp [firstFrameRegistry, firstFrameMemory],
    rfl, ?_⟩
  simp [FramePtrMap.replace, FramePtrMap.relink, Memory.readFrame, Memory.modifyFrame,
    firstFrameRegistry, firstFrameMemory, exampleFrame, bind, Except.bind]

/-! ## Ownership transfer -/

/-- The constructor `Frame(Frame*)` on an allocated source frame whose points are allocated,
building at an address other than the source's: the new frame, the emptied source, and the
re-parented points. -/
theorem constructFrom_spec (m : Memory) (this src : Address) (members source : Frame)
    (hsrc : m.frames src = some source) (hne : this ≠ src)
    (hlive : ∀ a ∈ source.points, m.points a ≠ none) :
    ∃ m', Frame.constructFrom m this members (some src) = .ok m'
      ∧ m'.frames this = some { members with
          identifier := source.identifier
          maximum_depth_close := source.maximum_depth_close
          local_map := source.local_map
          previous := source.previous
          next := source.next
          status := source.status
          points := source.points
          robot_to_world := source.robot_to_world
          world_to_robot := source.world_to_robot
          robot_to_world_ground_truth := source.robot_to_world_ground_truth
          camera_left := source.camera_left
          camera_right := source.camera_right
          intensity_image_left := source.intensity_image_left
          intensity_image_right := source.intensity_image_right }
      ∧ m'.frames src = some { source with points := [] }
      ∧ (∀ x, x ≠ this → x ≠ src → m'.frames x = m.frames x)
      ∧ m'.deleted_points = m.deleted_points
      ∧ (∀ a, a ∈ source.points →
          ∃ p, m.points a = some p ∧ m'.points a = some { p with frame := some this })
      ∧ (∀ a, a ∉ source.points → m'.points a = m.points a) := by
  obtain ⟨m1, hrun, hframes, hlog, hin, hout⟩ := setFrameOfPoints_spec source.points this
    { m with frames := Function.update m.frames this (some { members with
        identifier := source.identifier
        maximum_depth_close := source.maximum_depth_close
        local_map := source.local_map
        previous := source.previous
        next := source.next
        status := source.status
        points := source.points }) } hlive
  have hsrc1 : m1.frames src = some source := by
    rw [hframes]
    show Function.update m.frames this _ src = some source
    rw [Function.update_noteq (Ne.symm hne)]
    exact hsrc
  have hstep2 := modifyFrame_some m1 src source (fun f => { f with points := [] }) hsrc1
  have hthis2 : Function.update m1.frames src (some { source with points := [] }) this
      = some { members with
        identifier := source.identifier
        maximum_depth_close := source.maximum_depth_close
        local_map := source.local_map
        previous := source.previous
        next := source.next
        status := source.status
        points := source.points } := by
    rw [Function.update_noteq hne, hframes]
    exact Function.update_same _ _ _
  have hall : Frame.constructFrom m this members (some src)
      = .ok { m1 with
          frames := Function.update
            (Function.update m1.frames src (some { source with points := [] })) this
            (some { members with
              identifier := source.identifier
              maximum_depth_close := source.maximum_depth_close
              local_map := source.local_map
              previous := source.previous
              next := source.next
              status := source.status
              points := source.points
              robot_to_world := source.robot_to_world
              world_to_robot := source.world_to_robot
              robot_to_world_ground_truth := source.robot_to_world_ground_truth
              camera_left := source.camera_left
              camera_right := source.camera_right
              intensity_image_left := source.intensity_image_left
              intensity_image_right := source.intensity_image_right }) } := by
    unfold Frame.constructFrom
    simp only [bind, Except.bind, readFrame_some m src source hsrc, List.nil_append, hrun,
      hstep2]
    simp only [Memory.readFrame, Function.update_same]
    rw [modifyFrame_some _ this _ _ hthis2]
  refine ⟨_, hall, ?_, ?_, ?_, hlog, hin, hout⟩
  · simp only [Function.update_same]
  · show Function.update (Function.update m1.frames src _) this _ src = _
    rw [Function.update_noteq (Ne.symm hne), Function.update_same]
  · intro x hx1 hx2
    show Function.update (Function.update m1.frames src _) this _ x = _
    rw [Function.update_noteq hx1, Function.update_noteq hx2, hframes]
    show Function.update m.frames this _ x = _
    rw [Function.update_noteq hx1]

/-- C10: for every (allocated) source frame `S` whose `N` owned points are allocated, the
ownership-transfer construction `Frame(S)` yields a frame `F` with the identifier, pose and cached
inverse, previous/next links, status, camera references and images of `S`, whose owned points are
exactly the former points of `S` in the same order, each with its owning-frame back-reference set
to `F`, and leaves `S` with an empty point set; destroying `S` afterwards deletes no point, and
destroying `F` deletes exactly those `N` points. -/
theorem constructFrom_transfers_ownership (m : Memory) (this src : Address)
    (members source : Frame)
    (hsrc : m.frames src = some source) (hne : this ≠ src)
    (hlive : ∀ a ∈ source.points, m.points a ≠ none) :
    ∃ m' F S, Frame.constructFrom m this members (some src) = .ok m'
      ∧ m'.frames this = some F ∧ m'.frames src = some S
      ∧ F.identifier = source.identifier
      ∧ F.robot_to_world = source.robot_to_world
      ∧ F.world_to_robot = source.world_to_robot
      ∧ F.previous = source.previous ∧ F.next = source.next
      ∧ F.status = source.status
      ∧ F.camera_left = source.camera_left ∧ F.camera_right = source.camera_right
      ∧ F.intensity_image_left = source.intensity_image_left
      ∧ F.intensity_image_right = source.intensity_image_right
      ∧ F.points = source.points
      ∧ (∀ a, a ∈ source.points →
          ∃ p, m.points a = some p ∧ m'.points a = some { p with frame := some this })
      ∧ S.points = []
      ∧ (∃ m1, Frame.destroy m' src = .ok m1
          ∧ m1.deleted_points = m'.deleted_points ∧ m1.points = m'.points)
      ∧ (∃ m2, Frame.destroy m' this = .ok m2
          ∧ m2.deleted_points = m'.deleted_points ++ source.points
          ∧ (m2.deleted_points.length = m'.deleted_points.length + source.points.length)
          ∧ (∀ a, a ∈ source.points → m2.points a = none)
          ∧ (∀ a, a ∉ source.points → m2.points a = m'.points a)) := by
  obtain ⟨m', hrun, hF, hS, -, -, hin, -⟩ :=
    constructFrom_spec m this src members source hsrc hne hlive
  obtain ⟨m1, hd1, hlog1, -, hkeep1, -, -⟩ := destroy_spec m' src _ hS
  obtain ⟨m2, hd2, hlog2, hgone2, hkeep2, -, -⟩ := destroy_spec m' this _ hF
  refine ⟨m', _, _, hrun, hF, hS, rfl, rfl, rfl, rfl, rfl, rfl, rfl, rfl, rfl, rfl, rfl, hin,
    rfl, ⟨m1, hd1, ?_, ?_⟩, ⟨m2, hd2, hlog2, ?_, hgone2, hkeep2⟩⟩
  · simpa using hlog1
  · funext a
    exact hkeep1 a (List.not_mem_nil a)
  · rw [hlog2, List.length_append]

/-- C10, at a concrete input: the source is the frame at address 1 of `pointMemory`, which owns
the point at address 5; the new frame is built at address 2. -/
theorem constructFrom_transfers_ownership_witness :
    (pointMemory.frames 1 = some (exampleFrame 10 none none [5])
      ∧ (2 : Address) ≠ 1
      ∧ (∀ a ∈ (exampleFrame 10 none none [5]).points, pointMemory.points a ≠ none))
    ∧ ∃ m' F S, Frame.constructFrom pointMemory 2 (exampleFrame 0 none none []) (some 1) = .ok m'
        ∧ m'.frames 2 = some F ∧ m'.frames 1 = some S
        ∧ F.identifier = 10
        ∧ F.points = [5]
        ∧ (∃ p, pointMemory.points 5 = some p ∧ m'.points 5 = some { p with frame := some 2 })
        ∧ S.points = []
        ∧ (∃ m1, Frame.destroy m' 1 = .ok m1 ∧ m1.deleted_points = m'.deleted_points)
        ∧ (∃ m2, Frame.destroy m' 2 = .ok m2 ∧ m2.deleted_points = m'.deleted_points ++ [5]) := by
  have h1 : pointMemory.frames 1 = some (exampleFrame 10 none none [5]) := by
    simp [pointMemory]
  have h5 : ∀ a ∈ (exampleFrame 10 none none [5]).points, pointMemory.points a ≠ none := by
    intro a ha
    have : a = 5 := by simpa [exampleFrame] using ha
    subst this
    simp [pointMemory]
  obtain ⟨m', F, S, hrun, hF, hS, hid, -, -, -, -, -, -, -, -, -, hpts, hin, hSp,
      ⟨m1, hd1, hl1, -⟩, ⟨m2, hd2, hl2, -, -, -⟩⟩ :=
    constructFrom_transfers_ownership pointMemory 2 1 (exampleFrame 0 none none []) _ h1
      (by decide) h5
  exact ⟨⟨h1, by decide, h5⟩, m', F, S, hrun, hF, hS, hid, hpts,
    hin 5 (by simp [exampleFrame]), hSp, ⟨m1, hd1, hl1⟩, ⟨m2, hd2, hl2⟩⟩

/-! ## Properties of the feature buffers -/

/-- The two assignments to position `u` of a working sequence store the feature made of
keypoint `u` and descriptor row `u`. -/
theorem assignOne_eq (keypoints : List KeyPoint) (descriptors : List Descriptor) (u : Nat)
    (working : List IntensityFeature) (hw : u < working.length) (hk : u < keypoints.length)
    (hd : u < descriptors.length) :
    assignOne keypoints descriptors u working
      = .ok (working.set u { keypoint := keypoints[u], descriptor := descriptors[u] }) := by
  have hw2 : u < (working.set u { working[u] with keypoint := keypoints[u] }).length := by
    simpa using hw
  simp only [assignOne, assignKeypoint, assignDescriptor, hw, hk, hd, hw2, dite_true, bind,
    Except.bind, List.set_set, List.getElem_set_self]

/-- The copy of an image's features has as many entries as the image has keypoints, when there is
one descriptor row per keypoint. -/
theorem copyFeatures_length (keypoints : List KeyPoint) (descriptors : List Descriptor)
    (h : descriptors.length = keypoints.length) :
    (copyFeatures keypoints descriptors).length = keypoints.length := by
  simp [copyFeatures, h]

/-- Entry `i` of the copy is keypoint `i` with descriptor row `i`. -/
theorem copyFeatures_getElem (keypoints : List KeyPoint) (descriptors : List Descriptor)
    (i : Nat) (hk : i < keypoints.length) (hd : i < descriptors.length)
    (hc : i < (copyFeatures keypoints descriptors).length) :
    (copyFeatures keypoints descriptors)[i]
      = { keypoint := keypoints[i], descriptor := descriptors[i] } := by
  simp [copyFeatures]

/-- Overwriting position `u` of a sequence that agrees with `copy` before `u`. -/
theorem set_take_drop (copy working : List IntensityFeature) (u : Nat)
    (hc : u < copy.length) (hw : u < working.length) :
    (copy.take u ++ working.drop u).set u copy[u]
      = copy.take (u + 1) ++ working.drop (u + 1) := by
  have hlen : (copy.take u).length = u := by
    rw [List.length_take]; omega
  have h1 : (copy.take u ++ working.drop u).set u copy[u]
      = copy.take u ++ (working.drop u).set (u - (copy.take u).length) copy[u] :=
    List.set_append_right _ _ (by omega)
  rw [h1, hlen, Nat.sub_self, List.take_succ, List.drop_eq_getElem_cons hw,
    List.getElem?_eq_getElem hc]
  simp only [List.set_cons_zero, Option.toList, List.append_assoc, List.singleton_append]

/-- One round of a loop body on a working sequence that holds the copy before `u`: afterwards it
holds the copy before `u + 1`. -/
theorem assignOne_step (keypoints : List KeyPoint) (descriptors : List Descriptor)
    (working : List IntensityFeature) (u : Nat)
    (hd : descriptors.length = keypoints.length) (hw : working.length = keypoints.length)
    (hu : u < keypoints.length) :
    assignOne keypoints descriptors u
        ((copyFeatures keypoints descriptors).take u ++ working.drop u)
      = .ok ((copyFeatures keypoints descriptors).take (u + 1) ++ working.drop (u + 1)) := by
  have hc : u < (copyFeatures keypoints descriptors).length := by
    rw [copyFeatures_length _ _ hd]; exact hu
  have hlen : u < ((copyFeatures keypoints descriptors).take u ++ working.drop u).length := by
    rw [List.length_append, List.length_take, List.length_drop]; omega
  rw [assignOne_eq _ _ _ _ hlen hu (by omega),
    ← copyFeatures_getElem keypoints descriptors u hu (by omega) hc,
    set_take_drop _ _ _ hc (by omega)]

/-- The loop over one working sequence: from a sequence that holds the copy before `u`, `count`
rounds give the sequence that holds the copy before `u + count`. -/
theorem forLoop_assignOne (keypoints : List KeyPoint) (descriptors : List Descriptor)
    (working : List IntensityFeature)
    (hd : descriptors.length = keypoints.length) (hw : working.length = keypoints.length)
    (count : Nat) :
    ∀ u, u + count ≤ keypoints.length →
      forLoop (assignOne keypoints descriptors) count u
          ((copyFeatures keypoints descriptors).take u ++ working.drop u)
        = .ok ((copyFeatures keypoints descriptors).take (u + count)
            ++ working.drop (u + count)) := by
  induction count with
  | zero => intro u _; rfl
  | succ count ih =>
    intro u hu
    rw [forLoop, assignOne_step keypoints descriptors working u hd hw (by omega)]
    simp only
    rw [ih (u + 1) (by omega)]
    rw [show u + 1 + count = u + (count + 1) by omega]

/-- The body on both working sequences is the body on each. -/
theorem assignBoth_eq (frame : FrameFeatures) (u : Nat)
    (left right left1 right1 : List IntensityFeature)
    (hl : assignOne frame.keypoints_left frame.descriptors_left u left = .ok left1)
    (hr : assignOne frame.keypoints_right frame.descriptors_right u right = .ok right1) :
    assignBoth frame u (left, right) = .ok (left1, right1) := by
  simp only [assignOne, bind, Except.bind] at hl hr
  simp only [assignBoth, bind, Except.bind, pure, Except.pure]
  split at hl
  · cases hl
  · rename_i l0 hl0
    simp only [hl]
    split at hr
    · cases hr
    · rename_i r0 hr0
      simp only [hr]

/-- The loop over both working sequences: from sequences that hold the copies before `u`, `count`
rounds give the sequences that hold the copies before `u + count`. -/
theorem forLoop_assignBoth (frame : FrameFeatures) (left right : List IntensityFeature)
    (hdl : frame.descriptors_left.length = frame.keypoints_left.length)
    (hdr : frame.descriptors_right.length = frame.keypoints_right.length)
    (hl : left.length = frame.keypoints_left.length)
    (hr : right.length = frame.keypoints_right.length) (count : Nat) :
    ∀ u, u + count ≤ frame.keypoints_left.length → u + count ≤ frame.keypoints_right.length →
      forLoop (assignBoth frame) count u
          ((copyFeatures frame.keypoints_left frame.descriptors_left).take u ++ left.drop u,
           (copyFeatures frame.keypoints_right frame.descriptors_right).take u ++ right.drop u)
        = .ok
          ((copyFeatures frame.keypoints_left frame.descriptors_left).take (u + count)
              ++ left.drop (u + count),
           (copyFeatures frame.keypoints_right frame.descriptors_right).take (u + count)
              ++ right.drop (u + count)) := by
  induction count with
  | zero => intro u _ _; rfl
  | succ count ih =>
    intro u hul hur
    rw [forLoop, assignBoth_eq frame u _ _ _ _
      (assignOne_step _ _ left u hdl hl (by omega))
      (assignOne_step _ _ right u hdr hr (by omega))]
    simp only
    rw [ih (u + 1) (by omega) (by omega)]
    rw [show u + 1 + count = u + (count + 1) by omega]

/-- The length of a resized sequence. -/
theorem resize_length (working : List IntensityFeature) (count : Nat) :
    (resize working count).length = count := by
  simp only [resize, List.length_append, List.length_take, List.length_replicate]
  omega

/-- What `initialize` computes, when each image has one descriptor row per keypoint: both
working sequences are the copies of their images' features. -/
theorem initialize_eq (g : StereoFramePointGenerator) (frame : FrameFeatures)
    (hdl : frame.descriptors_left.length = frame.keypoints_left.length)
    (hdr : frame.descriptors_right.length = frame.keypoints_right.length) :
    g.initialize frame = .ok { g with
      keypoints_with_descriptors_left :=
        copyFeatures frame.keypoints_left frame.descriptors_left
      keypoints_with_descriptors_right :=
        copyFeatures frame.keypoints_right frame.descriptors_right } := by
  have hl := resize_length g.keypoints_with_descriptors_left frame.keypoints_left.length
  have hr := resize_length g.keypoints_with_descriptors_right frame.keypoints_right.length
  have hcl := copyFeatures_length _ _ hdl
  have hcr := copyFeatures_length _ _ hdr
  unfold StereoFramePointGenerator.initialize
  by_cases hle : frame.keypoints_left.length ≤ frame.keypoints_right.length
  · have h1 := forLoop_assignBoth frame _ _ hdl hdr hl hr frame.keypoints_left.length 0
      (by omega) (by omega)
    have h2 := forLoop_assignOne frame.keypoints_right frame.descriptors_right _ hdr hr
      (frame.keypoints_right.length - frame.keypoints_left.length)
      frame.keypoints_left.length (by omega)
    simp only [List.take_zero, List.drop_zero, List.nil_append, Nat.zero_add] at h1
    simp only [hle, if_true, bind, Except.bind, h1, h2, pure, Except.pure]
    rw [show frame.keypoints_left.length
        + (frame.keypoints_right.length - frame.keypoints_left.length)
        = frame.keypoints_right.length by omega]
    rw [List.take_of_length_le (le_of_eq hcl), List.take_of_length_le (le_of_eq hcr),
      List.drop_of_length_le (le_of_eq hl), List.drop_of_length_le (le_of_eq hr)]
    simp
  · have h1 := forLoop_assignBoth frame _ _ hdl hdr hl hr frame.keypoints_right.length 0
      (by omega) (by omega)
    have h2 := forLoop_assignOne frame.keypoints_left frame.descriptors_left _ hdl hl
      (frame.keypoints_left.length - frame.keypoints_right.length)
      frame.keypoints_right.length (by omega)
    simp only [List.take_zero, List.drop_zero, List.nil_append, Nat.zero_add] at h1
    simp only [hle, if_false, bind, Except.bind, h1, h2, pure, Except.pure]
    rw [show frame.keypoints_right.length
        + (frame.keypoints_left.length - frame.keypoints_right.length)
        = frame.keypoints_left.length by omega]
    rw [List.take_of_length_le (le_of_eq hcl), List.take_of_length_le (le_of_eq hcr),
      List.drop_of_length_le (le_of_eq hl), List.drop_of_length_le (le_of_eq hr)]
    simp

/-- Entry `i` of the copy of an image's features is the image's feature `i`. -/
theorem copyFeatures_getElem? (keypoints : List KeyPoint) (descriptors : List Descriptor)
    (i : Nat) :
    (copyFeatures keypoints descriptors)[i]? = inputFeature keypoints descriptors i := by
  simp only [copyFeatures, inputFeature, List.getElem?_zipWith]
  cases keypoints[i]? <;> cases descriptors[i]? <;> rfl

/-- C13 (as amended): after `initialize` (each image having one descriptor row per keypoint) the
left working sequence has the length `|L|` of the left input and the right working sequence the
length `|R|` of the right input, so their combined length is `|L| + |R|`. -/
theorem initialize_lengths (g : StereoFramePointGenerator) (frame : FrameFeatures)
    (hdl : frame.descriptors_left.length = frame.keypoints_left.length)
    (hdr : frame.descriptors_right.length = frame.keypoints_right.length) :
    ∃ g', g.initialize frame = .ok g'
      ∧ g'.keypoints_with_descriptors_left.length = frame.keypoints_left.length
      ∧ g'.keypoints_with_descriptors_right.length = frame.keypoints_right.length
      ∧ g'.keypoints_with_descriptors_left.length + g'.keypoints_with_descriptors_right.length
          = frame.keypoints_left.length + frame.keypoints_right.length :=
  ⟨_, initialize_eq g frame hdl hdr, copyFeatures_length _ _ hdl, copyFeatures_length _ _ hdr,
    by
      show (copyFeatures _ _).length + (copyFeatures _ _).length = _
      rw [copyFeatures_length _ _ hdl, copyFeatures_length _ _ hdr]⟩

/-- C13 (as amended), at a concrete input: two left features and one right feature give working
sequences of the lengths 2 and 1, combined 3. -/
theorem initialize_lengths_witness :
    (exampleFrameFeatures.descriptors_left.length = exampleFrameFeatures.keypoints_left.length
      ∧ exampleFrameFeatures.descriptors_right.length
          = exampleFrameFeatures.keypoints_right.length)
    ∧ ∃ g', StereoFramePointGenerator.initialize (exampleGenerator (-100) [] [])
        exampleFrameFeatures = .ok g'
      ∧ g'.keypoints_with_descriptors_left.length = 2
      ∧ g'.keypoints_with_descriptors_right.length = 1
      ∧ g'.keypoints_with_descriptors_left.length + g'.keypoints_with_descriptors_right.length
          = 2 + 1 :=
  ⟨⟨rfl, rfl⟩, initialize_lengths (exampleGenerator (-100) [] []) exampleFrameFeatures rfl rfl⟩

/-- C13 fails as stated: for two left features and one right feature the combined length of the
two working sequences after `initialize` is 3, not the larger input size `max 2 1 = 2`. -/
theorem initialize_lengths_counterexample :
    ∃ g', StereoFramePointGenerator.initialize (exampleGenerator (-100) [] [])
        exampleFrameFeatures = .ok g'
      ∧ g'.keypoints_with_descriptors_left.length + g'.keypoints_with_descriptors_right.length
          = 3
      ∧ max exampleFrameFeatures.keypoints_left.length
          exampleFrameFeatures.keypoints_right.length = 2
      ∧ g'.keypoints_with_descriptors_left.length + g'.keypoints_with_descriptors_right.length
          ≠ max exampleFrameFeatures.keypoints_left.length
              exampleFrameFeatures.keypoints_right.length :=
  ⟨_, initialize_eq (exampleGenerator (-100) [] []) exampleFrameFeatures rfl rfl, rfl, rfl,
    by decide⟩

/-- C14: for every left and right feature set (one descriptor row per keypoint), `initialize`
leaves in each working sequence the copy, in order, of that side's features, whichever branch it
takes: for `i < min(|L|,|R|)` the left sequence holds the left feature `i` and the right sequence
the right feature `i`; for `min(|L|,|R|) ≤ i < max(|L|,|R|)` only the longer side's sequence has a
position `i`, and it holds that side's feature `i`. -/
theorem initialize_copies_features (g : StereoFramePointGenerator) (frame : FrameFeatures)
    (hdl : frame.descriptors_left.length = frame.keypoints_left.length)
    (hdr : frame.descriptors_right.length = frame.keypoints_right.length) :
    ∃ g', g.initialize frame = .ok g'
      ∧ g'.keypoints_with_descriptors_left
          = copyFeatures frame.keypoints_left frame.descriptors_left
      ∧ g'.keypoints_with_descriptors_right
          = copyFeatures frame.keypoints_right frame.descriptors_right
      ∧ (∀ i, i < min frame.keypoints_left.length frame.keypoints_right.length →
          (∃ feature, inputFeature frame.keypoints_left frame.descriptors_left i = some feature
            ∧ g'.keypoints_with_descriptors_left[i]? = some feature)
          ∧ (∃ feature,
              inputFeature frame.keypoints_right frame.descriptors_right i = some feature
            ∧ g'.keypoints_with_descriptors_right[i]? = some feature))
      ∧ (∀ i, min frame.keypoints_left.length frame.keypoints_right.length ≤ i →
          i < max frame.keypoints_left.length frame.keypoints_right.length →
          (frame.keypoints_left.length ≤ frame.keypoints_right.length →
            g'.keypoints_with_descriptors_left[i]? = none
            ∧ ∃ feature,
                inputFeature frame.keypoints_right frame.descriptors_right i = some feature
              ∧ g'.keypoints_with_descriptors_right[i]? = some feature)
          ∧ (frame.keypoints_right.length ≤ frame.keypoints_left.length →
            g'.keypoints_with_descriptors_right[i]? = none
            ∧ ∃ feature,
                inputFeature frame.keypoints_left frame.descriptors_left i = some feature
              ∧ g'.keypoints_with_descriptors_left[i]? = some feature)) := by
  have hsome : ∀ (keypoints : List KeyPoint) (descriptors : List Descriptor) (i : Nat),
      descriptors.length = keypoints.length → i < keypoints.length →
      ∃ feature, inputFeature keypoints descriptors i = some feature
        ∧ (copyFeatures keypoints descriptors)[i]? = some feature := by
    intro keypoints descriptors i hd hi
    have hc : i < (copyFeatures keypoints descriptors).length := by
      rw [copyFeatures_length _ _ hd]; exact hi
    refine ⟨(copyFeatures keypoints descriptors)[i], ?_, List.getElem?_eq_getElem hc⟩
    rw [← copyFeatures_getElem?, List.getElem?_eq_getElem hc]
  have hnone : ∀ (keypoints : List KeyPoint) (descriptors : List Descriptor) (i : Nat),
      descriptors.length = keypoints.length → keypoints.length ≤ i →
      (copyFeatures keypoints descriptors)[i]? = none := by
    intro keypoints descriptors i hd hi
    apply List.getElem?_eq_none
    rw [copyFeatures_length _ _ hd]; exact hi
  refine ⟨_, initialize_eq g frame hdl hdr, rfl, rfl, ?_, ?_⟩
  · intro i hi
    exact ⟨hsome _ _ i hdl (by omega), hsome _ _ i hdr (by omega)⟩
  · intro i himin himax
    refine ⟨fun hle => ⟨hnone _ _ i hdl ?_, hsome _ _ i hdr ?_⟩,
      fun hle => ⟨hnone _ _ i hdr ?_, hsome _ _ i hdl ?_⟩⟩
    · rw [min_eq_left hle] at himin; exact himin
    · rw [max_eq_right hle] at himax; exact himax
    · rw [min_eq_right hle] at himin; exact himin
    · rw [max_eq_left hle] at himax; exact himax

/-- C14, at a concrete input: two left features and one right feature; position 0 holds feature 0
of both sides, position 1 exists on the left only. -/
theorem initialize_copies_features_witness :
    (exampleFrameFeatures.descriptors_left.length = exampleFrameFeatures.keypoints_left.length
      ∧ exampleFrameFeatures.descriptors_right.length
          = exampleFrameFeatures.keypoints_right.length)
    ∧ ∃ g', StereoFramePointGenerator.initialize (exampleGenerator (-100) [] [])
        exampleFrameFeatures = .ok g'
      ∧ g'.keypoints_with_descriptors_left = [featureAt 10 50, featureAt 12 30]
      ∧ g'.keypoints_with_descriptors_right = [featureAt 10 40] := by
  obtain ⟨g', hrun, hl, hr, -, -⟩ := initialize_copies_features
    (exampleGenerator (-100) [] []) exampleFrameFeatures rfl rfl
  exact ⟨⟨rfl, rfl⟩, g', hrun, hl, hr⟩

/-! ## Properties of `countPoints` -/

/-- The counting loop over allocated points adds to the running count the number of listed
points that are to be counted. -/
theorem countPointsLoop_eq (m : Memory) (minimum : Nat) (filter : ThreeValued)
    (points : List Address) :
    ∀ count, (∀ a ∈ points, m.points a ≠ none) →
      countPointsLoop m minimum filter points count
        = .ok (count + points.countP (isCounted m minimum filter)) := by
  induction points with
  | nil => intro count _; simp [countPointsLoop]
  | cons a rest ih =>
    intro count hlive
    have hrest : ∀ b ∈ rest, m.points b ≠ none :=
      fun b hb => hlive b (List.mem_cons_of_mem _ hb)
    cases ha : m.points a with
    | none => exact absurd ha (hlive a (List.mem_cons_self _ _))
    | some point =>
      have hread : m.readPoint (some a) = .ok point := by
        simp only [Memory.readPoint, ha]
      rw [countPointsLoop, hread]
      simp only
      rw [List.countP_cons]
      by_cases hage : point.track_length < minimum
      · have hc : isCounted m minimum filter a = false := by
          simp [isCounted, ha, Nat.not_le.2 hage]
        simp only [hage, if_true, ih count hrest, hc]
        simp
      · have hge : minimum ≤ point.track_length := Nat.not_lt.1 hage
        cases filter with
        | Unknown =>
          have hc : isCounted m minimum ThreeValued.Unknown a = true := by
            simp [isCounted, ha, hge, matchesLandmarkFilter]
          simp only [hage, if_false, ne_eq, not_true, ih (count + 1) hrest, hc, if_true]
          congr 1; omega
        | True =>
          cases hl : point.landmark with
          | none =>
            have hc : isCounted m minimum ThreeValued.True a = false := by
              simp [isCounted, ha, matchesLandmarkFilter, hl]
            simp [hage, hl, ih count hrest, hc]
          | some landmark =>
            have hc : isCounted m minimum ThreeValued.True a = true := by
              simp [isCounted, ha, hge, matchesLandmarkFilter, hl]
            simp [hage, hl, ih (count + 1) hrest, hc]
            omega
        | False =>
          cases hl : point.landmark with
          | none =>
            have hc : isCounted m minimum ThreeValued.False a = true := by
              simp [isCounted, ha, hge, matchesLandmarkFilter, hl]
            simp [hage, hl, ih (count + 1) hrest, hc]
            omega
          | some landmark =>
            have hc : isCounted m minimum ThreeValued.False a = false := by
              simp [isCounted, ha, matchesLandmarkFilter, hl]
            simp [hage, hl, ih count hrest, hc]

/-- A point is counted under the filter "any" exactly when it is counted under one of the
filters "must have a landmark" and "must not have a landmark", and never under both. -/
theorem countP_isCounted_split (m : Memory) (minimum : Nat) (points : List Address) :
    points.countP (isCounted m minimum ThreeValued.Unknown)
      = points.countP (isCounted m minimum ThreeValued.True)
        + points.countP (isCounted m minimum ThreeValued.False) := by
  induction points with
  | nil => simp
  | cons a rest ih =>
    simp only [List.countP_cons, ih]
    cases ha : m.points a with
    | none => simp [isCounted, ha]
    | some point =>
      by_cases hge : minimum ≤ point.track_length
      · cases hl : point.landmark with
        | none => simp [isCounted, ha, hge, matchesLandmarkFilter, hl]; omega
        | some landmark => simp [isCounted, ha, hge, matchesLandmarkFilter, hl]; omega
      · simp [isCounted, ha, hge]

/-- C15: for every (allocated) frame whose owned points are allocated, every minimum track length
and every three-valued landmark filter, `countPoints` returns the number of owned points `p` with
`p.trackLength >= minimum` whose landmark presence matches the filter (any, or must have a
landmark and `p` has one, or must not have one and `p` has none); consequently the count for
"any" is the sum of the counts for "must have" and "must not have". -/
theorem countPoints_counts (m : Memory) (this : Address) (self : Frame) (minimum : Nat)
    (filter : ThreeValued) (hself : m.frames this = some self)
    (hlive : ∀ a ∈ self.points, m.points a ≠ none) :
    Frame.countPoints m this minimum filter
        = .ok (self.points.countP (isCounted m minimum filter))
    ∧ (∀ a, isCounted m minimum filter a = true ↔
        ∃ p, m.points a = some p ∧ minimum ≤ p.track_length
          ∧ (filter = ThreeValued.Unknown
            ∨ (filter = ThreeValued.True ∧ p.landmark ≠ none)
            ∨ (filter = ThreeValued.False ∧ p.landmark = none)))
    ∧ (∃ any with_landmark without_landmark,
        Frame.countPoints m this minimum ThreeValued.Unknown = .ok any
        ∧ Frame.countPoints m this minimum ThreeValued.True = .ok with_landmark
        ∧ Frame.countPoints m this minimum ThreeValued.False = .ok without_landmark
        ∧ any = with_landmark + without_landmark) := by
  have hrun : ∀ f, Frame.countPoints m this minimum f
      = .ok (self.points.countP (isCounted m minimum f)) := by
    intro f
    have hread : m.readFrame (some this) = .ok self := by
      simp only [Memory.readFrame, hself]
    simp only [Frame.countPoints, hread, countPointsLoop_eq m minimum f self.points 0 hlive,
      Nat.zero_add]
  refine ⟨hrun filter, ?_, ⟨_, _, _, hrun _, hrun _, hrun _,
    countP_isCounted_split m minimum self.points⟩⟩
  intro a
  cases ha : m.points a with
  | none => simp [isCounted, ha]
  | some point =>
    cases filter <;> cases hl : point.landmark <;>
      simp [isCounted, ha, matchesLandmarkFilter, hl]

/-- C15, at a concrete input: the frame at address 1 of `pointMemory` owns one point, of track
length 2 and without landmark; with minimum track length 1 it is counted under "any" and under
"must not have a landmark", and not under "must have a landmark". -/
theorem countPoints_counts_witness :
    (pointMemory.frames 1 = some (exampleFrame 10 none none [5])
      ∧ (∀ a ∈ (exampleFrame 10 none none [5]).points, pointMemory.points a ≠ none))
    ∧ Frame.countPoints pointMemory 1 1 ThreeValued.Unknown = .ok 1
    ∧ Frame.countPoints pointMemory 1 1 ThreeValued.True = .ok 0
    ∧ Frame.countPoints pointMemory 1 1 ThreeValued.False = .ok 1
    ∧ Frame.countPoints pointMemory 1 3 ThreeValued.Unknown = .ok 0 := by
  have h1 : pointMemory.frames 1 = some (exampleFrame 10 none none [5]) := by
    simp [pointMemory]
  have h5 : ∀ a ∈ (exampleFrame 10 none none [5]).points, pointMemory.points a ≠ none := by
    intro a ha
    have : a = 5 := by simpa [exampleFrame] using ha
    subst this
    simp [pointMemory]
  have hp : pointMemory.points 5 = some examplePoint := by simp [pointMemory]
  refine ⟨⟨h1, h5⟩, ?_, ?_, ?_, ?_⟩
  · rw [(countPoints_counts pointMemory 1 _ 1 ThreeValued.Unknown h1 h5).1]
    simp [exampleFrame, isCounted, hp, examplePoint, matchesLandmarkFilter]
  · rw [(countPoints_counts pointMemory 1 _ 1 ThreeValued.True h1 h5).1]
    simp [exampleFrame, isCounted, hp, examplePoint, matchesLandmarkFilter,
      FramePoint.construct]
  · rw [(countPoints_counts pointMemory 1 _ 1 ThreeValued.False h1 h5).1]
    simp [exampleFrame, isCounted, hp, examplePoint, matchesLandmarkFilter,
      FramePoint.construct]
  · rw [(countPoints_counts pointMemory 1 _ 3 ThreeValued.Unknown h1 h5).1]
    simp [exampleFrame, isCounted, hp, examplePoint, matchesLandmarkFilter]

/-! ## Properties of the pose and of the local-map binding -/

/-- For a rigid transform, `inverse` is the inverse: both products are the identity. -/
theorem inverse_mul_of_rigid (t : TransformMatrix3D) (h : t.IsRigid) :
    t.inverse.mul t = TransformMatrix3D.identity
    ∧ t.mul t.inverse = TransformMatrix3D.identity := by
  have h1 : t.linear.transpose * t.linear = 1 := h
  have h2 : t.linear * t.linear.transpose = 1 := Matrix.mul_eq_one_comm.1 h1
  constructor
  · simp only [TransformMatrix3D.mul, TransformMatrix3D.inverse, TransformMatrix3D.identity, h1,
      neg_add_cancel, add_neg_cancel]
  · simp only [TransformMatrix3D.mul, TransformMatrix3D.inverse, TransformMatrix3D.identity, h2,
      Matrix.mulVec_neg, Matrix.mulVec_mulVec, Matrix.one_mulVec, neg_add_cancel]

/-- The function `setRobotToWorld` on an allocated frame stores the pose and its inverse. -/
theorem setRobotToWorld_spec (m : Memory) (this : Address) (self : Frame)
    (robot_to_world_ : TransformMatrix3D) (hself : m.frames this = some self) :
    Frame.setRobotToWorld m this robot_to_world_
      = .ok { m with
          frames := Function.update m.frames this
            (some { self with
              robot_to_world := robot_to_world_
              world_to_robot := robot_to_world_.inverse }) } := by
  simp only [Frame.setRobotToWorld, bind, Except.bind, modifyFrame_some m this self _ hself]
  rw [modifyFrame_some _ this _ _ (Function.update_same _ _ _)]
  simp only [Function.update_idem]

/-- The primary constructor builds, at `this`, a frame with the given links and pose, the cached
inverse of the pose and no points, and increments the instance counter. -/
theorem construct_spec (m : Memory) (this : Address) (members : Frame) (instances : Nat)
    (previous_ next_ : Option Address) (robot_to_world_ : TransformMatrix3D)
    (maximum_depth_close_ : ℚ) :
    Frame.construct m this members instances previous_ next_ robot_to_world_
        maximum_depth_close_
      = .ok ({ m with
          frames := Function.update m.frames this
            (some { members with
              identifier := (instances : Int)
              maximum_depth_close := maximum_depth_close_
              previous := previous_
              next := next_
              robot_to_world := robot_to_world_
              world_to_robot := robot_to_world_.inverse
              points := [] }) }, instances + 1) := by
  simp only [Frame.construct, bind, Except.bind, pure, Except.pure]
  rw [setRobotToWorld_spec _ this _ robot_to_world_ (Function.update_same _ _ _)]
  simp only
  rw [modifyFrame_some _ this _ _ (Function.update_same _ _ _)]
  simp only [Function.update_idem]

/-- C16: after the primary construction with the initial pose `T` and after every
`setRobotToWorld(T)` the cached world-to-robot transform is `T.inverse()`, so for a rigid `T` the
pose and its cached inverse are in sync (their product is the identity, in both orders); and the
ownership-transfer construction from a source frame whose pose and cached inverse are in sync
yields a frame with the same two transforms, again in sync. -/
theorem pose_stays_in_sync :
    (∀ (m : Memory) (this : Address) (members : Frame) (instances : Nat)
        (previous_ next_ : Option Address) (T : TransformMatrix3D) (maximum_depth_close_ : ℚ),
        ∃ m' F, Frame.construct m this members instances previous_ next_ T maximum_depth_close_
            = .ok (m', instances + 1)
          ∧ m'.frames this = some F
          ∧ F.robot_to_world = T ∧ F.world_to_robot = T.inverse
          ∧ (T.IsRigid → F.PoseInSync))
    ∧ (∀ (m : Memory) (this : Address) (self : Frame) (T : TransformMatrix3D),
        m.frames this = some self →
        ∃ m' F, Frame.setRobotToWorld m this T = .ok m'
          ∧ m'.frames this = some F
          ∧ F.robot_to_world = T ∧ F.world_to_robot = T.inverse
          ∧ (T.IsRigid → F.PoseInSync))
    ∧ (∀ (m : Memory) (this src : Address) (members source : Frame),
        m.frames src = some source → this ≠ src →
        (∀ a ∈ source.points, m.points a ≠ none) → source.PoseInSync →
        ∃ m' F, Frame.constructFrom m this members (some src) = .ok m'
          ∧ m'.frames this = some F
          ∧ F.robot_to_world = source.robot_to_world
          ∧ F.world_to_robot = source.world_to_robot ∧ F.PoseInSync) := by
  refine ⟨?_, ?_, ?_⟩
  · intro m this members instances previous_ next_ T mdc
    exact ⟨_, _, construct_spec m this members instances previous_ next_ T mdc,
      Function.update_same _ _ _, rfl, rfl, fun hT => inverse_mul_of_rigid T hT⟩
  · intro m this self T hself
    exact ⟨_, _, setRobotToWorld_spec m this self T hself, Function.update_same _ _ _,
      rfl, rfl, fun hT => inverse_mul_of_rigid T hT⟩
  · intro m this src members source hsrc hne hlive hsync
    obtain ⟨m', hrun, hF, -, -, -, -, -⟩ :=
      constructFrom_spec m this src members source hsrc hne hlive
    exact ⟨m', _, hrun, hF, rfl, rfl, hsync.1, hsync.2⟩

/-- The identity transform is rigid. -/
theorem identity_isRigid : TransformMatrix3D.identity.IsRigid := by
  simp [TransformMatrix3D.IsRigid, TransformMatrix3D.identity]

/-- C16, at concrete inputs: a frame constructed at address 6 of `pointMemory` with the identity
pose, `setRobotToWorld` with the identity on the frame at address 1, and the ownership transfer
from the frame at address 1 (whose pose and cached inverse are the identity) to address 2. -/
theorem pose_stays_in_sync_witness :
    (TransformMatrix3D.identity.IsRigid
      ∧ pointMemory.frames 1 = some (exampleFrame 10 none none [5])
      ∧ (2 : Address) ≠ 1
      ∧ (∀ a ∈ (exampleFrame 10 none none [5]).points, pointMemory.points a ≠ none)
      ∧ (exampleFrame 10 none none [5]).PoseInSync)
    ∧ (∃ m' F, Frame.construct pointMemory 6 (exampleFrame 0 none none []) 11 (some 1) none
          TransformMatrix3D.identity 5 = .ok (m', 11 + 1)
        ∧ m'.frames 6 = some F ∧ F.PoseInSync)
    ∧ (∃ m' F, Frame.setRobotToWorld pointMemory 1 TransformMatrix3D.identity = .ok m'
        ∧ m'.frames 1 = some F ∧ F.PoseInSync)
    ∧ (∃ m' F, Frame.constructFrom pointMemory 2 (exampleFrame 0 none none []) (some 1) = .ok m'
        ∧ m'.frames 2 = some F ∧ F.PoseInSync) := by
  have h1 : pointMemory.frames 1 = some (exampleFrame 10 none none [5]) := by
    simp [pointMemory]
  have h5 : ∀ a ∈ (exampleFrame 10 none none [5]).points, pointMemory.points a ≠ none := by
    intro a ha
    have : a = 5 := by simpa [exampleFrame] using ha
    subst this
    simp [pointMemory]
  have hsync : (exampleFrame 10 none none [5]).PoseInSync := by
    constructor <;>
      simp [TransformMatrix3D.identity, exampleFrame, TransformMatrix3D.mul]
  obtain ⟨hA, hB, hC⟩ := pose_stays_in_sync
  obtain ⟨ma, Fa, ha1, ha2, -, -, ha3⟩ := hA pointMemory 6 (exampleFrame 0 none none []) 11
    (some 1) none TransformMatrix3D.identity 5
  obtain ⟨mb, Fb, hb1, hb2, -, -, hb3⟩ := hB pointMemory 1 _ TransformMatrix3D.identity h1
  obtain ⟨mc, Fc, hc1, hc2, -, -, hc3⟩ := hC pointMemory 2 1 (exampleFrame 0 none none []) _ h1
    (by decide) h5 hsync
  exact ⟨⟨identity_isRigid, h1, by decide, h5, hsync⟩,
    ⟨ma, Fa, ha1, ha2, ha3 identity_isRigid⟩,
    ⟨mb, Fb, hb1, hb2, hb3 identity_isRigid⟩, ⟨mc, Fc, hc1, hc2, hc3⟩⟩

/-- The function `setLocalMap` on an allocated frame and an allocated local map stores the
binding, the frame-to-local-map transform `local_map.worldToRobot * robotToWorld` and the inverse
of that. -/
theorem setLocalMap_spec (m : Memory) (this : Address) (self : Frame) (address : Address)
    (local_map : LocalMap) (hself : m.frames this = some self)
    (hmap : m.local_maps address = some local_map) :
    Frame.setLocalMap m this (some address)
      = .ok { m with
          frames := Function.update m.frames this
            (some { self with
              local_map := some address
              frame_to_local_map := local_map.world_to_robot.mul self.robot_to_world
              local_map_to_frame :=
                (local_map.world_to_robot.mul self.robot_to_world).inverse }) } := by
  have hread : ∀ (frames : Address → Option Frame),
      Memory.readLocalMap { m with frames := frames } (some address) = .ok local_map := by
    intro frames
    simp only [Memory.readLocalMap, hmap]
  simp only [Frame.setLocalMap, bind, Except.bind, modifyFrame_some m this self _ hself, hread]
  rw [modifyFrame_some _ this _ _ (Function.update_same _ _ _)]
  simp only [Function.update_idem]
  rw [modifyFrame_some _ this _ _ (Function.update_same _ _ _)]
  simp only [Function.update_idem]

/-- C17 on the code: the frame at address 1 of `boundMemory` is bound to the local map at
address 0 and caches the transforms that `setLocalMap` computes for that binding; the frame built
from it by the ownership-transfer constructor (at address 2) is bound to the same local map, but
its cached frame-to-local-map transform is the value the member had before the constructor ran,
which is not `local_map.worldToRobot * robotToWorld`, and its cached local-map-to-frame transform
is not the inverse of that product. -/
theorem constructFrom_does_not_cache_local_map_transforms :
    (∃ source, boundMemory.frames 1 = some source
      ∧ source.local_map = some 0
      ∧ boundMemory.local_maps 0 = some ⟨unitShift⟩
      ∧ source.frame_to_local_map = unitShift.mul source.robot_to_world
      ∧ source.local_map_to_frame = (unitShift.mul source.robot_to_world).inverse)
    ∧ ∃ m' F, Frame.constructFrom boundMemory 2 (exampleFrame 0 none none []) (some 1) = .ok m'
      ∧ m'.frames 2 = some F
      ∧ F.local_map = some 0
      ∧ F.frame_to_local_map = (exampleFrame 0 none none []).frame_to_local_map
      ∧ F.local_map_to_frame = (exampleFrame 0 none none []).local_map_to_frame
      ∧ F.frame_to_local_map ≠ unitShift.mul F.robot_to_world
      ∧ F.local_map_to_frame ≠ (unitShift.mul F.robot_to_world).inverse := by
  have h1 : boundMemory.frames 1 = some { exampleFrame 10 none none [] with
      local_map := some 0
      frame_to_local_map := unitShift.mul TransformMatrix3D.identity
      local_map_to_frame := (unitShift.mul TransformMatrix3D.identity).inverse } := by
    simp [boundMemory]
  have hmap : boundMemory.local_maps 0 = some ⟨unitShift⟩ := by simp [boundMemory]
  have hshift : (unitShift.mul TransformMatrix3D.identity).translation 0 = 1 := by
    simp [unitShift, TransformMatrix3D.mul, TransformMatrix3D.identity]
  have hinv : (unitShift.mul TransformMatrix3D.identity).inverse.translation 0 = -1 := by
    simp [unitShift, TransformMatrix3D.mul, TransformMatrix3D.identity,
      TransformMatrix3D.inverse]
  refine ⟨⟨_, h1, rfl, hmap, rfl, rfl⟩, ?_⟩
  · obtain ⟨m', hrun, hF, -, -, -, -, -⟩ := constructFrom_spec boundMemory 2 1
      (exampleFrame 0 none none []) _ h1 (by decide) (fun a ha => by cases ha)
    refine ⟨m', _, hrun, hF, rfl, rfl, rfl, ?_, ?_⟩
    · intro hc
      have := congrArg (fun t => t.translation 0) hc
      simp only [exampleFrame] at this
      rw [hshift] at this
      simp [TransformMatrix3D.identity] at this
    · intro hc
      have := congrArg (fun t => t.translation 0) hc
      simp only [exampleFrame] at this
      rw [hinv] at this
      simp [TransformMatrix3D.identity] at this

/-! ## Depth classification of created points -/

/-- C18: for every (allocated) frame with near-depth threshold `t` and every camera-frame
coordinate `(x, y, z)` passed to `Frame::create`, the returned point's depth is `z`, and the point
is classified near if and only if `z < t`; a point with `z >= t` is not near. -/
theorem create_depth_and_near (m : Memory) (this : Address) (kl : KeyPoint) (dl : Descriptor)
    (kr : KeyPoint) (dr : Descriptor) (c : PointCoordinates)
    (previous_point : Option Address) (frame_point : Address) (self : Frame) (cam : Address)
    (camera : Camera)
    (hself : m.frames this = some self) (hcam : self.camera_left = some cam)
    (hcamera : m.cameras cam = some camera) (hfresh : m.points frame_point = none)
    (hprevious : ∀ q, previous_point = some q → m.points q ≠ none) :
    ∃ m' p, Frame.create m this kl dl kr dr c previous_point frame_point = .ok (m', frame_point)
      ∧ m'.points frame_point = some p
      ∧ p.depth_meters = c.z
      ∧ (p.is_near = true ↔ c.z < self.maximum_depth_close)
      ∧ (self.maximum_depth_close ≤ c.z → p.is_near = false) := by
  have hnear : ∀ b : Bool, b = decide (c.z < self.maximum_depth_close) →
      (b = true ↔ c.z < self.maximum_depth_close)
      ∧ (self.maximum_depth_close ≤ c.z → b = false) := by
    intro b hb
    subst hb
    refine ⟨decide_eq_true_iff, fun hle => ?_⟩
    exact decide_eq_false (not_lt.2 hle)
  cases previous_point with
  | none =>
    exact ⟨_, _, create_without_previous m this kl dl kr dr c frame_point self cam camera
      hself hcam hcamera, Function.update_same _ _ _, rfl, hnear _ rfl⟩
  | some q =>
    cases hq : m.points q with
    | none => exact absurd hq (hprevious q rfl)
    | some pq =>
      have hne : q ≠ frame_point := by
        intro h
        rw [h, hfresh] at hq
        cases hq
      exact ⟨_, _, create_with_previous m this kl dl kr dr c frame_point self cam camera q pq
        hself hcam hcamera hq hne, Function.update_same _ _ _, rfl, hnear _ rfl⟩

/-- C18, at concrete inputs: on the frame at address 1 of `pointMemory`, whose near-depth
threshold is 5, a point created at depth 3 is near and a point created at depth 5 is not. -/
theorem create_depth_and_near_witness :
    (pointMemory.frames 1 = some (exampleFrame 10 none none [5])
      ∧ (exampleFrame 10 none none [5]).camera_left = some 0
      ∧ pointMemory.cameras 0 = some ⟨TransformMatrix3D.identity⟩
      ∧ pointMemory.points 7 = none
      ∧ (exampleFrame 10 none none [5]).maximum_depth_close = 5)
    ∧ (∃ m' p, Frame.create pointMemory 1 (featureAt 10 50).keypoint [] (featureAt 10 40).keypoint
          [] ⟨0, 0, 3⟩ none 7 = .ok (m', 7)
        ∧ m'.points 7 = some p ∧ p.depth_meters = 3 ∧ p.is_near = true)
    ∧ (∃ m' p, Frame.create pointMemory 1 (featureAt 10 50).keypoint [] (featureAt 10 40).keypoint
          [] ⟨0, 0, 5⟩ (some 5) 7 = .ok (m', 7)
        ∧ m'.points 7 = some p ∧ p.depth_meters = 5 ∧ p.is_near = false) := by
  have h1 : pointMemory.frames 1 = some (exampleFrame 10 none none [5]) := by
    simp [pointMemory]
  have h2 : (exampleFrame 10 none none [5]).camera_left = some 0 := rfl
  have h3 : pointMemory.cameras 0 = some ⟨TransformMatrix3D.identity⟩ := by
    simp [pointMemory]
  have h4 : pointMemory.points 7 = none := by
    simp [pointMemory]
  have h5 : (exampleFrame 10 none none [5]).maximum_depth_close = 5 := rfl
  obtain ⟨ma, pa, ha1, ha2, ha3, ha4, -⟩ := create_depth_and_near pointMemory 1
    (featureAt 10 50).keypoint [] (featureAt 10 40).keypoint [] ⟨0, 0, 3⟩ none 7 _ 0 _
    h1 h2 h3 h4 (fun q hq => by cases hq)
  obtain ⟨mb, pb, hb1, hb2, hb3, -, hb5⟩ := create_depth_and_near pointMemory 1
    (featureAt 10 50).keypoint [] (featureAt 10 40).keypoint [] ⟨0, 0, 5⟩ (some 5) 7 _ 0 _
    h1 h2 h3 h4 (fun q hq => by cases hq; simp [pointMemory])
  refine ⟨⟨h1, h2, h3, h4, h5⟩, ⟨ma, pa, ha1, ha2, ha3, ha4.2 ?_⟩, ⟨mb, pb, hb1, hb2, hb3, hb5 ?_⟩⟩
  · rw [h5]; norm_num
  · rw [h5]

/-! ## Bounds of the sweep -/

/-- Entered with both cursors in range, the loop `skipLeft` completes, with the left cursor at
most at the end of the left sequence. -/
theorem skipLeft_ok (L R : List IntensityFeature) (index_L index_R : Nat)
    (hL : index_L < L.length) (hR : index_R < R.length) :
    ∃ i, skipLeft L R index_L index_R = .ok i ∧ i ≤ L.length := by
  induction index_L, index_R using skipLeft.induct L R with
  | case1 x y h1 h2 hlt hend =>
    refine ⟨x + 1, ?_, by omega⟩
    rw [skipLeft]
    simp only [h1, h2, hlt, hend, dite_true, if_true]
  | case2 x y h1 h2 hlt hend ih =>
    obtain ⟨i, hi, hle⟩ := ih (by omega) hR
    refine ⟨i, ?_, hle⟩
    rw [skipLeft]
    simp only [h1, h2, hlt, hend, dite_true, if_true, if_false]
    exact hi
  | case3 x y h1 h2 hlt =>
    refine ⟨x, ?_, by omega⟩
    rw [skipLeft]
    simp only [h1, h2, hlt, dite_true, if_false]
  | case4 x y h1 h2 => exact absurd hR h2
  | case5 x y h1 => exact absurd hL h1

/-- Entered with both cursors in range, the loop `skipRight` completes, with the right cursor at
most at the end of the right sequence. -/
theorem skipRight_ok (L R : List IntensityFeature) (index_L index_R : Nat)
    (hL : index_L < L.length) (hR : index_R < R.length) :
    ∃ i, skipRight L R index_L index_R = .ok i ∧ i ≤ R.length := by
  induction index_R using skipRight.induct L R index_L with
  | case1 y h1 h2 hlt hend =>
    refine ⟨y + 1, ?_, by omega⟩
    rw [skipRight]
    simp only [h1, h2, hlt, hend, dite_true, if_true]
  | case2 y h1 h2 hlt hend ih =>
    obtain ⟨i, hi, hle⟩ := ih (by omega)
    refine ⟨i, ?_, hle⟩
    rw [skipRight]
    simp only [h1, h2, hlt, hend, dite_true, if_true, if_false]
    exact hi
  | case3 y h1 h2 hlt =>
    refine ⟨y, ?_, by omega⟩
    rw [skipRight]
    simp only [h1, h2, hlt, dite_true, if_false]
  | case4 y h1 h2 => exact absurd hR h2
  | case5 y h1 => exact absurd hL h1

/-- Entered with both indices in range, the scan of the epipolar line completes. -/
theorem scanEpipolarLine_ok (g : StereoFramePointGenerator) (L R : List IntensityFeature)
    (index_L index_search_R : Nat) (distance_best : ℚ) (index_best_R : Nat)
    (hL : index_L < L.length) (hR : index_search_R < R.length) :
    ∃ d b, scanEpipolarLine g L R index_L index_search_R distance_best index_best_R
      = .ok (d, b) := by
  induction index_search_R, distance_best, index_best_R
    using scanEpipolarLine.induct g L R index_L with
  | case1 s db bi h1 h2 hrow hdisp =>
    refine ⟨db, bi, ?_⟩
    rw [scanEpipolarLine]
    simp only [h1, h2, hrow, hdisp, dite_true, if_true]
  | case2 s db bi h1 h2 hrow hdisp hend =>
    rw [scanEpipolarLine]
    simp only [h1, h2, hrow, hdisp, hend, dite_true, if_true, if_false]
    exact ⟨_, _, rfl⟩
  | case3 s db bi h1 h2 hrow hdisp dh best hend ih =>
    obtain ⟨d, b, hdb⟩ := ih (by omega)
    refine ⟨d, b, ?_⟩
    rw [scanEpipolarLine]
    simp only [h1, h2, hrow, hdisp, hend, dite_true, if_true, if_false]
    exact hdb
  | case4 s db bi h1 h2 hrow =>
    refine ⟨db, bi, ?_⟩
    rw [scanEpipolarLine]
    simp only [h1, h2, hrow, dite_true, if_false]
  | case5 s db bi h1 h2 => exact absurd hR h2
  | case6 s db bi h1 => exact absurd hL h1

/-- The triangulation fails by its exception or by an assertion only. -/
theorem getCoordinatesInCameraLeft_error (g : StereoFramePointGenerator) (l r : Point2f)
    (e : Failure) (h : g.getCoordinatesInCameraLeft l r = .error e) :
    e = .exceptionTriangulation ∨ e = .assertionFailed := by
  unfold StereoFramePointGenerator.getCoordinatesInCameraLeft at h
  split at h
  · cases h; exact Or.inl rfl
  · split at h
    · cases h; exact Or.inr rfl
    · split at h
      · cases h; exact Or.inr rfl
      · simp only at h
        split at h
        · cases h; exact Or.inr rfl
        · cases h

/-- The sweep, entered with the right cursor within the right sequence, never reads out of range,
and every point it creates was selected by one of its scans. -/
theorem sweep_trace (g : StereoFramePointGenerator) (threshold : ℚ)
    (L R : List IntensityFeature) (n : Nat) :
    ∀ index_L index_R : Nat, L.length - index_L ≤ n → index_R ≤ R.length →
      SweepTrace g threshold L R index_R (sweep g threshold L R index_L index_R) := by
  have hempty : ∀ (index_R : Nat) (failure : Option Failure), failure ≠ some .outOfRange →
      SweepTrace g threshold L R index_R ⟨[], failure⟩ :=
    fun _ _ h => ⟨h, fun _ hm => absurd hm (List.not_mem_nil _)⟩
  induction n with
  | zero =>
    intro index_L index_R hn _
    rw [sweep]
    have : ¬ index_L < L.length := by omega
    simp only [this, dite_false]
    exact hempty _ none (by simp)
  | succ n ih =>
    intro index_L index_R hn hR
    rw [sweep]
    split
    · rename_i hL
      split
      · exact hempty _ none (by simp)
      · rename_i hRne
        have hRlt : index_R < R.length := by omega
        obtain ⟨i1, hi1, hi1le⟩ := skipLeft_ok L R index_L index_R hL hRlt
        split
        · rename_i e he
          rw [hi1] at he
          cases he
        · rename_i index_L1 h1
          rw [hi1] at h1
          cases h1
          have hge := skipLeft_ge L R _ _ _ hi1
          split
          · exact hempty _ none (by simp)
          · rename_i hL1ne
            have hL1 : i1 < L.length := by omega
            obtain ⟨j1, hj1, hj1le⟩ := skipRight_ok L R i1 index_R hL1 hRlt
            split
            · rename_i e he
              rw [hj1] at he
              cases he
            · rename_i index_R1 h2
              rw [hj1] at h2
              cases h2
              have hge2 := skipRight_ge L R _ _ _ hj1
              split
              · exact hempty _ none (by simp)
              · rename_i hR1ne
                have hR1 : j1 < R.length := by omega
                obtain ⟨d0, b0, hscan⟩ := scanEpipolarLine_ok g L R i1 j1 threshold 0 hL1 hR1
                split
                · rename_i e he
                  rw [hscan] at he
                  cases he
                · rename_i distance_best index_best_R h3
                  have hadm := scanEpipolarLine_admissible g L R i1 j1 threshold
                    j1 threshold 0 distance_best index_best_R (le_refl _)
                    (fun hlt => absurd hlt (lt_irrefl _)) h3
                  split
                  · rename_i hbest
                    obtain ⟨hl, hr, -, -, hlo⟩ := hadm hbest
                    simp only [hl, hr, dite_true]
                    split
                    · rename_i e he
                      refine hempty _ _ ?_
                      intro hc
                      cases hc
                      rcases getCoordinatesInCameraLeft_error g _ _ _ he with h | h <;> cases h
                    · rename_i point hp
                      have hrest := ih (i1 + 1) (index_best_R + 1) (by omega) (by omega)
                      refine ⟨hrest.1, ?_⟩
                      intro m hm
                      rcases List.mem_cons.1 hm with rfl | hin
                      · exact ⟨j1, distance_best, hge2, h3, hbest⟩
                      · obtain ⟨cursor, d, hc1, hc2, hc3⟩ := hrest.2 m hin
                        exact ⟨cursor, d, by omega, hc2, hc3⟩
                  · have hrest := ih (i1 + 1) j1 (by omega) hj1le
                    refine ⟨hrest.1, ?_⟩
                    intro m hm
                    obtain ⟨cursor, d, hc1, hc2, hc3⟩ := hrest.2 m hm
                    exact ⟨cursor, d, by omega, hc2, hc3⟩
    · exact hempty _ none (by simp)

/-- C19: for all left and right working sequences, of any lengths, and any parameters, the sweep
of `findStereoKeypoints` returns (the loops are total functions: `sweep`, `skipLeft`, `skipRight`
and `scanEpipolarLine` are defined by recursion on the distance of a cursor to the end of its
sequence) and it never ends by an element access at an index that is not strictly smaller than
the length of the accessed sequence; the same holds for `findStereoKeypoints` on the sorted
sequences. -/
theorem sweep_terminates_in_range (g : StereoFramePointGenerator) (threshold : ℚ)
    (L R : List IntensityFeature) (frame_status : Status)
    (frame_created_points : List StereoMatch) :
    (∃ result, sweep g threshold L R 0 0 = result ∧ result.failure ≠ some .outOfRange)
    ∧ (∃ result, g.findStereoKeypoints frame_status frame_created_points = result
        ∧ result.failure ≠ some .outOfRange) := by
  refine ⟨⟨_, rfl, (sweep_trace g threshold L R _ 0 0 (le_refl _) (Nat.zero_le _)).1⟩,
    ⟨_, rfl, ?_⟩⟩
  rw [(findStereoKeypoints_eq_sweep g frame_status frame_created_points).2.1]
  exact (sweep_trace _ _ _ _ _ 0 0 (le_refl _) (Nat.zero_le _)).1

/-- A list whose entries have strictly increasing keys below `bound` has at most `bound`
entries. -/
theorem length_le_of_pairwise_lt {α : Type} (key : α → Nat) (bound : Nat) (l : List α) :
    ∀ lo, l.Pairwise (fun a b => key a < key b) → (∀ a ∈ l, lo ≤ key a ∧ key a < bound) →
      l.length ≤ bound - lo := by
  induction l with
  | nil => intro lo _ _; exact Nat.zero_le _
  | cons a rest ih =>
    intro lo hp hb
    have ha := hb a (List.mem_cons_self _ _)
    have hrest := ih (key a + 1) (List.Pairwise.of_cons hp) (fun b hb' =>
      ⟨(List.rel_of_pairwise_cons hp hb'), (hb b (List.mem_cons_of_mem _ hb')).2⟩)
    simp only [List.length_cons]
    omega

/-- The sweep creates at most as many points as either sequence has features. -/
theorem sweep_created_length (g : StereoFramePointGenerator) (threshold : ℚ)
    (L R : List IntensityFeature) :
    (sweep g threshold L R 0 0).created.length ≤ min L.length R.length := by
  have hinv := sweep_invariant g threshold L R _ 0 0 (le_refl _)
  have hl := length_le_of_pairwise_lt StereoMatch.index_L L.length _ 0
    (hinv.2.1.imp (fun h => h.1))
    (fun m hm => ⟨Nat.zero_le _, (hinv.1 m hm).2.2.1⟩)
  have hr := length_le_of_pairwise_lt StereoMatch.index_best_R R.length _ 0
    (hinv.2.1.imp (fun h => h.2))
    (fun m hm => ⟨Nat.zero_le _, (hinv.1 m hm).2.2.2.1⟩)
  exact le_min (by simpa using hl) (by simpa using hr)

/-- Sorting keeps the number of features. -/
theorem sortByRowColumn_length (features : List IntensityFeature) :
    (sortByRowColumn features).length = features.length := by
  simp [sortByRowColumn, List.length_insertionSort]

/-! ## The triangulation success ratio and its running mean -/

/-- An invocation of `findStereoKeypoints` that completes records the success ratio
`created points / |left|` with `updateAverage`: the ratio is appended to the history, the mean
becomes `(n * mean + ratio) / (n + 1)`, and the number of triangulations is incremented. -/
theorem findStereoKeypoints_statistics (g : StereoFramePointGenerator) (frame_status : Status)
    (frame_created_points : List StereoMatch)
    (hcomplete : (g.findStereoKeypoints frame_status frame_created_points).failure = none) :
    ∃ ratio : ℚ,
      ratio = ((g.findStereoKeypoints frame_status frame_created_points).created_points.length
                : ℚ) / (g.keypoints_with_descriptors_left.length : ℚ)
      ∧ (g.findStereoKeypoints frame_status frame_created_points).generator.triangulation_success_ratios
          = (g.updateAverage ratio).triangulation_success_ratios
      ∧ (g.findStereoKeypoints frame_status frame_created_points).generator.mean_triangulation_success_ratio
          = (g.updateAverage ratio).mean_triangulation_success_ratio
      ∧ (g.findStereoKeypoints frame_status frame_created_points).generator.number_of_triangulations
          = (g.updateAverage ratio).number_of_triangulations := by
  have hlen : (g.sortFeatures.keypoints_with_descriptors_left.length : ℚ)
      = (g.keypoints_with_descriptors_left.length : ℚ) := by
    rw [show g.sortFeatures.keypoints_with_descriptors_left
      = sortByRowColumn g.keypoints_with_descriptors_left from rfl, sortByRowColumn_length]
  unfold StereoFramePointGenerator.findStereoKeypoints at hcomplete ⊢
  simp only at hcomplete ⊢
  split
  · rename_i e he
    rw [he] at hcomplete
    cases hcomplete
  · simp only [StereoFramePointGenerator.updateAverage, hlen]
    exact ⟨_, rfl, rfl, rfl, rfl⟩

/-- C20: for every non-empty left feature sequence, every right feature sequence (empty or not)
and a frame that holds no created points before the call, one invocation of `findStereoKeypoints` creates at most
`min(|left|, |right|)` points (no left index and no right index occurs in two created matches),
and the triangulation success ratio it records when it completes, created points / `|left|`,
lies in `[0, 1]`. -/
theorem findStereoKeypoints_success_ratio (g : StereoFramePointGenerator)
    (frame_status : Status)
    (hleft : g.keypoints_with_descriptors_left ≠ []) :
    (g.findStereoKeypoints frame_status []).created_points
        = (g.findStereoKeypoints frame_status []).created
    ∧ (g.findStereoKeypoints frame_status []).created.length
        ≤ min g.keypoints_with_descriptors_left.length g.keypoints_with_descriptors_right.length
    ∧ ((g.findStereoKeypoints frame_status []).created.map StereoMatch.index_L).Nodup
    ∧ ((g.findStereoKeypoints frame_status []).created.map StereoMatch.index_best_R).Nodup
    ∧ ((g.findStereoKeypoints frame_status []).failure = none →
        (g.findStereoKeypoints frame_status []).generator.triangulation_success_ratios
          = g.triangulation_success_ratios
            ++ [((g.findStereoKeypoints frame_status []).created.length : ℚ)
                / (g.keypoints_with_descriptors_left.length : ℚ)]
        ∧ 0 ≤ ((g.findStereoKeypoints frame_status []).created.length : ℚ)
                / (g.keypoints_with_descriptors_left.length : ℚ)
        ∧ ((g.findStereoKeypoints frame_status []).created.length : ℚ)
                / (g.keypoints_with_descriptors_left.length : ℚ) ≤ 1) := by
  obtain ⟨hc, -, hcp, -, -⟩ := findStereoKeypoints_eq_sweep g frame_status []
  have hcp' : (g.findStereoKeypoints frame_status []).created_points
      = (g.findStereoKeypoints frame_status []).created := by
    rw [hcp, List.nil_append]
  have hinv := sweep_invariant g.sortFeatures (g.sortFeatures.matchingDistance frame_status)
    g.sortFeatures.keypoints_with_descriptors_left
    g.sortFeatures.keypoints_with_descriptors_right _ 0 0 (le_refl _)
  have hlen : (g.findStereoKeypoints frame_status []).created.length
      ≤ min g.keypoints_with_descriptors_left.length
          g.keypoints_with_descriptors_right.length := by
    rw [hc]
    have := sweep_created_length g.sortFeatures (g.sortFeatures.matchingDistance frame_status)
      g.sortFeatures.keypoints_with_descriptors_left
      g.sortFeatures.keypoints_with_descriptors_right
    rw [show g.sortFeatures.keypoints_with_descriptors_left
        = sortByRowColumn g.keypoints_with_descriptors_left from rfl,
      show g.sortFeatures.keypoints_with_descriptors_right
        = sortByRowColumn g.keypoints_with_descriptors_right from rfl,
      sortByRowColumn_length, sortByRowColumn_length] at this
    exact this
  have hpos : (0 : ℚ) < (g.keypoints_with_descriptors_left.length : ℚ) := by
    have : 0 < g.keypoints_with_descriptors_left.length := List.length_pos.2 hleft
    exact_mod_cast this
  refine ⟨hcp', hlen, ?_, ?_, ?_⟩
  · rw [hc, List.Nodup, List.pairwise_map]
    exact hinv.2.1.imp (fun h => Nat.ne_of_lt h.1)
  · rw [hc, List.Nodup, List.pairwise_map]
    exact hinv.2.1.imp (fun h => Nat.ne_of_lt h.2)
  · intro hcomplete
    refine ⟨?_, ?_, ?_⟩
    · obtain ⟨ratio, hratio, hhistory, -, -⟩ :=
        findStereoKeypoints_statistics g frame_status [] hcomplete
      rw [hhistory, hratio, hcp']
      rfl
    · exact div_nonneg (Nat.cast_nonneg _) (le_of_lt hpos)
    · rw [div_le_one hpos]
      have : (g.findStereoKeypoints frame_status []).created.length
          ≤ g.keypoints_with_descriptors_left.length := le_trans hlen (min_le_left _ _)
      exact_mod_cast this

/-- C20, at a concrete input: one left feature (row 10, column 50) and one right feature (row 10,
column 40); the invocation completes, creates one point and records the ratio 1. -/
theorem findStereoKeypoints_success_ratio_witness :
    (exampleGenerator (-100) [featureAt 10 50] [featureAt 10 40]).keypoints_with_descriptors_left
        ≠ []
    ∧ ((exampleGenerator (-100) [featureAt 10 50] [featureAt 10 40]).findStereoKeypoints
        Status.Tracking []).created.length ≤ min 1 1
    ∧ ((exampleGenerator (-100) [featureAt 10 50] [featureAt 10 40]).findStereoKeypoints
        Status.Tracking []).failure = none
    ∧ ((exampleGenerator (-100) [featureAt 10 50] [featureAt 10 40]).findStereoKeypoints
        Status.Tracking []).generator.triangulation_success_ratios = [1] := by
  have hl : (exampleGenerator (-100) [featureAt 10 50]
      [featureAt 10 40]).keypoints_with_descriptors_left ≠ [] := by
    simp [exampleGenerator]
  have h4 : (exampleGenerator (-100) [] []).getCoordinatesInCameraLeft ⟨50, 10⟩ ⟨40, 10⟩
      = .ok ⟨1, 1 / 5, 10⟩ := by
    norm_num [StereoFramePointGenerator.getCoordinatesInCameraLeft, exampleGenerator]
  have h5 := findStereoKeypoints_single_pair (-100)
  rw [h4] at h5
  have hfail : ((exampleGenerator (-100) [featureAt 10 50]
      [featureAt 10 40]).findStereoKeypoints Status.Tracking []).failure = none := by
    rw [(findStereoKeypoints_eq_sweep _ _ _).2.1]
    exact congrArg SweepResult.failure h5
  have hcreated : ((exampleGenerator (-100) [featureAt 10 50]
      [featureAt 10 40]).findStereoKeypoints Status.Tracking []).created.length = 1 := by
    rw [(findStereoKeypoints_eq_sweep _ _ _).1]
    exact congrArg (fun s => s.created.length) h5
  obtain ⟨-, hlen, -, -, hratio⟩ := findStereoKeypoints_success_ratio
    (exampleGenerator (-100) [featureAt 10 50] [featureAt 10 40]) Status.Tracking hl
  refine ⟨hl, hlen, hfail, ?_⟩
  rw [(hratio hfail).1, hcreated]
  norm_num [exampleGenerator]

/-- Recording a ratio keeps the rolling statistics consistent. -/
theorem updateAverage_consistent (g : StereoFramePointGenerator) (ratio : ℚ)
    (h : g.StatisticsConsistent) : (g.updateAverage ratio).StatisticsConsistent := by
  obtain ⟨hn, hsum⟩ := h
  have hpos : ((g.number_of_triangulations : ℚ) + 1) ≠ 0 := by positivity
  refine ⟨?_, ?_⟩
  · simp [StereoFramePointGenerator.updateAverage, hn]
  · simp only [StereoFramePointGenerator.updateAverage, List.sum_append, List.sum_singleton,
      Nat.cast_add, Nat.cast_one]
    rw [mul_div_cancel₀ _ hpos, hsum]

/-- Recording a sequence of ratios one by one appends them to the history and keeps the rolling
statistics consistent. -/
theorem foldl_updateAverage (ratios : List ℚ) :
    ∀ g : StereoFramePointGenerator, g.StatisticsConsistent →
      (ratios.foldl StereoFramePointGenerator.updateAverage g).triangulation_success_ratios
          = g.triangulation_success_ratios ++ ratios
      ∧ (ratios.foldl StereoFramePointGenerator.updateAverage g).StatisticsConsistent := by
  induction ratios with
  | nil => intro g h; exact ⟨by simp, h⟩
  | cons r rest ih =>
    intro g h
    obtain ⟨h1, h2⟩ := ih (g.updateAverage r) (updateAverage_consistent g r h)
    refine ⟨?_, h2⟩
    rw [List.foldl_cons, h1]
    simp [StereoFramePointGenerator.updateAverage]

/-- C12: for every non-empty sequence of triangulation success ratios `r_1..r_k` recorded one per
invocation by a generator that starts with zero recorded triangulations and an empty history, the
history afterwards is `r_1..r_k` and the running mean, computed incrementally as
`mean' = (n*mean + ratio)/(n+1)`, equals the arithmetic average `(r_1 + ... + r_k)/k`; and every
invocation of `findStereoKeypoints` that completes records its ratio by exactly this update. -/
theorem running_mean_is_average (g0 : StereoFramePointGenerator) (ratios : List ℚ)
    (hzero : g0.number_of_triangulations = 0) (hhistory : g0.triangulation_success_ratios = [])
    (hne : ratios ≠ []) :
    (ratios.foldl StereoFramePointGenerator.updateAverage g0).triangulation_success_ratios
        = ratios
    ∧ (ratios.foldl StereoFramePointGenerator.updateAverage g0).number_of_triangulations
        = ratios.length
    ∧ (ratios.foldl StereoFramePointGenerator.updateAverage g0).mean_triangulation_success_ratio
        = ratios.sum / (ratios.length : ℚ)
    ∧ (∀ (g : StereoFramePointGenerator) (ratio : ℚ),
        (g.updateAverage ratio).mean_triangulation_success_ratio
          = ((g.number_of_triangulations : ℚ) * g.mean_triangulation_success_ratio + ratio)
              / ((g.number_of_triangulations : ℚ) + 1))
    ∧ (∀ (g : StereoFramePointGenerator) (frame_status : Status)
        (frame_created_points : List StereoMatch),
        (g.findStereoKeypoints frame_status frame_created_points).failure = none →
        ∃ ratio : ℚ,
          (g.findStereoKeypoints frame_status frame_created_points).generator.triangulation_success_ratios
              = (g.updateAverage ratio).triangulation_success_ratios
          ∧ (g.findStereoKeypoints frame_status frame_created_points).generator.mean_triangulation_success_ratio
              = (g.updateAverage ratio).mean_triangulation_success_ratio
          ∧ (g.findStereoKeypoints frame_status frame_created_points).generator.number_of_triangulations
              = (g.updateAverage ratio).number_of_triangulations) := by
  have hstart : g0.StatisticsConsistent := by
    refine ⟨by rw [hzero, hhistory]; rfl, ?_⟩
    rw [hzero, hhistory]
    simp
  obtain ⟨h1, h2, h3⟩ := foldl_updateAverage ratios g0 hstart
  rw [hhistory, List.nil_append] at h1
  rw [h1] at h2 h3
  have hpos : (ratios.length : ℚ) ≠ 0 := by
    have : 0 < ratios.length := List.length_pos.2 hne
    exact_mod_cast this.ne'
  refine ⟨h1, h2, ?_, fun _ _ => rfl, ?_⟩
  · rw [eq_div_iff hpos, mul_comm, ← h3, h2]
  · intro g frame_status frame_created_points hcomplete
    obtain ⟨ratio, -, ha, hb, hc⟩ :=
      findStereoKeypoints_statistics g frame_status frame_created_points hcomplete
    exact ⟨ratio, ha, hb, hc⟩

/-- C12, at a concrete input: the ratios 1.0 then 0.5, recorded by a generator without recorded
triangulations, give the running means 1.0 and then 0.75. -/
theorem running_mean_is_average_witness :
    ((exampleGenerator (-100) [] []).number_of_triangulations = 0
      ∧ (exampleGenerator (-100) [] []).triangulation_success_ratios = []
      ∧ ([1, 1 / 2] : List ℚ) ≠ [])
    ∧ (([1] : List ℚ).foldl StereoFramePointGenerator.updateAverage
        (exampleGenerator (-100) [] [])).mean_triangulation_success_ratio = 1
    ∧ (([1, 1 / 2] : List ℚ).foldl StereoFramePointGenerator.updateAverage
        (exampleGenerator (-100) [] [])).mean_triangulation_success_ratio = 3 / 4
    ∧ (([1, 1 / 2] : List ℚ).foldl StereoFramePointGenerator.updateAverage
        (exampleGenerator (-100) [] [])).triangulation_success_ratios = [1, 1 / 2] := by
  have ha := running_mean_is_average (exampleGenerator (-100) [] []) [1] rfl rfl (by simp)
  have hb := running_mean_is_average (exampleGenerator (-100) [] []) [1, 1 / 2] rfl rfl
    (by simp)
  refine ⟨⟨rfl, rfl, by simp⟩, ?_, ?_, hb.1⟩
  · rw [ha.2.2.1]; norm_num
  · rw [hb.2.2.1]; norm_num

/-- A scanned index other than the cursor is scanned from the next cursor position as well. -/
theorem Scanned.next {g : StereoFramePointGenerator} {L R : List IntensityFeature}
    {index_L cursor j : Nat} (h : Scanned g L R index_L cursor j) (hj : cursor < j) :
    Scanned g L R index_L (cursor + 1) j := by
  refine ⟨hj, fun k hk hkj => ?_⟩
  obtain ⟨hl, hr, hrow, hdisp, -⟩ := h.2 k (by omega) hkj
  exact ⟨hl, hr, hrow, hdisp, hk⟩

/-- The accumulation of a sum by a loop. -/
theorem foldl_add_eq_sum (f : ℚ → ℚ) (l : List ℚ) :
    ∀ a : ℚ, l.foldl (fun acc r => acc + f r) a = a + (l.map f).sum := by
  induction l with
  | nil => intro a; simp
  | cons x rest ih =>
    intro a
    rw [List.foldl_cons, ih, List.map_cons, List.sum_cons, add_assoc]

/-- The consistency of the rolling statistics, in words: the number of recorded triangulations is
the length of the history and, when the history is not empty, the running mean is the arithmetic
mean of the history. -/
theorem statisticsConsistent_iff (g : StereoFramePointGenerator) :
    g.StatisticsConsistent
      ↔ g.number_of_triangulations = g.triangulation_success_ratios.length
        ∧ (g.triangulation_success_ratios ≠ [] →
            g.mean_triangulation_success_ratio
              = g.triangulation_success_ratios.sum
                / (g.triangulation_success_ratios.length : ℚ)) := by
  unfold StereoFramePointGenerator.StatisticsConsistent
  constructor
  · rintro ⟨hn, hsum⟩
    refine ⟨hn, fun hne => ?_⟩
    have hpos : (g.triangulation_success_ratios.length : ℚ) ≠ 0 := by
      have : 0 < g.triangulation_success_ratios.length := List.length_pos.2 hne
      exact_mod_cast this.ne'
    rw [hn] at hsum
    rw [eq_div_iff hpos, mul_comm, hsum]
  · rintro ⟨hn, hmean⟩
    refine ⟨hn, ?_⟩
    by_cases hne : g.triangulation_success_ratios = []
    · rw [hn, hne]; simp
    · have hpos : (g.triangulation_success_ratios.length : ℚ) ≠ 0 := by
        have : 0 < g.triangulation_success_ratios.length := List.length_pos.2 hne
        exact_mod_cast this.ne'
      rw [hn, hmean hne, mul_div_cancel₀ _ hpos]

/-- An invocation of `findStereoKeypoints`, completed or not, keeps the rolling statistics
consistent. -/
theorem findStereoKeypoints_consistent (g : StereoFramePointGenerator) (frame_status : Status)
    (frame_created_points : List StereoMatch) (h : g.StatisticsConsistent) :
    (g.findStereoKeypoints frame_status frame_created_points).generator.StatisticsConsistent := by
  unfold StereoFramePointGenerator.findStereoKeypoints
  simp only
  split
  · exact h
  · exact updateAverage_consistent
      { g.sortFeatures with
        framepoints_in_image := _
        number_of_available_points := _ } _ h

/-- With consistent rolling statistics and a history that is not empty, the value of which
`standardDeviationTriangulationSuccessRatio` returns the square root is the population variance
of the history. -/
theorem squaredStandardDeviation_of_consistent (g : StereoFramePointGenerator)
    (h : g.StatisticsConsistent) (hne : g.triangulation_success_ratios ≠ []) :
    g.squaredStandardDeviationTriangulationSuccessRatio
      = populationVariance g.triangulation_success_ratios := by
  have hmean := ((statisticsConsistent_iff g).1 h).2 hne
  unfold StereoFramePointGenerator.squaredStandardDeviationTriangulationSuccessRatio
    populationVariance
  rw [foldl_add_eq_sum (fun r => (g.mean_triangulation_success_ratio - r)
    * (g.mean_triangulation_success_ratio - r)), zero_add, ← hmean]
  congr 2
  exact List.map_congr_left (fun r _ => by ring)

/-- What `configure` does to the rolling statistics: it empties the history and writes neither the
number of recorded triangulations nor the running mean, which keep the values that the base-class
configuration leaves. -/
theorem configure_statistics (g g1 : StereoFramePointGenerator) (projection_matrix_right_0_3 : ℚ)
    (base_configure : StereoFramePointGenerator → StereoFramePointGenerator)
    (h : g.configure true projection_matrix_right_0_3 base_configure = .ok g1) :
    g1.triangulation_success_ratios = []
    ∧ g1.number_of_triangulations
        = (base_configure
            { g with parameters := { g.parameters with number_of_cameras := 2 } }).number_of_triangulations
    ∧ g1.mean_triangulation_success_ratio
        = (base_configure
            { g with parameters := { g.parameters with number_of_cameras := 2 } }).mean_triangulation_success_ratio := by
  unfold StereoFramePointGenerator.configure at h
  simp only [if_true] at h
  cases h
  exact ⟨rfl, rfl, rfl⟩

/-- C21, at a concrete input where the code breaks the claim: after one invocation of
`findStereoKeypoints` the rolling statistics are consistent (history `[1]`, one recorded
triangulation, mean 1); a second `configure` empties the history and keeps the number of recorded
triangulations and the mean, so the statistics are no longer consistent; after the next invocation
(ratio 0) the history is `[0]` while the number of recorded triangulations is 2 and the mean is
1/2, and `standardDeviationTriangulationSuccessRatio` returns the square root of 1/4 although the
population variance of the history is 0. -/
theorem configure_leaves_stale_statistics :
    generatorAfterOneFrame.StatisticsConsistent
    ∧ generatorAfterOneFrame.triangulation_success_ratios = [1]
    ∧ generatorAfterOneFrame.number_of_triangulations = 1
    ∧ generatorAfterOneFrame.mean_triangulation_success_ratio = 1
    ∧ (∃ configured, generatorAfterOneFrame.configure true (-100) id = .ok configured
        ∧ configured.triangulation_success_ratios = []
        ∧ configured.number_of_triangulations = 1
        ∧ configured.mean_triangulation_success_ratio = 1
        ∧ ¬ configured.StatisticsConsistent)
    ∧ (∃ run, reconfiguredRun = .ok run
        ∧ run.failure = none
        ∧ run.generator.triangulation_success_ratios = [0]
        ∧ run.generator.number_of_triangulations = 2
        ∧ run.generator.mean_triangulation_success_ratio = 1 / 2
        ∧ ¬ run.generator.StatisticsConsistent
        ∧ run.generator.squaredStandardDeviationTriangulationSuccessRatio = 1 / 4
        ∧ populationVariance run.generator.triangulation_success_ratios = 0) := by
  -- the first invocation
  have h0 : (exampleGenerator (-100) [featureAt 10 50] [featureAt 10 40]).StatisticsConsistent :=
    ⟨rfl, by simp [exampleGenerator]⟩
  have hcons : generatorAfterOneFrame.StatisticsConsistent :=
    findStereoKeypoints_consistent _ Status.Tracking [] h0
  have h4 : (exampleGenerator (-100) [] []).getCoordinatesInCameraLeft ⟨50, 10⟩ ⟨40, 10⟩
      = .ok ⟨1, 1 / 5, 10⟩ := by
    norm_num [StereoFramePointGenerator.getCoordinatesInCameraLeft, exampleGenerator]
  have h5 := findStereoKeypoints_single_pair (-100)
  rw [h4] at h5
  have hfail : ((exampleGenerator (-100) [featureAt 10 50]
      [featureAt 10 40]).findStereoKeypoints Status.Tracking []).failure = none := by
    rw [(findStereoKeypoints_eq_sweep _ _ _).2.1]
    exact congrArg SweepResult.failure h5
  have hpoints : ((exampleGenerator (-100) [featureAt 10 50]
      [featureAt 10 40]).findStereoKeypoints Status.Tracking []).created_points.length = 1 := by
    rw [(findStereoKeypoints_eq_sweep _ _ _).2.2.1, (findStereoKeypoints_eq_sweep _ _ _).1]
    exact congrArg (fun s => ([] ++ s.created).length) h5
  obtain ⟨ratio, hratio, hh, hm, hn⟩ := findStereoKeypoints_statistics
    (exampleGenerator (-100) [featureAt 10 50] [featureAt 10 40]) Status.Tracking [] hfail
  rw [hpoints] at hratio
  have hone : ratio = 1 := by rw [hratio]; norm_num [exampleGenerator]
  rw [hone] at hh hm hn
  have hh1 : generatorAfterOneFrame.triangulation_success_ratios = [1] := by
    rw [generatorAfterOneFrame, hh]; rfl
  have hn1 : generatorAfterOneFrame.number_of_triangulations = 1 := by
    rw [generatorAfterOneFrame, hn]; rfl
  have hm1 : generatorAfterOneFrame.mean_triangulation_success_ratio = 1 := by
    rw [generatorAfterOneFrame, hm]
    norm_num [StereoFramePointGenerator.updateAverage, exampleGenerator]
  -- the second configuration
  obtain ⟨configured, hconf⟩ :
      ∃ configured, generatorAfterOneFrame.configure true (-100) id = .ok configured := by
    unfold StereoFramePointGenerator.configure
    simp only [if_true]
    exact ⟨_, rfl⟩
  obtain ⟨hch, hcn, hcm⟩ := configure_statistics _ _ _ _ hconf
  have hcn1 : configured.number_of_triangulations = 1 := by rw [hcn]; exact hn1
  have hcm1 : configured.mean_triangulation_success_ratio = 1 := by rw [hcm]; exact hm1
  have hbroken : ¬ configured.StatisticsConsistent := by
    intro hc
    have := hc.1
    rw [hcn1, hch] at this
    cases this
  -- the second invocation
  obtain ⟨initialized, hinit, hih, hin, him, hil, hir⟩ :
      ∃ initialized, configured.initialize leftOnlyFrameFeatures = .ok initialized
        ∧ initialized.triangulation_success_ratios = []
        ∧ initialized.number_of_triangulations = 1
        ∧ initialized.mean_triangulation_success_ratio = 1
        ∧ initialized.keypoints_with_descriptors_left = [featureAt 10 50]
        ∧ initialized.keypoints_with_descriptors_right = [] :=
    ⟨_, initialize_eq configured leftOnlyFrameFeatures rfl rfl, hch, hcn1, hcm1, rfl, rfl⟩
  have hrun : reconfiguredRun = .ok (initialized.findStereoKeypoints Status.Tracking []) := by
    unfold reconfiguredRun
    rw [hconf]
    simp only [bind, Except.bind, hinit, pure, Except.pure]
  have hfail2 : (initialized.findStereoKeypoints Status.Tracking []).failure = none
      ∧ (initialized.findStereoKeypoints Status.Tracking []).created_points = [] := by
    rw [(findStereoKeypoints_eq_sweep _ _ _).2.1, (findStereoKeypoints_eq_sweep _ _ _).2.2.1,
      (findStereoKeypoints_eq_sweep _ _ _).1, sweep_eq]
    simp [StereoFramePointGenerator.sortFeatures, sortByRowColumn, hil, hir]
  obtain ⟨ratio2, hratio2, hh2, hm2, hn2⟩ :=
    findStereoKeypoints_statistics initialized Status.Tracking [] hfail2.1
  rw [hfail2.2] at hratio2
  have hzero : ratio2 = 0 := by rw [hratio2]; simp
  rw [hzero] at hh2 hm2 hn2
  have hh3 : (initialized.findStereoKeypoints
      Status.Tracking []).generator.triangulation_success_ratios = [0] := by
    rw [hh2]
    show initialized.triangulation_success_ratios ++ [0] = [0]
    rw [hih]; rfl
  have hn3 : (initialized.findStereoKeypoints
      Status.Tracking []).generator.number_of_triangulations = 2 := by
    rw [hn2]
    show initialized.number_of_triangulations + 1 = 2
    rw [hin]
  have hm3 : (initialized.findStereoKeypoints
      Status.Tracking []).generator.mean_triangulation_success_ratio = 1 / 2 := by
    rw [hm2]
    show ((initialized.number_of_triangulations : ℚ)
      * initialized.mean_triangulation_success_ratio + 0)
        / ((initialized.number_of_triangulations : ℚ) + 1) = 1 / 2
    rw [hin, him]; norm_num
  refine ⟨hcons, hh1, hn1, hm1, ⟨configured, hconf, hch, hcn1, hcm1, hbroken⟩,
    ⟨_, hrun, hfail2.1, hh3, hn3, hm3, ?_, ?_, ?_⟩⟩
  · intro hc
    have := hc.1
    rw [hn3, hh3] at this
    cases this
  · unfold StereoFramePointGenerator.squaredStandardDeviationTriangulationSuccessRatio
    rw [hh3, hm3]
    norm_num
  · rw [hh3]
    norm_num [populationVariance]

end proslam
